import Mathlib

/-! DiscordSleepTracker: the sleep-interval accounting.

A shallow embedding of the interval accounting of `src/engindex.js`
(`src/jpindex.js` carries the same code with Japanese labels):

* `getAverageSleepDuration` and `getAverageAwakeTime`: the `rows.forEach` folds that
  turn the rows of one user into an average number of minutes;
* `calculateWeeklySleepStats`: the per-user weekly totals;
* `generateStatsEmbed`: the ranking (`Object.entries(..).sort(..).slice(0, 10)`);
* the event store: `updateUserStatus`, `clearUserSleepRecords` and the queries of
  `getUserStatus`, `getLastRecord`, `getWeeklySleepData`, `getServerAverageSleepTime`;
* the timestamp format of `getJapanTime` and the seven-day window of
  `getWeeklySleepData`;
* `handleStatusCommand`: the loop over the users of the guild and the status
  projection of its body, and the privileged commands `handleSetStatusCommand` and
  `handleClearCommand`;
* the program state: the buttons of `interactionCreate` with the map
  `resetConfirmationPending`, the reactions of `messageReactionAdd`, and the reminder
  of `updateStatusMessage` with the set `remindedUsers`.

Modelling conventions.

* A row of `sleep_records` is a `SleepRecord`; all five columns are `TEXT`.
* A luxon `DateTime` is `Option Int`: `some m` is a valid instant, `m` minutes after
  the epoch, and `none` is an invalid `DateTime` (luxon does not throw on text it
  cannot read, it returns an invalid object, and such an object is still truthy).
  The call `DateTime.fromFormat(ts, 'yyyy-MM-dd HH:mm', { zone: 'Asia/Tokyo' })` is a
  library call: the folds take it as the argument `fromFormat`, and
  `fromFormatTokyo` below is a concrete reading of it for the fixed UTC+9 offset.
* `a.diff(b, 'minutes').minutes` is `DateTime.diffMinutes a b : Option Int`, where
  `none` is `NaN` (a difference with an invalid operand). Timestamps have minute
  resolution, so a difference of two valid ones is a whole number of minutes.
* JavaScript numbers are modelled exactly: the running totals are integers (sums of
  whole minutes, exact in a double below `2^53`) and the average is the rational
  `total / sessions`.
* The table `sleep_records` is the list of its rows; `TEXT` values compare as SQLite
  compares them under the `BINARY` collation, and `ORDER BY` is a stable sort (rows
  that a query sorts have distinct sort keys under the primary key, so the result
  does not depend on the algorithm).
* The plain object `userSleepStats` is an association list in insertion order. This
  is the iteration order of `Object.entries` for keys that are not canonical array
  indices; Discord user ids are snowflakes (decimal numerals far above `2^32`), which
  are such keys.
* The handlers are steps on the state `AppState`, each one complete before the next
  starts; `Date.now()` and the outcome of `member.send` are arguments of the steps.
-/

namespace SleepTracker

/-! ## Data model -/

/-- One row of the table `sleep_records(user_id, guild_id, status, timestamp,
record_type)`. -/
structure SleepRecord where
  user_id : String
  guild_id : String
  status : String
  timestamp : String
  record_type : String
deriving DecidableEq, Repr

/-- A luxon `DateTime`: `some m` is the valid instant `m` minutes after the epoch,
`none` is an invalid `DateTime`. -/
abbrev DateTime := Option Int

/-- The value of `later.diff(earlier, 'minutes').minutes`: the number of minutes
between two valid instants, `none` (`NaN`) when either is invalid. -/
def DateTime.diffMinutes (later earlier : DateTime) : Option Int :=
  match later, earlier with
  | some a, some b => some (a - b)
  | _, _ => none

/-! ## A concrete `DateTime.fromFormat` for `'yyyy-MM-dd HH:mm'` at UTC+9 -/

/-- The value of a decimal digit, `none` for any other character. -/
def digitValue (c : Char) : Option Nat :=
  if 48 ≤ c.toNat ∧ c.toNat ≤ 57 then some (c.toNat - 48) else none

/-- Gregorian leap years. -/
def isLeapYear (y : Nat) : Bool :=
  y % 4 = 0 ∧ (y % 100 ≠ 0 ∨ y % 400 = 0)

/-- The number of days of month `m` (1 to 12) of year `y`. -/
def daysInMonth (y m : Nat) : Nat :=
  if m = 2 then (if isLeapYear y then 29 else 28)
  else if m = 4 ∨ m = 6 ∨ m = 9 ∨ m = 11 then 30
  else 31

/-- Days from 1970-01-01 to the civil date `y-m-d` of the proleptic Gregorian
calendar (negative before 1970). -/
def daysFromCivil (y m d : Nat) : Int :=
  let y1 : Int := if m ≤ 2 then (y : Int) - 1 else (y : Int)
  let era : Int := y1 / 400
  let yoe : Int := y1 - era * 400
  let mp : Int := if m ≤ 2 then (m : Int) + 9 else (m : Int) - 3
  let doy : Int := (153 * mp + 2) / 5 + (d : Int) - 1
  let doe : Int := yoe * 365 + yoe / 4 - yoe / 100 + doy
  era * 146097 + doe - 719468

/-- A reading of `DateTime.fromFormat(ts, 'yyyy-MM-dd HH:mm', { zone: 'Asia/Tokyo' })`
with Asia/Tokyo taken as the fixed offset UTC+9: the text must be four, two, two, two
and two digits with the separators `-`, `-`, space and `:`, and name a real calendar
date and a time of day (luxon also reads hour 24 with minute 0, as the end of the
day); the result is the minute of the epoch (UTC). It serves to evaluate the concrete
scenarios; the general theorems hold for every `fromFormat`. -/
def fromFormatTokyo (ts : String) : DateTime :=
  match ts.toList with
  | [y1, y2, y3, y4, s1, m1, m2, s2, d1, d2, s3, h1, h2, s4, n1, n2] =>
    if s1 = '-' ∧ s2 = '-' ∧ s3 = ' ' ∧ s4 = ':' then
      match digitValue y1, digitValue y2, digitValue y3, digitValue y4,
            digitValue m1, digitValue m2, digitValue d1, digitValue d2,
            digitValue h1, digitValue h2, digitValue n1, digitValue n2 with
      | some a, some b, some c, some d, some e, some f, some g, some h,
        some i, some j, some k, some l =>
        let year := 1000 * a + 100 * b + 10 * c + d
        let month := 10 * e + f
        let day := 10 * g + h
        let hour := 10 * i + j
        let minute := 10 * k + l
        if 1 ≤ month ∧ month ≤ 12 ∧ 1 ≤ day ∧ day ≤ daysInMonth year month
            ∧ (hour ≤ 23 ∨ (hour = 24 ∧ minute = 0)) ∧ minute ≤ 59 then
          some ((daysFromCivil year month day * 24 + (hour : Int)) * 60
                + (minute : Int) - 540)
        else none
      | _, _, _, _, _, _, _, _, _, _, _, _ => none
    else none
  | _ => none

/-! ## `getAverageSleepDuration` -/

/-- The three local variables of the fold in `getAverageSleepDuration`;
`sleepStart = none` is `null`. -/
structure SleepAcc where
  totalSleepDuration : Int
  sleepSessions : Nat
  sleepStart : Option DateTime
deriving DecidableEq, Repr

/-- The callback of `rows.forEach` in `getAverageSleepDuration`. -/
def getAverageSleepDuration_forEach (fromFormat : String → DateTime)
    (acc : SleepAcc) (record : SleepRecord) : SleepAcc :=
  if record.record_type = "sleep" then
    { acc with sleepStart := some (fromFormat record.timestamp) }
  else if record.record_type = "wakeup" then
    match acc.sleepStart with
    | none => acc
    | some sleepStart =>
      let wakeTime := fromFormat record.timestamp
      match DateTime.diffMinutes wakeTime sleepStart with
      | some duration =>
        if duration > 0 then
          { totalSleepDuration := acc.totalSleepDuration + duration
            sleepSessions := acc.sleepSessions + 1
            sleepStart := none }
        else { acc with sleepStart := none }
      | none => { acc with sleepStart := none }
  else acc

/-- The state of the fold of `getAverageSleepDuration` after all rows. -/
def getAverageSleepDuration_fold (fromFormat : String → DateTime)
    (rows : List SleepRecord) : SleepAcc :=
  rows.foldl (getAverageSleepDuration_forEach fromFormat)
    { totalSleepDuration := 0, sleepSessions := 0, sleepStart := none }

/-- The value `getAverageSleepDuration` resolves to on the rows of its query:
`none` is `null`. -/
def getAverageSleepDuration (fromFormat : String → DateTime)
    (rows : List SleepRecord) : Option ℚ :=
  let acc := getAverageSleepDuration_fold fromFormat rows
  if acc.sleepSessions = 0 then none
  else some ((acc.totalSleepDuration : ℚ) / (acc.sleepSessions : ℚ))

/-! ## `getAverageAwakeTime` -/

/-- The three local variables of the fold in `getAverageAwakeTime`;
`lastWakeTime = none` is `null`. -/
structure AwakeAcc where
  totalAwakeMinutes : Int
  awakeSessions : Nat
  lastWakeTime : Option DateTime
deriving DecidableEq, Repr

/-- The callback of `rows.forEach` in `getAverageAwakeTime`. -/
def getAverageAwakeTime_forEach (fromFormat : String → DateTime)
    (acc : AwakeAcc) (record : SleepRecord) : AwakeAcc :=
  if record.record_type = "wakeup" then
    { acc with lastWakeTime := some (fromFormat record.timestamp) }
  else if record.record_type = "sleep" then
    match acc.lastWakeTime with
    | none => acc
    | some lastWakeTime =>
      let sleepTime := fromFormat record.timestamp
      match DateTime.diffMinutes sleepTime lastWakeTime with
      | some awakeDuration =>
        if awakeDuration > 0 then
          { totalAwakeMinutes := acc.totalAwakeMinutes + awakeDuration
            awakeSessions := acc.awakeSessions + 1
            lastWakeTime := none }
        else { acc with lastWakeTime := none }
      | none => { acc with lastWakeTime := none }
  else acc

/-- The state of the fold of `getAverageAwakeTime` after all rows. -/
def getAverageAwakeTime_fold (fromFormat : String → DateTime)
    (rows : List SleepRecord) : AwakeAcc :=
  rows.foldl (getAverageAwakeTime_forEach fromFormat)
    { totalAwakeMinutes := 0, awakeSessions := 0, lastWakeTime := none }

/-- The value `getAverageAwakeTime` resolves to on the rows of its query:
`none` is `null`. -/
def getAverageAwakeTime (fromFormat : String → DateTime)
    (rows : List SleepRecord) : Option ℚ :=
  let acc := getAverageAwakeTime_fold fromFormat rows
  if acc.awakeSessions = 0 then none
  else some ((acc.totalAwakeMinutes : ℚ) / (acc.awakeSessions : ℚ))

/-! ## `calculateWeeklySleepStats` -/

/-- The value stored per user in `userSleepStats`; `sleepStart = none` is `null`. -/
structure UserSleepStat where
  totalSleepMinutes : Int
  sleepStart : Option DateTime
deriving DecidableEq, Repr

/-- The object `userSleepStats`: user ids with their values, in insertion order. -/
abbrev UserSleepStats := List (String × UserSleepStat)

/-- The read `userSleepStats[userId]`; `none` is `undefined`. -/
def UserSleepStats.get (userSleepStats : UserSleepStats) (userId : String) :
    Option UserSleepStat :=
  List.lookup userId userSleepStats

/-- An update of the value stored under `userId`, which keeps its place. -/
def UserSleepStats.modify :
    UserSleepStats → String → (UserSleepStat → UserSleepStat) → UserSleepStats
  | [], _, _ => []
  | (k, v) :: rest, userId, f =>
    if k = userId then (k, f v) :: rest
    else (k, v) :: UserSleepStats.modify rest userId f

/-- The callback of `sleepData.forEach` in `calculateWeeklySleepStats`. -/
def calculateWeeklySleepStats_forEach (fromFormat : String → DateTime)
    (userSleepStats : UserSleepStats) (record : SleepRecord) : UserSleepStats :=
  let userId := record.user_id
  let userSleepStats :=
    match userSleepStats.get userId with
    | none => userSleepStats ++ [(userId, { totalSleepMinutes := 0, sleepStart := none })]
    | some _ => userSleepStats
  if record.record_type = "sleep" then
    userSleepStats.modify userId fun stat =>
      { stat with sleepStart := some (fromFormat record.timestamp) }
  else if record.record_type = "wakeup" then
    userSleepStats.modify userId fun stat =>
      match stat.sleepStart with
      | none => stat
      | some sleepStart =>
        let wakeTime := fromFormat record.timestamp
        match DateTime.diffMinutes wakeTime sleepStart with
        | some sleepDuration =>
          if sleepDuration > 0 then
            { totalSleepMinutes := stat.totalSleepMinutes + sleepDuration
              sleepStart := none }
          else { stat with sleepStart := none }
        | none => { stat with sleepStart := none }
  else userSleepStats

/-- The object returned by `calculateWeeklySleepStats(sleepData)`. -/
def calculateWeeklySleepStats (fromFormat : String → DateTime)
    (sleepData : List SleepRecord) : UserSleepStats :=
  sleepData.foldl (calculateWeeklySleepStats_forEach fromFormat) []

/-! ## The ranking of `generateStatsEmbed` -/

/-- The order of the comparator `(a, b) => b[1].totalSleepMinutes - a[1].totalSleepMinutes`:
`a` may stand before `b`. -/
def rankBefore (a b : String × UserSleepStat) : Prop :=
  b.2.totalSleepMinutes ≤ a.2.totalSleepMinutes

instance : DecidableRel rankBefore := fun a b =>
  inferInstanceAs (Decidable (b.2.totalSleepMinutes ≤ a.2.totalSleepMinutes))

instance : IsTotal (String × UserSleepStat) rankBefore :=
  ⟨fun a b => Int.le_total b.2.totalSleepMinutes a.2.totalSleepMinutes⟩

instance : IsTrans (String × UserSleepStat) rankBefore :=
  ⟨fun _ _ _ hab hbc => Int.le_trans hbc hab⟩

/-- The call `Object.entries(sleepStats).sort(..)`. `Array.prototype.sort` is a stable
sort, and the stable sort of a list by a total preorder is unique, so insertion
sort computes it. -/
def sortEntries (sleepStats : UserSleepStats) : List (String × UserSleepStat) :=
  sleepStats.insertionSort rankBefore

/-- The list `sortedUsers` of `generateStatsEmbed`:
`Object.entries(sleepStats).sort(..).slice(0, 10)`. -/
def sortedUsers (sleepStats : UserSleepStats) : List (String × UserSleepStat) :=
  (sortEntries sleepStats).take 10

/-- The list `sortedUsers` that `generateStatsEmbed` builds from the rows of
`getWeeklySleepData`. -/
def generateStatsEmbed_sortedUsers (fromFormat : String → DateTime)
    (sleepData : List SleepRecord) : List (String × UserSleepStat) :=
  sortedUsers (calculateWeeklySleepStats fromFormat sleepData)

/-! ## Exchange of the record-type roles -/

/-- The row with `'sleep'` and `'wakeup'` exchanged in `record_type`. -/
def swapRecordType (record : SleepRecord) : SleepRecord :=
  { record with
    record_type :=
      if record.record_type = "sleep" then "wakeup"
      else if record.record_type = "wakeup" then "sleep"
      else record.record_type }

/-- The variables of the awake fold read as variables of the sleep fold. -/
def AwakeAcc.toSleepAcc (acc : AwakeAcc) : SleepAcc :=
  { totalSleepDuration := acc.totalAwakeMinutes
    sleepSessions := acc.awakeSessions
    sleepStart := acc.lastWakeTime }

/-! ## Rows of the scenarios -/

/-- A row of user `userId` in guild `G`. -/
def mkRecord (userId status timestamp recordType : String) : SleepRecord :=
  { user_id := userId, guild_id := "G", status := status, timestamp := timestamp,
    record_type := recordType }

/-- A `sleep` row of user `U`, as the sleep button writes it. -/
def sleepAt (timestamp : String) : SleepRecord := mkRecord "U" "🌙" timestamp "sleep"

/-- A `wakeup` row of user `U`, as the wake-up button writes it. -/
def wakeupAt (timestamp : String) : SleepRecord := mkRecord "U" "☀️" timestamp "wakeup"

/-- Rows of three users, in the order `V`, `W`, `U` of their first rows: `V` and `U`
sleep 480 minutes each, `W` sleeps 900 minutes. -/
def tieRows : List SleepRecord :=
  [mkRecord "V" "🌙" "2024-01-01 23:00" "sleep",
   mkRecord "W" "🌙" "2024-01-01 20:00" "sleep",
   mkRecord "V" "☀️" "2024-01-02 07:00" "wakeup",
   mkRecord "U" "🌙" "2024-01-02 23:00" "sleep",
   mkRecord "W" "☀️" "2024-01-02 11:00" "wakeup",
   mkRecord "U" "☀️" "2024-01-03 07:00" "wakeup"]

/-! ## Auxiliary definitions of the statements and proofs -/

/-- The update that a `wakeup` record applies to the value of its user. -/
def wakeupUpdate (ff : String → DateTime) (record : SleepRecord)
    (stat : UserSleepStat) : UserSleepStat :=
  match stat.sleepStart with
  | none => stat
  | some sleepStart =>
    match DateTime.diffMinutes (ff record.timestamp) sleepStart with
    | some sleepDuration =>
      if sleepDuration > 0 then
        { totalSleepMinutes := stat.totalSleepMinutes + sleepDuration
          sleepStart := none }
      else { stat with sleepStart := none }
    | none => { stat with sleepStart := none }

/-- The number of rows with the given record type. -/
def countType (recordType : String) (rows : List SleepRecord) : Nat :=
  rows.countP fun r => r.record_type = recordType

/-- One if the marker is set, zero if it is `null`. -/
def openCount (marker : Option DateTime) : Nat :=
  if marker.isSome then 1 else 0

/-! ## The event store

The table `sleep_records` is the list of its rows in rowid order. `INSERT OR REPLACE`
deletes the row with the same primary key `(user_id, guild_id, timestamp)`, if any,
and appends the new row; `DELETE` filters. Storage failures (the `reject` branches) are
not modelled: the database always answers. -/

/-- The rows of `sleep_records`, in rowid order. -/
abbrev Store := List SleepRecord

/-- The comparison `<` of SQLite on `TEXT` (the `BINARY` collation): lexicographic on
the characters, which is the order of the UTF-8 bytes. -/
def textLT (a b : String) : Prop := a.toList < b.toList

instance : DecidableRel textLT := fun a b =>
  inferInstanceAs (Decidable (a.toList < b.toList))

/-- The comparison `<=` of SQLite on `TEXT`. -/
def textLE (a b : String) : Prop := ¬ textLT b a

instance : DecidableRel textLE := fun a b =>
  inferInstanceAs (Decidable (¬ textLT b a))

/-- The primary key `(user_id, guild_id, timestamp)` of a row. -/
def primaryKey (r : SleepRecord) : String × String × String :=
  (r.user_id, r.guild_id, r.timestamp)

/-- The statement of `updateUserStatus`:
`INSERT OR REPLACE INTO sleep_records (...) VALUES (?, ?, ?, ?, ?)`. -/
def updateUserStatus (db : Store) (userId guildId status timestamp recordType : String) :
    Store :=
  db.filter (fun r => ¬ (r.user_id = userId ∧ r.guild_id = guildId ∧ r.timestamp = timestamp))
    ++ [{ user_id := userId, guild_id := guildId, status := status,
          timestamp := timestamp, record_type := recordType }]

/-- The statement of `clearUserSleepRecords` (and of the reset button and the reset
reaction): `DELETE FROM sleep_records WHERE user_id = ? AND guild_id = ?`. -/
def clearUserSleepRecords (db : Store) (userId guildId : String) : Store :=
  db.filter (fun r => ¬ (r.user_id = userId ∧ r.guild_id = guildId))

/-- The order of `ORDER BY timestamp ASC`. -/
def timestampAsc (a b : SleepRecord) : Prop := textLE a.timestamp b.timestamp

instance : DecidableRel timestampAsc := fun a b =>
  inferInstanceAs (Decidable (textLE a.timestamp b.timestamp))

/-- The order of `ORDER BY timestamp DESC`. -/
def timestampDesc (a b : SleepRecord) : Prop := textLE b.timestamp a.timestamp

instance : DecidableRel timestampDesc := fun a b =>
  inferInstanceAs (Decidable (textLE b.timestamp a.timestamp))

/-- The order of `ORDER BY user_id, timestamp ASC`. -/
def userTimestampAsc (a b : SleepRecord) : Prop :=
  textLT a.user_id b.user_id ∨ (a.user_id = b.user_id ∧ textLE a.timestamp b.timestamp)

instance : DecidableRel userTimestampAsc := fun a b =>
  inferInstanceAs (Decidable
    (textLT a.user_id b.user_id ∨ (a.user_id = b.user_id ∧ textLE a.timestamp b.timestamp)))

instance : IsTotal SleepRecord timestampAsc :=
  ⟨fun a b => by
    simp only [timestampAsc, textLE, textLT, not_lt]
    exact le_total _ _⟩

instance : IsTrans SleepRecord timestampAsc :=
  ⟨fun a b c hab hbc => by
    simp only [timestampAsc, textLE, textLT, not_lt] at hab hbc ⊢
    exact le_trans hab hbc⟩

instance : IsTotal SleepRecord timestampDesc :=
  ⟨fun a b => by
    simp only [timestampDesc, textLE, textLT, not_lt]
    exact le_total _ _⟩

instance : IsTrans SleepRecord timestampDesc :=
  ⟨fun a b c hab hbc => by
    simp only [timestampDesc, textLE, textLT, not_lt] at hab hbc ⊢
    exact le_trans hbc hab⟩

instance : IsTotal SleepRecord userTimestampAsc :=
  ⟨fun a b => by
    simp only [userTimestampAsc, textLE, textLT, not_lt]
    rcases lt_trichotomy a.user_id.toList b.user_id.toList with h | h | h
    · exact Or.inl (Or.inl h)
    · have e : a.user_id = b.user_id := String.toList_inj.1 h
      rcases le_total a.timestamp.toList b.timestamp.toList with h2 | h2
      · exact Or.inl (Or.inr ⟨e, h2⟩)
      · exact Or.inr (Or.inr ⟨e.symm, h2⟩)
    · exact Or.inr (Or.inl h)⟩

instance : IsTrans SleepRecord userTimestampAsc :=
  ⟨fun a b c hab hbc => by
    simp only [userTimestampAsc, textLE, textLT, not_lt] at hab hbc ⊢
    rcases hab with h1 | ⟨e1, h1⟩
    · rcases hbc with h2 | ⟨e2, h2⟩
      · exact Or.inl (lt_trans h1 h2)
      · exact Or.inl (e2 ▸ h1)
    · rcases hbc with h2 | ⟨e2, h2⟩
      · exact Or.inl (e1 ▸ h2)
      · exact Or.inr ⟨e1.trans e2, le_trans h1 h2⟩⟩

/-- The query of `getUserStatus`: `SELECT * FROM sleep_records WHERE user_id = ? AND
guild_id = ? ORDER BY timestamp DESC LIMIT 1`; `none` is `undefined` (no row). Rows of
one user and guild have distinct timestamps (the primary key), so the sorting
algorithm does not matter. -/
def getUserStatus (db : Store) (userId guildId : String) : Option SleepRecord :=
  ((db.filter (fun r => r.user_id = userId ∧ r.guild_id = guildId)).insertionSort
    timestampDesc).head?

/-- The query of `getLastRecord`: `SELECT * FROM sleep_records WHERE user_id = ? AND
guild_id = ? AND record_type = ? ORDER BY timestamp DESC LIMIT 1`. -/
def getLastRecord (db : Store) (userId guildId recordType : String) : Option SleepRecord :=
  ((db.filter (fun r => r.user_id = userId ∧ r.guild_id = guildId
      ∧ r.record_type = recordType)).insertionSort timestampDesc).head?

/-- The query of `getAverageSleepDuration` and `getAverageAwakeTime`: `SELECT * FROM
sleep_records WHERE user_id = ? AND guild_id = ? ORDER BY timestamp ASC`. -/
def selectUserRows (db : Store) (userId guildId : String) : List SleepRecord :=
  (db.filter (fun r => r.user_id = userId ∧ r.guild_id = guildId)).insertionSort
    timestampAsc

/-- The user ids of the queries `SELECT DISTINCT user_id FROM sleep_records WHERE
guild_id = ?` (in `handleStatusCommand`) and `SELECT user_id FROM sleep_records WHERE
guild_id = ? GROUP BY user_id` (in `getServerAverageSleepTime`): each user id of the
guild once. SQL leaves the order of these rows open. -/
def distinctUsers (db : Store) (guildId : String) : List String :=
  ((db.filter (fun r => r.guild_id = guildId)).map SleepRecord.user_id).dedup

/-- The stores that the program can build: the empty table, a write of
`updateUserStatus`, a delete of `clearUserSleepRecords`. -/
inductive Reachable : Store → Prop
  | empty : Reachable []
  | write (db : Store) (userId guildId status timestamp recordType : String) :
      Reachable db →
      Reachable (updateUserStatus db userId guildId status timestamp recordType)
  | delete (db : Store) (userId guildId : String) :
      Reachable db → Reachable (clearUserSleepRecords db userId guildId)

/-- `getAverageSleepDuration(userId, guildId)` on the store: the query, then the fold. -/
def getAverageSleepDuration_db (fromFormat : String → DateTime) (db : Store)
    (userId guildId : String) : Option ℚ :=
  getAverageSleepDuration fromFormat (selectUserRows db userId guildId)

/-! ## `getServerAverageSleepTime` -/

/-- The two local variables of the loop in `getServerAverageSleepTime`. -/
structure ServerAcc where
  totalSleepMinutes : ℚ
  userCount : Nat

/-- The body of `for (const row of rows)` in `getServerAverageSleepTime`. The test
`if (avgSleep)` is true for a number other than 0 and false for `null` and for 0. -/
def getServerAverageSleepTime_body (fromFormat : String → DateTime) (db : Store)
    (guildId : String) (acc : ServerAcc) (userId : String) : ServerAcc :=
  match getAverageSleepDuration_db fromFormat db userId guildId with
  | some avgSleep =>
    if avgSleep ≠ 0 then
      { totalSleepMinutes := acc.totalSleepMinutes + avgSleep
        userCount := acc.userCount + 1 }
    else acc
  | none => acc

/-- The value `getServerAverageSleepTime(guildId)` resolves to; `none` is `null`. -/
def getServerAverageSleepTime (fromFormat : String → DateTime) (db : Store)
    (guildId : String) : Option ℚ :=
  let acc := (distinctUsers db guildId).foldl
    (getServerAverageSleepTime_body fromFormat db guildId)
    { totalSleepMinutes := 0, userCount := 0 }
  if acc.userCount = 0 then none
  else some (acc.totalSleepMinutes / (acc.userCount : ℚ))

/-- The per-user averages that are present, one for each user of the guild with at
least one closed session (the specification's side of `getServerAverageSleepTime`). -/
def presentAverages (fromFormat : String → DateTime) (db : Store) (guildId : String) :
    List ℚ :=
  (distinctUsers db guildId).filterMap
    (fun userId => getAverageSleepDuration_db fromFormat db userId guildId)

/-- The arithmetic mean of a list of numbers, `none` for the empty list. -/
def arithmeticMean (l : List ℚ) : Option ℚ :=
  if l.length = 0 then none else some (l.sum / (l.length : ℚ))

/-- A store of the scenarios: user `U` sleeps 480 minutes, user `V` sleeps twice, 60
and 120 minutes, and user `X` has an open `sleep` record only; all in guild `G`. -/
def scenarioStore : Store :=
  [mkRecord "U" "🌙" "2024-01-01 23:00" "sleep",
   mkRecord "V" "🌙" "2024-01-01 13:00" "sleep",
   mkRecord "V" "☀️" "2024-01-01 14:00" "wakeup",
   mkRecord "U" "☀️" "2024-01-02 07:00" "wakeup",
   mkRecord "V" "🌙" "2024-01-02 13:00" "sleep",
   mkRecord "V" "☀️" "2024-01-02 15:00" "wakeup",
   mkRecord "X" "🌙" "2024-01-02 22:00" "sleep"]

/-! ## The status projection of `handleStatusCommand` -/

/-- The value of the variable `elapsedTime`: its initial text `'N/A'`, or the text
that the call `calculateElapsedTime(startTime)` returns. -/
inductive ElapsedTime where
  | NA
  | calculateElapsedTime (startTime : String)
deriving DecidableEq, Repr

/-- The value of the variable `lastDurationText`: its initial text `'N/A'`, the text
`'No previous sleep record'`, the text `'No previous wake record'`, or the text that
the call `calculateDuration(startTime, endTime)` returns. -/
inductive LastDurationText where
  | NA
  | noPreviousSleepRecord
  | noPreviousWakeRecord
  | calculateDuration (startTime endTime : String)
deriving DecidableEq, Repr

/-- The three variables that the loop body of `handleStatusCommand` computes for one
user before it writes the description. -/
structure StatusProjection where
  userCurrentStatus : String
  elapsedTime : ElapsedTime
  lastDurationText : LastDurationText
deriving DecidableEq, Repr

/-- The block `if (status) { ... }` of `handleStatusCommand`, from the rows `status`,
`lastWake` and `lastSleep` (`none` is `undefined`, no row). -/
def statusProjection (status lastWake lastSleep : Option SleepRecord) : StatusProjection :=
  match status with
  | none =>
    { userCurrentStatus := "N/A", elapsedTime := ElapsedTime.NA,
      lastDurationText := LastDurationText.NA }
  | some status =>
    let userCurrentStatus := if status.status = "☀️" then "Awake" else "Asleep"
    match decide (status.status = "☀️"), lastWake with
    | true, some lastWake =>
      { userCurrentStatus := userCurrentStatus
        elapsedTime := ElapsedTime.calculateElapsedTime lastWake.timestamp
        lastDurationText :=
          match lastSleep with
          | some lastSleep =>
            LastDurationText.calculateDuration lastSleep.timestamp lastWake.timestamp
          | none => LastDurationText.noPreviousSleepRecord }
    | _, _ =>
      match decide (status.status = "🌙"), lastSleep with
      | true, some lastSleep =>
        { userCurrentStatus := userCurrentStatus
          elapsedTime := ElapsedTime.calculateElapsedTime lastSleep.timestamp
          lastDurationText :=
            match lastWake with
            | some lastWake =>
              LastDurationText.calculateDuration lastWake.timestamp lastSleep.timestamp
            | none => LastDurationText.noPreviousWakeRecord }
      | _, _ =>
        { userCurrentStatus := userCurrentStatus, elapsedTime := ElapsedTime.NA,
          lastDurationText := LastDurationText.NA }

/-- The body of the loop `for (const userId of userRecords)` of `handleStatusCommand`
for one user id: the three queries `getUserStatus`, `getLastRecord(.., 'wakeup')`,
`getLastRecord(.., 'sleep')`, then the block above. The program runs it only for the
user ids of `userRecords`, see `handleStatusCommand`. -/
def handleStatusCommand_user (db : Store) (userId guildId : String) : StatusProjection :=
  statusProjection (getUserStatus db userId guildId)
    (getLastRecord db userId guildId "wakeup") (getLastRecord db userId guildId "sleep")

/-- The description that `handleStatusCommand` builds: the text `'No one has recorded
yet.'`, or one block for each user of the loop, with the user id and the variables of
the projection. -/
inductive StatusDescription where
  | noOneRecorded
  | users (l : List (String × StatusProjection))
deriving DecidableEq, Repr

/-- The function `handleStatusCommand`, when the tracker channel exists: `userRecords`
are the user ids of `SELECT DISTINCT user_id FROM sleep_records WHERE guild_id = ?`;
the loop skips a user id that `guild.members.fetch` does not find (`isMember` tells
whether it does) and runs the projection for the others. -/
def handleStatusCommand (db : Store) (guildId : String) (isMember : String → Bool) :
    StatusDescription :=
  let userRecords := distinctUsers db guildId
  if userRecords.length = 0 then StatusDescription.noOneRecorded
  else
    StatusDescription.users
      ((userRecords.filter isMember).map
        (fun userId => (userId, handleStatusCommand_user db userId guildId)))

/-- The blocks of a description, none for the text `'No one has recorded yet.'`. -/
def StatusDescription.entries : StatusDescription → List (String × StatusProjection)
  | StatusDescription.noOneRecorded => []
  | StatusDescription.users l => l

/-- The label `userCurrentStatus` that a description shows for a user id; `none` when
the description has no block for the user. -/
def StatusDescription.label (d : StatusDescription) (userId : String) : Option String :=
  (d.entries.lookup userId).map StatusProjection.userCurrentStatus

/-! ## The privileged commands -/

/-- What the permission check reads of `interaction.member`: the id, the value of
`member.permissions.has(PermissionsBitField.Flags.ManageGuild)`, and the ids of the
roles in `member.roles.cache`. -/
structure GuildMember where
  id : String
  hasManageGuild : Bool
  roles : List String
deriving DecidableEq, Repr

/-- The constant `ALLOWED_ROLE_ID`. -/
def ALLOWED_ROLE_ID : String := "123456789012345678"

/-- The constant `ALLOWED_USERS`. -/
def ALLOWED_USERS : List String := ["1080749882417090590", "112233445566778899"]

/-- The condition of the permission check of `handleSetStatusCommand` and
`handleClearCommand`: `!member.permissions.has(ManageGuild) &&
!member.roles.cache.has(ALLOWED_ROLE_ID) && !ALLOWED_USERS.includes(member.id)`. -/
def permissionDenied (member : GuildMember) : Bool :=
  !member.hasManageGuild && !member.roles.contains ALLOWED_ROLE_ID
    && !ALLOWED_USERS.contains member.id

/-- The privilege of the specification: the actor has the guild-management
capability, or holds the one role, or is on the allow list. -/
def privileged (member : GuildMember) : Prop :=
  member.hasManageGuild = true ∨ ALLOWED_ROLE_ID ∈ member.roles ∨ member.id ∈ ALLOWED_USERS

instance (member : GuildMember) : Decidable (privileged member) :=
  inferInstanceAs (Decidable
    (member.hasManageGuild = true ∨ ALLOWED_ROLE_ID ∈ member.roles
      ∨ member.id ∈ ALLOWED_USERS))

/-- How a command handler ends: with one of its replies, or with the `TypeError` that
reading `.id` of `null` throws (the dispatcher in `interactionCreate` catches it and
replies that an error occurred). -/
inductive Outcome where
  | noPermission
  | specifyTargetUser
  | invalidStatus
  | statusChanged (userId newStatus : String)
  | recordsReset (userId : String)
  | typeError
deriving DecidableEq, Repr

/-- The store after a handler, and how the handler ended. -/
structure HandlerResult where
  db : Store
  outcome : Outcome
deriving DecidableEq, Repr

/-- The handler `handleSetStatusCommand`. `targetUser` is the id of the user returned
by `interaction.options.getUser('user')` (`none` is `null`), `newStatus` the value of
`interaction.options.getString('status')`, `time` the value of `getJapanTime()`. The
statements run in the order of the source: `const userId = targetUser.id` comes
before the test `if (!targetUser)`. -/
def handleSetStatusCommand (db : Store) (member : GuildMember) (guildId : String)
    (targetUser : Option String) (newStatus : Option String) (time : String) :
    HandlerResult :=
  if permissionDenied member then { db := db, outcome := Outcome.noPermission }
  else
    match targetUser with
    | none => { db := db, outcome := Outcome.typeError }
    | some userId =>
      if targetUser.isNone then { db := db, outcome := Outcome.specifyTargetUser }
      else
        match newStatus with
        | some status =>
          if status = "☀️" ∨ status = "🌙" then
            { db := updateUserStatus db userId guildId status time
                (if status = "☀️" then "wakeup" else "sleep")
              outcome := Outcome.statusChanged userId status }
          else { db := db, outcome := Outcome.invalidStatus }
        | none => { db := db, outcome := Outcome.invalidStatus }

/-- The handler `handleClearCommand`; `targetUser` is the id of the user returned by
`interaction.options.getUser('user')`. -/
def handleClearCommand (db : Store) (member : GuildMember) (guildId : String)
    (targetUser : Option String) : HandlerResult :=
  if permissionDenied member then { db := db, outcome := Outcome.noPermission }
  else
    match targetUser with
    | none => { db := db, outcome := Outcome.typeError }
    | some userId =>
      { db := clearUserSleepRecords db userId guildId
        outcome := Outcome.recordsReset userId }

/-- A member with the `ManageGuild` permission. -/
def adminMember : GuildMember := { id := "200000000000000001", hasManageGuild := true, roles := [] }

/-- A member without the permission, without the role and not on the allow list. -/
def plainMember : GuildMember :=
  { id := "200000000000000002", hasManageGuild := false, roles := ["300000000000000003"] }

/-! ## The timestamp format of `getJapanTime` -/

/-- A civil date and time of day, at minute resolution (the fields that the format
`'yyyy-MM-dd HH:mm'` prints). -/
structure CivilTime where
  year : Nat
  month : Nat
  day : Nat
  hour : Nat
  minute : Nat
deriving DecidableEq, Repr

/-- A civil date-time with a four-digit year (at most 9999, printed with leading
zeros), a real calendar date and a time of day. -/
def CivilTime.valid (c : CivilTime) : Prop :=
  c.year ≤ 9999 ∧ 1 ≤ c.month ∧ c.month ≤ 12 ∧ 1 ≤ c.day
    ∧ c.day ≤ daysInMonth c.year c.month ∧ c.hour ≤ 23 ∧ c.minute ≤ 59

instance (c : CivilTime) : Decidable c.valid :=
  inferInstanceAs (Decidable
    (c.year ≤ 9999 ∧ 1 ≤ c.month ∧ c.month ≤ 12 ∧ 1 ≤ c.day
      ∧ c.day ≤ daysInMonth c.year c.month ∧ c.hour ≤ 23 ∧ c.minute ≤ 59))

/-- The decimal digit of the units of `n`, as a character. -/
def digitChar (n : Nat) : Char :=
  match n % 10 with
  | 0 => '0' | 1 => '1' | 2 => '2' | 3 => '3' | 4 => '4'
  | 5 => '5' | 6 => '6' | 7 => '7' | 8 => '8' | _ => '9'

/-- The text of `toFormat('yyyy-MM-dd HH:mm')` of luxon for a civil date-time with a year
of at most four digits: every field zero-padded to its width. -/
def toFormat (c : CivilTime) : String :=
  String.mk
    [digitChar (c.year / 1000), digitChar (c.year / 100), digitChar (c.year / 10),
     digitChar c.year, '-', digitChar (c.month / 10), digitChar c.month, '-',
     digitChar (c.day / 10), digitChar c.day, ' ', digitChar (c.hour / 10),
     digitChar c.hour, ':', digitChar (c.minute / 10), digitChar c.minute]

/-- The function `getJapanTime`, from the civil time `now` of
`DateTime.now().setZone('Asia/Tokyo')`. -/
def getJapanTime (now : CivilTime) : String := toFormat now

/-- The instant of a civil date-time of the zone UTC+9, in minutes of the epoch. -/
def CivilTime.epochMinutes (c : CivilTime) : Int :=
  (daysFromCivil c.year c.month c.day * 24 + (c.hour : Int)) * 60 + (c.minute : Int) - 540

/-- The order of civil date-times: by year, then month, day, hour and minute. -/
def CivilTime.before (a b : CivilTime) : Prop :=
  a.year < b.year ∨ (a.year = b.year ∧ (a.month < b.month ∨ (a.month = b.month ∧
    (a.day < b.day ∨ (a.day = b.day ∧ (a.hour < b.hour ∨
      (a.hour = b.hour ∧ a.minute < b.minute)))))))

/-! ## The weekly window of `getWeeklySleepData` -/

/-- The call `.minus({ days: 7 })` of luxon on a civil time of Asia/Tokyo: luxon
subtracts 7 from the day of the month and normalises the date, so a day that is not
positive rolls into the month before (and January into December of the year before);
the time of day is kept, as the zone has no daylight saving time. -/
def CivilTime.minusSevenDays (c : CivilTime) : CivilTime :=
  if 7 < c.day then { c with day := c.day - 7 }
  else if 1 < c.month then
    { c with month := c.month - 1, day := daysInMonth c.year (c.month - 1) + c.day - 7 }
  else { c with year := c.year - 1, month := 12, day := 31 + c.day - 7 }

/-- The function `getWeeklySleepData(guildId)`, from the civil time `now` of
`DateTime.now().setZone('Asia/Tokyo')`: the constant `oneWeekAgo` is
`now.minus({ days: 7 }).toFormat('yyyy-MM-dd HH:mm')`, and the query is `SELECT * FROM
sleep_records WHERE guild_id = ? AND timestamp >= ? ORDER BY user_id, timestamp ASC` on
`[guildId, oneWeekAgo]`. -/
def getWeeklySleepData (db : Store) (guildId : String) (now : CivilTime) :
    List SleepRecord :=
  let oneWeekAgo := toFormat now.minusSevenDays
  (db.filter (fun r => r.guild_id = guildId ∧ textLE oneWeekAgo r.timestamp)).insertionSort
    userTimestampAsc

/-! ## The description of the ranking embed -/

/-- One line of the description that `generateStatsEmbed` builds, `#rank: <@userId> -
totalHours h totalMinutes m`: the rank `i + 1`, the user id and the two numbers. A
number that is `NaN` is `none`. -/
structure RankingLine where
  rank : Nat
  userId : String
  totalHours : Option Int
  totalMinutes : Option Int
deriving DecidableEq, Repr

/-- The description of the ranking embed: the text `'No sleep data for this week.'`,
or one line for each entry of `sortedUsers`. -/
inductive StatsDescription where
  | noSleepData
  | lines (l : List RankingLine)
deriving DecidableEq, Repr

/-- The loop `for (let i = 0; i < sortedUsers.length; i++)` of `generateStatsEmbed` in
`src/engindex.js`, from index `i` on: `totalHours = Math.floor(stats.totalSleepMinutes
/ 60)` and `totalMinutes = Math.floor(stats.totalSleepMinutes % 60)`, where `%` is the
remainder of JavaScript, with the sign of the dividend. -/
def rankingLines (i : Nat) : List (String × UserSleepStat) → List RankingLine
  | [] => []
  | (userId, stats) :: rest =>
    { rank := i + 1, userId := userId
      totalHours := some (stats.totalSleepMinutes / 60)
      totalMinutes := some (Int.tmod stats.totalSleepMinutes 60) }
      :: rankingLines (i + 1) rest

/-- The description that `generateStatsEmbed` of `src/engindex.js` builds from the
object `sleepStats`. -/
def statsDescription (sleepStats : UserSleepStats) : StatsDescription :=
  if (sortedUsers sleepStats).length = 0 then StatsDescription.noSleepData
  else StatsDescription.lines (rankingLines 0 (sortedUsers sleepStats))

/-- The description of `generateStatsEmbed(guildId)` of `src/engindex.js`, from the rows
of `getWeeklySleepData`. -/
def generateStatsEmbed (fromFormat : String → DateTime) (sleepData : List SleepRecord) :
    StatsDescription :=
  statsDescription (calculateWeeklySleepStats fromFormat sleepData)

/-- The loop of `generateStatsEmbed` in `src/jpindex.js`: `totalHours` is computed as
in `src/engindex.js`, and `totalMinutes = Math.floor(stats.totalMinutes % 60)` reads the
property `totalMinutes`, which the entries do not have: `undefined % 60` is `NaN`. -/
def rankingLines_jp (i : Nat) : List (String × UserSleepStat) → List RankingLine
  | [] => []
  | (userId, stats) :: rest =>
    { rank := i + 1, userId := userId
      totalHours := some (stats.totalSleepMinutes / 60)
      totalMinutes := none }
      :: rankingLines_jp (i + 1) rest

/-- The description that `generateStatsEmbed` of `src/jpindex.js` builds from the
object `sleepStats`; the sort and the slice are those of `src/engindex.js`. -/
def statsDescription_jp (sleepStats : UserSleepStats) : StatsDescription :=
  if (sortedUsers sleepStats).length = 0 then StatsDescription.noSleepData
  else StatsDescription.lines (rankingLines_jp 0 (sortedUsers sleepStats))

/-- The weekly total of a user in the object `userSleepStats`, 0 for a user without
an entry. -/
def weeklyTotal (userSleepStats : UserSleepStats) (userId : String) : Int :=
  match userSleepStats.get userId with
  | some stat => stat.totalSleepMinutes
  | none => 0

/-- The update that a record applies to the entry of its user in
`calculateWeeklySleepStats`. -/
def entryUpdate (ff : String → DateTime) (record : SleepRecord) (stat : UserSleepStat) :
    UserSleepStat :=
  if record.record_type = "sleep" then
    { stat with sleepStart := some (ff record.timestamp) }
  else if record.record_type = "wakeup" then wakeupUpdate ff record stat
  else stat

/-! ## The truthiness tests on averages -/

/-- The truthiness of JavaScript on a value that is a number or `null`, as in
`avgSleep ? ... : 'N/A'` and `if (avgSleep)`: `null` and 0 are falsy. -/
def truthy (value : Option ℚ) : Bool :=
  match value with
  | some q => decide (q ≠ 0)
  | none => false

/-! ## The program state and its handlers -/

/-- The `Map` `resetConfirmationPending`: user id to the `Date.now()` of the first
press, in milliseconds. The order of the entries is never read. -/
abbrev Pending := List (String × Int)

/-- The call `resetConfirmationPending.get(userId)`; `none` is `undefined`. -/
def Pending.get (pending : Pending) (userId : String) : Option Int :=
  List.lookup userId pending

/-- The call `resetConfirmationPending.delete(userId)`. -/
def Pending.delete (pending : Pending) (userId : String) : Pending :=
  pending.filter (fun e => e.1 ≠ userId)

/-- The call `resetConfirmationPending.set(userId, now)`. -/
def Pending.set (pending : Pending) (userId : String) (now : Int) : Pending :=
  pending.filter (fun e => e.1 ≠ userId) ++ [(userId, now)]

/-- The constant `RESET_CONFIRMATION_TIMEOUT_MS`. -/
def RESET_CONFIRMATION_TIMEOUT_MS : Int := 30 * 1000

/-- The mutable state of the process: the table, the map `resetConfirmationPending`
and the set `remindedUsers`. -/
structure AppState where
  db : Store
  resetConfirmationPending : Pending
  remindedUsers : List String
deriving DecidableEq, Repr

/-- The state at the start of the process, on an empty table. -/
def AppState.init : AppState :=
  { db := [], resetConfirmationPending := [], remindedUsers := [] }

/-- The branch `interaction.isButton()` of the `interactionCreate` handler: `time` is
the value of `getJapanTime()` and `now` the value of `Date.now()`. In `reset_status`
the test `lastPressTime && (now - lastPressTime < RESET_CONFIRMATION_TIMEOUT_MS)` is
false for `undefined` and for the number 0. -/
def interactionCreate_button (s : AppState) (customId userId guildId time : String)
    (now : Int) : AppState :=
  if customId = "wake_up" then
    { s with db := updateUserStatus s.db userId guildId "☀️" time "wakeup" }
  else if customId = "sleep" then
    { s with db := updateUserStatus s.db userId guildId "🌙" time "sleep" }
  else if customId = "reset_status" then
    match s.resetConfirmationPending.get userId with
    | some lastPressTime =>
      if lastPressTime ≠ 0 ∧ now - lastPressTime < RESET_CONFIRMATION_TIMEOUT_MS then
        { s with
          db := clearUserSleepRecords s.db userId guildId
          resetConfirmationPending := s.resetConfirmationPending.delete userId }
      else
        { s with resetConfirmationPending := s.resetConfirmationPending.set userId now }
    | none =>
      { s with resetConfirmationPending := s.resetConfirmationPending.set userId now }
  else s

/-- The callback that the first press of `reset_status` schedules with `setTimeout`:
it removes the pending entry of the user if it is still the one of that press. -/
def resetTimeout (s : AppState) (userId : String) (now : Int) : AppState :=
  if s.resetConfirmationPending.get userId = some now then
    { s with resetConfirmationPending := s.resetConfirmationPending.delete userId }
  else s

/-- The handler of `messageReactionAdd`: `userBot` is `user.bot`, `channelName` is
`reaction.message.channel.name`, `emojiName` is `reaction.emoji.name` and `time` the
value of `getJapanTime()`. -/
def messageReactionAdd (s : AppState) (userBot : Bool)
    (channelName userId guildId emojiName time : String) : AppState :=
  if userBot then s
  else if channelName ≠ "スーパーオートマトントラッカー" then s
  else if emojiName = "☀️" then
    { s with db := updateUserStatus s.db userId guildId "☀️" time "wakeup" }
  else if emojiName = "🌙" then
    { s with db := updateUserStatus s.db userId guildId "🌙" time "sleep" }
  else if emojiName = "🌀" then
    { s with db := clearUserSleepRecords s.db userId guildId }
  else s

/-! ## The reminder -/

/-- The minutes of the reminder threshold, `elapsedMinutes >= 720`, in milliseconds. -/
def reminderThresholdMs : Int := 720 * 60000

/-- The value of `elapsedMinutes` in `updateStatusMessage`, in milliseconds (the test
`elapsedMinutes >= 720` is the test on the milliseconds against `720 * 60000`): 0
unless the status is the Awake symbol and a last `wakeup` record exists, then the time
from that record to `nowMs`, the instant of `DateTime.now()`; `none` is `NaN`, for a
timestamp that cannot be read. -/
def elapsedMs (fromFormat : String → DateTime) (status lastWake : Option SleepRecord)
    (nowMs : Int) : Option Int :=
  match status, lastWake with
  | some status, some lastWake =>
    if status.status = "☀️" then
      match fromFormat lastWake.timestamp with
      | some wakeTime => some (nowMs - wakeTime * 60000)
      | none => none
    else some 0
  | _, _ => some 0

/-- The function `updateStatusMessage(member, guild, status)`: the new set
`remindedUsers`, and whether a reminder was delivered. `sendSucceeds` tells whether
`member.send` resolves; when it rejects, the `catch` logs and the set is unchanged. -/
def updateStatusMessage (fromFormat : String → DateTime) (db : Store)
    (remindedUsers : List String) (memberId guildId : String)
    (status : Option SleepRecord) (nowMs : Int) (sendSucceeds : Bool) :
    List String × Bool :=
  let lastWake := getLastRecord db memberId guildId "wakeup"
  match status, elapsedMs fromFormat status lastWake nowMs with
  | some status, some elapsed =>
    if status.status = "☀️" ∧ elapsed ≥ reminderThresholdMs ∧ memberId ∉ remindedUsers then
      if sendSucceeds then (remindedUsers ++ [memberId], true)
      else (remindedUsers, false)
    else (remindedUsers, false)
  | _, _ => (remindedUsers, false)

/-- One member of one guild in the `setInterval` callback: the query `getUserStatus`,
then `updateStatusMessage` if there is a status and `member.presence`. -/
def reminderPoll (fromFormat : String → DateTime) (db : Store)
    (remindedUsers : List String) (memberId guildId : String) (hasPresence : Bool)
    (nowMs : Int) (sendSucceeds : Bool) : List String × Bool :=
  match getUserStatus db memberId guildId with
  | some status =>
    if hasPresence then
      updateStatusMessage fromFormat db remindedUsers memberId guildId (some status)
        nowMs sendSucceeds
    else (remindedUsers, false)
  | none => (remindedUsers, false)

/-- A call of `updateStatusMessage` in a sequence of polls: the table at that time,
the member, the status passed, the clock and the outcome of `member.send`. -/
structure PollCall where
  db : Store
  memberId : String
  guildId : String
  status : Option SleepRecord
  nowMs : Int
  sendSucceeds : Bool

/-- A sequence of calls of `updateStatusMessage`, each one complete before the next
starts: the final set `remindedUsers` and the ids of the delivered reminders, in
order. -/
def runPolls (fromFormat : String → DateTime) :
    List String → List PollCall → List String × List String
  | remindedUsers, [] => (remindedUsers, [])
  | remindedUsers, call :: rest =>
    let r := updateStatusMessage fromFormat call.db remindedUsers call.memberId
      call.guildId call.status call.nowMs call.sendSucceeds
    let out := runPolls fromFormat r.1 rest
    (out.1, if r.2 then call.memberId :: out.2 else out.2)

/-! ## The operations of the program -/

/-- The events that change the state of the process. -/
inductive Action where
  | button (customId userId guildId time : String) (now : Int)
  | timeout (userId : String) (now : Int)
  | reaction (userBot : Bool) (channelName userId guildId emojiName time : String)
  | setStatus (member : GuildMember) (guildId : String) (targetUser newStatus : Option String)
      (time : String)
  | clear (member : GuildMember) (guildId : String) (targetUser : Option String)
  | reminder (memberId guildId : String) (hasPresence : Bool) (nowMs : Int)
      (sendSucceeds : Bool)

/-- The state after one event. -/
def AppState.step (fromFormat : String → DateTime) (s : AppState) : Action → AppState
  | Action.button customId userId guildId time now =>
    interactionCreate_button s customId userId guildId time now
  | Action.timeout userId now => resetTimeout s userId now
  | Action.reaction userBot channelName userId guildId emojiName time =>
    messageReactionAdd s userBot channelName userId guildId emojiName time
  | Action.setStatus member guildId targetUser newStatus time =>
    { s with db := (handleSetStatusCommand s.db member guildId targetUser newStatus time).db }
  | Action.clear member guildId targetUser =>
    { s with db := (handleClearCommand s.db member guildId targetUser).db }
  | Action.reminder memberId guildId hasPresence nowMs sendSucceeds =>
    { s with
      remindedUsers := (reminderPoll fromFormat s.db s.remindedUsers memberId guildId
        hasPresence nowMs sendSucceeds).1 }

/-- The events whose handler holds the statement `DELETE FROM sleep_records WHERE
user_id = ? AND guild_id = ?`: the button `reset_status`, the reaction `🌀` and the
command `clear`. -/
def Action.isReset : Action → Bool
  | Action.button customId _ _ _ _ => customId = "reset_status"
  | Action.reaction _ _ _ _ emojiName _ => emojiName = "🌀"
  | Action.clear _ _ _ => true
  | _ => false

/-- The state after a sequence of events, from the start of the process. -/
def AppState.run (fromFormat : String → DateTime) (actions : List Action) : AppState :=
  actions.foldl (AppState.step fromFormat) AppState.init

/-- The name of the channel that the reaction handler serves. -/
def trackerChannel : String := "スーパーオートマトントラッカー"

/-! ## Lemmas on the sleep fold -/

theorem sleep_forEach_sleep (ff : String → DateTime) (acc : SleepAcc) (r : SleepRecord)
    (h : r.record_type = "sleep") :
    getAverageSleepDuration_forEach ff acc r
      = { acc with sleepStart := some (ff r.timestamp) } := by
  simp [getAverageSleepDuration_forEach, h]

theorem sleep_forEach_wakeup_null (ff : String → DateTime) (acc : SleepAcc)
    (r : SleepRecord) (h : r.record_type = "wakeup") (hs : acc.sleepStart = none) :
    getAverageSleepDuration_forEach ff acc r = acc := by
  simp [getAverageSleepDuration_forEach, h, hs]

theorem sleep_forEach_wakeup_pos (ff : String → DateTime) (acc : SleepAcc)
    (r : SleepRecord) (start : DateTime) (d : Int) (h : r.record_type = "wakeup")
    (hs : acc.sleepStart = some start)
    (hd : DateTime.diffMinutes (ff r.timestamp) start = some d) (hpos : 0 < d) :
    getAverageSleepDuration_forEach ff acc r
      = { totalSleepDuration := acc.totalSleepDuration + d
          sleepSessions := acc.sleepSessions + 1
          sleepStart := none } := by
  simp [getAverageSleepDuration_forEach, h, hs, hd, hpos]

theorem sleep_forEach_wakeup_discard (ff : String → DateTime) (acc : SleepAcc)
    (r : SleepRecord) (start : DateTime) (h : r.record_type = "wakeup")
    (hs : acc.sleepStart = some start)
    (hd : ∀ d, DateTime.diffMinutes (ff r.timestamp) start = some d → d ≤ 0) :
    getAverageSleepDuration_forEach ff acc r = { acc with sleepStart := none } := by
  unfold getAverageSleepDuration_forEach
  simp only [h, hs]
  cases hdm : DateTime.diffMinutes (ff r.timestamp) start with
  | none => simp
  | some d =>
    have := hd d hdm
    have hn : ¬ d > 0 := by omega
    simp [hn]

theorem sleep_forEach_other (ff : String → DateTime) (acc : SleepAcc) (r : SleepRecord)
    (h1 : r.record_type ≠ "sleep") (h2 : r.record_type ≠ "wakeup") :
    getAverageSleepDuration_forEach ff acc r = acc := by
  simp [getAverageSleepDuration_forEach, h1, h2]

theorem diffMinutes_some (a b : Int) :
    DateTime.diffMinutes (some a) (some b) = some (a - b) := rfl

/-- One step keeps the total non-negative and pays for every new session with an
opening record. -/
theorem sleep_forEach_inv (ff : String → DateTime) (acc : SleepAcc) (r : SleepRecord)
    (h0 : 0 ≤ acc.totalSleepDuration) :
    0 ≤ (getAverageSleepDuration_forEach ff acc r).totalSleepDuration ∧
    (getAverageSleepDuration_forEach ff acc r).sleepSessions
        + openCount (getAverageSleepDuration_forEach ff acc r).sleepStart
      ≤ acc.sleepSessions + openCount acc.sleepStart + countType "sleep" [r] := by
  by_cases hs : r.record_type = "sleep"
  · rw [sleep_forEach_sleep ff acc r hs]
    refine ⟨h0, ?_⟩
    have h1 : countType "sleep" [r] = 1 := by simp [countType, hs]
    have h2 : openCount (some (ff r.timestamp)) = 1 := by simp [openCount]
    simp only [h1, h2]
    omega
  · by_cases hw : r.record_type = "wakeup"
    · cases hst : acc.sleepStart with
      | none =>
        rw [sleep_forEach_wakeup_null ff acc r hw hst]
        simp only [hst]
        exact ⟨h0, by omega⟩
      | some start =>
        have ho : openCount (some start) = 1 := by simp [openCount]
        have hn : openCount (none : Option DateTime) = 0 := by simp [openCount]
        cases hdm : DateTime.diffMinutes (ff r.timestamp) start with
        | none =>
          rw [sleep_forEach_wakeup_discard ff acc r start hw hst (by simp [hdm])]
          simp only [hn, ho]
          exact ⟨h0, by omega⟩
        | some d =>
          by_cases hd : 0 < d
          · rw [sleep_forEach_wakeup_pos ff acc r start d hw hst hdm hd]
            simp only [hn, ho]
            exact ⟨by omega, by omega⟩
          · rw [sleep_forEach_wakeup_discard ff acc r start hw hst
              (by intro d2 h2; rw [hdm] at h2; cases h2; omega)]
            simp only [hn, ho]
            exact ⟨h0, by omega⟩
    · rw [sleep_forEach_other ff acc r hs hw]
      exact ⟨h0, by omega⟩

theorem sleep_foldl_inv (ff : String → DateTime) (rows : List SleepRecord) :
    ∀ acc : SleepAcc, 0 ≤ acc.totalSleepDuration →
      0 ≤ (rows.foldl (getAverageSleepDuration_forEach ff) acc).totalSleepDuration ∧
      (rows.foldl (getAverageSleepDuration_forEach ff) acc).sleepSessions
          + openCount (rows.foldl (getAverageSleepDuration_forEach ff) acc).sleepStart
        ≤ acc.sleepSessions + openCount acc.sleepStart + countType "sleep" rows := by
  induction rows with
  | nil => intro acc h0; simp [h0, countType]
  | cons r rows ih =>
    intro acc h0
    obtain ⟨h1, h2⟩ := sleep_forEach_inv ff acc r h0
    obtain ⟨h3, h4⟩ := ih _ h1
    refine ⟨h3, ?_⟩
    simp only [List.foldl_cons]
    have hc : countType "sleep" (r :: rows)
        = countType "sleep" [r] + countType "sleep" rows := by
      simp [countType, List.countP_cons]; omega
    omega

/-! ## The awake fold is the sleep fold on exchanged rows -/

theorem swapRecordType_timestamp (r : SleepRecord) :
    (swapRecordType r).timestamp = r.timestamp := rfl

theorem swapRecordType_sleep_iff (r : SleepRecord) :
    (swapRecordType r).record_type = "sleep" ↔ r.record_type = "wakeup" := by
  unfold swapRecordType
  by_cases hs : r.record_type = "sleep"
  · simp [hs]
  · by_cases hw : r.record_type = "wakeup"
    · simp [hw]
    · simp [hs, hw]

theorem swapRecordType_wakeup_iff (r : SleepRecord) :
    (swapRecordType r).record_type = "wakeup" ↔ r.record_type = "sleep" := by
  unfold swapRecordType
  by_cases hs : r.record_type = "sleep"
  · simp [hs]
  · by_cases hw : r.record_type = "wakeup"
    · simp [hw]
    · simp [hs, hw]

theorem awake_forEach_toSleepAcc (ff : String → DateTime) (acc : AwakeAcc)
    (r : SleepRecord) :
    (getAverageAwakeTime_forEach ff acc r).toSleepAcc
      = getAverageSleepDuration_forEach ff acc.toSleepAcc (swapRecordType r) := by
  unfold getAverageAwakeTime_forEach getAverageSleepDuration_forEach
  simp only [swapRecordType_sleep_iff, swapRecordType_wakeup_iff, swapRecordType_timestamp]
  by_cases hw : r.record_type = "wakeup"
  · simp [hw, AwakeAcc.toSleepAcc]
  · by_cases hs : r.record_type = "sleep"
    · simp only [hw, hs, if_false, if_true]
      cases hl : acc.lastWakeTime with
      | none => simp [AwakeAcc.toSleepAcc, hl]
      | some start =>
        cases hdm : DateTime.diffMinutes (ff r.timestamp) start with
        | none => simp [AwakeAcc.toSleepAcc, hl, hdm]
        | some d =>
          by_cases hd : d > 0
          · simp [AwakeAcc.toSleepAcc, hl, hdm, hd]
          · simp [AwakeAcc.toSleepAcc, hl, hdm, hd]
    · simp [hw, hs]

theorem awake_foldl_toSleepAcc (ff : String → DateTime) (rows : List SleepRecord) :
    ∀ acc : AwakeAcc,
      (rows.foldl (getAverageAwakeTime_forEach ff) acc).toSleepAcc
        = (rows.map swapRecordType).foldl (getAverageSleepDuration_forEach ff)
            acc.toSleepAcc := by
  induction rows with
  | nil => intro acc; rfl
  | cons r rows ih =>
    intro acc
    simp only [List.foldl_cons, List.map_cons]
    rw [ih, awake_forEach_toSleepAcc]

theorem awake_fold_toSleepAcc (ff : String → DateTime) (rows : List SleepRecord) :
    (getAverageAwakeTime_fold ff rows).toSleepAcc
      = getAverageSleepDuration_fold ff (rows.map swapRecordType) :=
  awake_foldl_toSleepAcc ff rows _

theorem awake_eq_sleep_swap (ff : String → DateTime) (rows : List SleepRecord) :
    getAverageAwakeTime ff rows
      = getAverageSleepDuration ff (rows.map swapRecordType) := by
  unfold getAverageAwakeTime getAverageSleepDuration
  rw [← awake_fold_toSleepAcc]
  rfl

theorem countType_swap (rows : List SleepRecord) :
    countType "sleep" (rows.map swapRecordType) = countType "wakeup" rows := by
  unfold countType
  rw [List.countP_map]
  congr 1
  funext r
  simp [swapRecordType_sleep_iff]

theorem sleep_fold_inv (ff : String → DateTime) (rows : List SleepRecord) :
    0 ≤ (getAverageSleepDuration_fold ff rows).totalSleepDuration ∧
    (getAverageSleepDuration_fold ff rows).sleepSessions ≤ countType "sleep" rows := by
  obtain ⟨h1, h2⟩ := sleep_foldl_inv ff rows ⟨0, 0, none⟩ (le_refl _)
  refine ⟨h1, ?_⟩
  have h3 : openCount (none : Option DateTime) = 0 := by simp [openCount]
  have h4 : (getAverageSleepDuration_fold ff rows).sleepSessions
      + openCount (getAverageSleepDuration_fold ff rows).sleepStart
      ≤ 0 + openCount none + countType "sleep" rows := h2
  omega

theorem sleep_fold_append (ff : String → DateTime) (rows : List SleepRecord)
    (r : SleepRecord) :
    getAverageSleepDuration_fold ff (rows ++ [r])
      = getAverageSleepDuration_forEach ff (getAverageSleepDuration_fold ff rows) r := by
  simp [getAverageSleepDuration_fold, List.foldl_append]

theorem awake_forEach_wakeup (ff : String → DateTime) (acc : AwakeAcc) (r : SleepRecord)
    (h : r.record_type = "wakeup") :
    getAverageAwakeTime_forEach ff acc r
      = { acc with lastWakeTime := some (ff r.timestamp) } := by
  simp [getAverageAwakeTime_forEach, h]

theorem awake_fold_append (ff : String → DateTime) (rows : List SleepRecord)
    (r : SleepRecord) :
    getAverageAwakeTime_fold ff (rows ++ [r])
      = getAverageAwakeTime_forEach ff (getAverageAwakeTime_fold ff rows) r := by
  simp [getAverageAwakeTime_fold, List.foldl_append]

theorem sleep_fold_pair (ff : String → DateTime) (acc : SleepAcc) (r1 r2 : SleepRecord)
    (s w : Int) (h1 : r1.record_type = "sleep") (h2 : r2.record_type = "wakeup")
    (hs : ff r1.timestamp = some s) (hw : ff r2.timestamp = some w) (hd : 0 < w - s) :
    getAverageSleepDuration_forEach ff (getAverageSleepDuration_forEach ff acc r1) r2
      = { totalSleepDuration := acc.totalSleepDuration + (w - s)
          sleepSessions := acc.sleepSessions + 1
          sleepStart := none } := by
  rw [sleep_forEach_sleep ff acc r1 h1]
  rw [sleep_forEach_wakeup_pos ff _ r2 (some s) (w - s) h2 (by simp [hs])
    (by rw [hw]; rfl) hd]

theorem sleep_forEach_wakeup_start (ff : String → DateTime) (acc : SleepAcc)
    (r : SleepRecord) (h : r.record_type = "wakeup") :
    (getAverageSleepDuration_forEach ff acc r).sleepStart = none := by
  cases hst : acc.sleepStart with
  | none => rw [sleep_forEach_wakeup_null ff acc r h hst]; exact hst
  | some start =>
    cases hdm : DateTime.diffMinutes (ff r.timestamp) start with
    | none => rw [sleep_forEach_wakeup_discard ff acc r start h hst (by simp [hdm])]
    | some d =>
      by_cases hd : 0 < d
      · rw [sleep_forEach_wakeup_pos ff acc r start d h hst hdm hd]
      · rw [sleep_forEach_wakeup_discard ff acc r start h hst
          (by intro d2 h2; rw [hdm] at h2; cases h2; omega)]

theorem sleep_forEach_wakeup_twice (ff : String → DateTime) (acc : SleepAcc)
    (r r2 : SleepRecord) (h : r.record_type = "wakeup") (h2 : r2.record_type = "wakeup") :
    getAverageSleepDuration_forEach ff (getAverageSleepDuration_forEach ff acc r) r2
      = getAverageSleepDuration_forEach ff acc r :=
  sleep_forEach_wakeup_null ff _ r2 h2 (sleep_forEach_wakeup_start ff acc r h)

theorem toSleepAcc_injective (a b : AwakeAcc) (h : a.toSleepAcc = b.toSleepAcc) :
    a = b := by
  cases a; cases b
  simp only [AwakeAcc.toSleepAcc, SleepAcc.mk.injEq] at h
  obtain ⟨h1, h2, h3⟩ := h
  subst h1 h2 h3
  rfl

theorem awake_forEach_sleep_twice (ff : String → DateTime) (acc : AwakeAcc)
    (r r2 : SleepRecord) (h : r.record_type = "sleep") (h2 : r2.record_type = "sleep") :
    getAverageAwakeTime_forEach ff (getAverageAwakeTime_forEach ff acc r) r2
      = getAverageAwakeTime_forEach ff acc r := by
  apply toSleepAcc_injective
  rw [awake_forEach_toSleepAcc, awake_forEach_toSleepAcc]
  exact sleep_forEach_wakeup_twice ff _ _ _
    ((swapRecordType_wakeup_iff r).2 h) ((swapRecordType_wakeup_iff r2).2 h2)

theorem awake_forEach_sleep_discard (ff : String → DateTime) (acc : AwakeAcc)
    (r : SleepRecord) (start : DateTime) (h : r.record_type = "sleep")
    (hs : acc.lastWakeTime = some start)
    (hd : ∀ d, DateTime.diffMinutes (ff r.timestamp) start = some d → d ≤ 0) :
    getAverageAwakeTime_forEach ff acc r = { acc with lastWakeTime := none } := by
  apply toSleepAcc_injective
  rw [awake_forEach_toSleepAcc]
  rw [sleep_forEach_wakeup_discard ff _ (swapRecordType r) start
    ((swapRecordType_wakeup_iff r).2 h) (by simp [AwakeAcc.toSleepAcc, hs])
    (by simpa [swapRecordType_timestamp] using hd)]
  rfl

/-! ## Lemmas on `userSleepStats` -/

theorem get_nil (u : String) : UserSleepStats.get [] u = none := rfl

theorem get_cons (k : String) (v : UserSleepStat) (rest : UserSleepStats) (u : String) :
    UserSleepStats.get ((k, v) :: rest) u
      = if k = u then some v else UserSleepStats.get rest u := by
  unfold UserSleepStats.get
  rw [List.lookup_cons]
  by_cases h : k = u
  · subst h; simp
  · have : (u == k) = false := by
      simp only [beq_eq_false_iff_ne, ne_eq]
      exact fun e => h e.symm
    simp [this, h]

theorem get_modify (f : UserSleepStat → UserSleepStat) (u : String) :
    ∀ stats : UserSleepStats,
      UserSleepStats.get (UserSleepStats.modify stats u f) u
        = (UserSleepStats.get stats u).map f := by
  intro stats
  induction stats with
  | nil => rfl
  | cons e rest ih =>
    obtain ⟨k, v⟩ := e
    by_cases h : k = u
    · simp [UserSleepStats.modify, get_cons, h]
    · simp [UserSleepStats.modify, get_cons, h, ih]

theorem modify_eq_self (f : UserSleepStat → UserSleepStat) (u : String) :
    ∀ (stats : UserSleepStats) (v : UserSleepStat),
      UserSleepStats.get stats u = some v → f v = v →
      UserSleepStats.modify stats u f = stats := by
  intro stats
  induction stats with
  | nil => intro v h; simp [get_nil] at h
  | cons e rest ih =>
    obtain ⟨k, w⟩ := e
    intro v h hf
    rw [get_cons] at h
    by_cases hk : k = u
    · simp only [hk, if_true, Option.some.injEq] at h
      subst h
      simp [UserSleepStats.modify, hk, hf]
    · simp only [hk, if_false] at h
      simp [UserSleepStats.modify, hk, ih v h hf]

theorem weekly_forEach_wakeup_of_get (ff : String → DateTime) (stats : UserSleepStats)
    (r : SleepRecord) (v : UserSleepStat) (h : r.record_type = "wakeup")
    (hg : UserSleepStats.get stats r.user_id = some v) :
    calculateWeeklySleepStats_forEach ff stats r
      = UserSleepStats.modify stats r.user_id (wakeupUpdate ff r) := by
  unfold calculateWeeklySleepStats_forEach
  simp only [hg, h]
  rfl

theorem wakeupUpdate_discard (ff : String → DateTime) (r : SleepRecord)
    (stat : UserSleepStat) (s w : Int) (hs : stat.sleepStart = some (some s))
    (hw : ff r.timestamp = some w) (hle : w - s ≤ 0) :
    wakeupUpdate ff r stat = { stat with sleepStart := none } := by
  unfold wakeupUpdate
  have hn : ¬ w - s > 0 := by omega
  simp [hs, hw, diffMinutes_some, hn]

theorem wakeupUpdate_null (ff : String → DateTime) (r : SleepRecord)
    (stat : UserSleepStat) (hs : stat.sleepStart = none) :
    wakeupUpdate ff r stat = stat := by
  unfold wakeupUpdate
  simp [hs]

theorem modify_congr (f g : UserSleepStat → UserSleepStat) (u : String) :
    ∀ (stats : UserSleepStats) (v : UserSleepStat),
      UserSleepStats.get stats u = some v → f v = g v →
      UserSleepStats.modify stats u f = UserSleepStats.modify stats u g := by
  intro stats
  induction stats with
  | nil => intro v h; simp [get_nil] at h
  | cons e rest ih =>
    obtain ⟨k, w⟩ := e
    intro v h hf
    rw [get_cons] at h
    by_cases hk : k = u
    · simp only [hk, if_true, Option.some.injEq] at h
      subst h
      simp [UserSleepStats.modify, hk, hf]
    · simp only [hk, if_false] at h
      simp [UserSleepStats.modify, hk, ih v h hf]

/-! ## One user: the weekly entry follows the sleep fold -/

/-- The weekly value that carries the total and the marker of a fold state. -/
theorem weekly_forEach_single (ff : String → DateTime) (u : String) (acc : SleepAcc)
    (r : SleepRecord) (hu : r.user_id = u) :
    calculateWeeklySleepStats_forEach ff
        [(u, { totalSleepMinutes := acc.totalSleepDuration, sleepStart := acc.sleepStart })] r
      = [(u, { totalSleepMinutes := (getAverageSleepDuration_forEach ff acc r).totalSleepDuration
               sleepStart := (getAverageSleepDuration_forEach ff acc r).sleepStart })] := by
  subst hu
  unfold calculateWeeklySleepStats_forEach getAverageSleepDuration_forEach
  simp only [get_cons, if_true]
  by_cases hs : r.record_type = "sleep"
  · simp [hs, UserSleepStats.modify]
  · by_cases hw : r.record_type = "wakeup"
    · simp only [hs, hw, if_false, if_true, UserSleepStats.modify]
      cases hst : acc.sleepStart with
      | none => simp [hst]
      | some start =>
        cases hdm : DateTime.diffMinutes (ff r.timestamp) start with
        | none => simp [hdm]
        | some d =>
          by_cases hd : d > 0
          · simp [hdm, hd]
          · simp [hdm, hd]
    · simp [hs, hw]

theorem weekly_forEach_empty (ff : String → DateTime) (r : SleepRecord) :
    calculateWeeklySleepStats_forEach ff [] r
      = calculateWeeklySleepStats_forEach ff
          [(r.user_id, { totalSleepMinutes := 0, sleepStart := none })] r := by
  unfold calculateWeeklySleepStats_forEach
  simp [get_cons, get_nil]

theorem weekly_foldl_single (ff : String → DateTime) (u : String)
    (rows : List SleepRecord) (hu : ∀ r ∈ rows, r.user_id = u) :
    ∀ acc : SleepAcc,
      rows.foldl (calculateWeeklySleepStats_forEach ff)
          [(u, { totalSleepMinutes := acc.totalSleepDuration, sleepStart := acc.sleepStart })]
        = [(u, { totalSleepMinutes :=
                   (rows.foldl (getAverageSleepDuration_forEach ff) acc).totalSleepDuration
                 sleepStart :=
                   (rows.foldl (getAverageSleepDuration_forEach ff) acc).sleepStart })] := by
  induction rows with
  | nil => intro acc; rfl
  | cons r rows ih =>
    intro acc
    simp only [List.foldl_cons]
    rw [weekly_forEach_single ff u acc r (hu r (List.mem_cons_self _ _))]
    exact ih (fun x hx => hu x (List.mem_cons_of_mem _ hx)) _

theorem weekly_single_user (ff : String → DateTime) (u : String) (r : SleepRecord)
    (rows : List SleepRecord) (hu : ∀ x ∈ r :: rows, x.user_id = u) :
    calculateWeeklySleepStats ff (r :: rows)
      = [(u, { totalSleepMinutes :=
                 (getAverageSleepDuration_fold ff (r :: rows)).totalSleepDuration
               sleepStart := (getAverageSleepDuration_fold ff (r :: rows)).sleepStart })] := by
  unfold calculateWeeklySleepStats getAverageSleepDuration_fold
  have hr : r.user_id = u := hu r (List.mem_cons_self _ _)
  rw [List.foldl_cons, weekly_forEach_empty, hr]
  exact weekly_foldl_single ff u (r :: rows) hu ⟨0, 0, none⟩

/-- Every session adds at least one minute, and without a session the total is 0. -/
theorem sleep_foldl_total_bounds (ff : String → DateTime) (rows : List SleepRecord) :
    ∀ acc : SleepAcc,
      ((acc.sleepSessions : Int) ≤ acc.totalSleepDuration) →
      (acc.sleepSessions = 0 → acc.totalSleepDuration = 0) →
      (((rows.foldl (getAverageSleepDuration_forEach ff) acc).sleepSessions : Int)
          ≤ (rows.foldl (getAverageSleepDuration_forEach ff) acc).totalSleepDuration) ∧
      ((rows.foldl (getAverageSleepDuration_forEach ff) acc).sleepSessions = 0 →
        (rows.foldl (getAverageSleepDuration_forEach ff) acc).totalSleepDuration = 0) := by
  induction rows with
  | nil => intro acc h1 h2; exact ⟨h1, h2⟩
  | cons r rows ih =>
    intro acc h1 h2
    simp only [List.foldl_cons]
    apply ih
    · by_cases hs : r.record_type = "sleep"
      · rw [sleep_forEach_sleep ff acc r hs]; exact h1
      · by_cases hw : r.record_type = "wakeup"
        · cases hst : acc.sleepStart with
          | none => rw [sleep_forEach_wakeup_null ff acc r hw hst]; exact h1
          | some start =>
            cases hdm : DateTime.diffMinutes (ff r.timestamp) start with
            | none =>
              rw [sleep_forEach_wakeup_discard ff acc r start hw hst (by simp [hdm])]
              exact h1
            | some d =>
              by_cases hd : 0 < d
              · rw [sleep_forEach_wakeup_pos ff acc r start d hw hst hdm hd]
                simp only [Nat.cast_add, Nat.cast_one]
                omega
              · rw [sleep_forEach_wakeup_discard ff acc r start hw hst
                  (by intro d2 h2; rw [hdm] at h2; cases h2; omega)]
                exact h1
        · rw [sleep_forEach_other ff acc r hs hw]; exact h1
    · by_cases hs : r.record_type = "sleep"
      · rw [sleep_forEach_sleep ff acc r hs]; exact h2
      · by_cases hw : r.record_type = "wakeup"
        · cases hst : acc.sleepStart with
          | none => rw [sleep_forEach_wakeup_null ff acc r hw hst]; exact h2
          | some start =>
            cases hdm : DateTime.diffMinutes (ff r.timestamp) start with
            | none =>
              rw [sleep_forEach_wakeup_discard ff acc r start hw hst (by simp [hdm])]
              exact h2
            | some d =>
              by_cases hd : 0 < d
              · rw [sleep_forEach_wakeup_pos ff acc r start d hw hst hdm hd]
                intro h; simp at h
              · rw [sleep_forEach_wakeup_discard ff acc r start hw hst
                  (by intro d2 h2; rw [hdm] at h2; cases h2; omega)]
                exact h2
        · rw [sleep_forEach_other ff acc r hs hw]; exact h2

theorem sleep_fold_total_bounds (ff : String → DateTime) (rows : List SleepRecord) :
    (((getAverageSleepDuration_fold ff rows).sleepSessions : Int)
        ≤ (getAverageSleepDuration_fold ff rows).totalSleepDuration) ∧
    ((getAverageSleepDuration_fold ff rows).sleepSessions = 0 →
      (getAverageSleepDuration_fold ff rows).totalSleepDuration = 0) :=
  sleep_foldl_total_bounds ff rows ⟨0, 0, none⟩ (by simp) (fun _ => rfl)

/-! ## Lists: the relative order of two members -/

theorem pair_sublist_or {α : Type} {a b : α} {l : List α} (hne : a ≠ b)
    (ha : a ∈ l) (hb : b ∈ l) : List.Sublist [a, b] l ∨ List.Sublist [b, a] l := by
  induction l with
  | nil => simp at ha
  | cons x l ih =>
    rcases List.mem_cons.1 ha with hax | hal
    · rcases List.mem_cons.1 hb with hbx | hbl
      · exact absurd (hax.trans hbx.symm) hne
      · left
        subst hax
        exact List.Sublist.cons₂ _ (List.singleton_sublist.2 hbl)
    · rcases List.mem_cons.1 hb with hbx | hbl
      · right
        subst hbx
        exact List.Sublist.cons₂ _ (List.singleton_sublist.2 hal)
      · rcases ih hal hbl with h | h
        · exact Or.inl (h.cons _)
        · exact Or.inr (h.cons _)

theorem pair_sublist_asymm {α : Type} {a b : α} {l : List α} (hn : l.Nodup)
    (h1 : List.Sublist [a, b] l) (h2 : List.Sublist [b, a] l) : False := by
  induction l with
  | nil => simp at h1
  | cons x l ih =>
    have hx : x ∉ l := (List.nodup_cons.1 hn).1
    have hl : l.Nodup := (List.nodup_cons.1 hn).2
    rcases List.sublist_cons_iff.1 h1 with h1l | ⟨r1, e1, h1r⟩
    · rcases List.sublist_cons_iff.1 h2 with h2l | ⟨r2, e2, h2r⟩
      · exact ih hl h1l h2l
      · simp only [List.cons.injEq] at e2
        obtain ⟨ebx, _⟩ := e2
        exact hx (ebx ▸ h1l.subset (by simp))
    · simp only [List.cons.injEq] at e1
      obtain ⟨eax, er1⟩ := e1
      rcases List.sublist_cons_iff.1 h2 with h2l | ⟨r2, e2, h2r⟩
      · exact hx (eax ▸ h2l.subset (by simp))
      · simp only [List.cons.injEq] at e2
        obtain ⟨ebx, _⟩ := e2
        subst er1
        have hb : b ∈ l := List.singleton_sublist.1 h1r
        exact hx (ebx ▸ hb)

theorem pair_sublist_append_singleton {α : Type} {u v w : α} {l : List α} :
    List.Sublist [u, v] (l ++ [w]) ↔ List.Sublist [u, v] l ∨ (u ∈ l ∧ v = w) := by
  constructor
  · intro h
    have hr : List.Sublist [v, u] (w :: l.reverse) := by
      have := List.reverse_sublist.2 h
      simpa using this
    rcases List.sublist_cons_iff.1 hr with h1 | ⟨r, e, h1⟩
    · left
      have := List.reverse_sublist.2 h1
      simpa using this
    · right
      simp only [List.cons.injEq] at e
      obtain ⟨e1, e2⟩ := e
      subst e2
      exact ⟨by simpa using h1.subset (List.mem_singleton_self u), e1⟩
  · rintro (h | ⟨hu, hv⟩)
    · exact h.trans (List.sublist_append_left l [w])
    · subst hv
      exact List.Sublist.append (List.singleton_sublist.2 hu) (List.Sublist.refl [v])

/-! ## The keys of `userSleepStats` -/

theorem keys_modify (f : UserSleepStat → UserSleepStat) (u : String) :
    ∀ stats : UserSleepStats,
      (UserSleepStats.modify stats u f).map Prod.fst = stats.map Prod.fst := by
  intro stats
  induction stats with
  | nil => rfl
  | cons e rest ih =>
    obtain ⟨k, v⟩ := e
    by_cases h : k = u
    · simp [UserSleepStats.modify, h]
    · simp [UserSleepStats.modify, h, ih]

theorem get_eq_none_iff (u : String) :
    ∀ stats : UserSleepStats,
      UserSleepStats.get stats u = none ↔ u ∉ stats.map Prod.fst := by
  intro stats
  induction stats with
  | nil => simp [get_nil]
  | cons e rest ih =>
    obtain ⟨k, v⟩ := e
    rw [get_cons]
    by_cases h : k = u
    · simp [h]
    · have h2 : ¬ u = k := fun e => h e.symm
      simp [h, h2, ih]

theorem keys_forEach (ff : String → DateTime) (stats : UserSleepStats) (r : SleepRecord) :
    (calculateWeeklySleepStats_forEach ff stats r).map Prod.fst
      = if r.user_id ∈ stats.map Prod.fst then stats.map Prod.fst
        else stats.map Prod.fst ++ [r.user_id] := by
  unfold calculateWeeklySleepStats_forEach
  cases hg : UserSleepStats.get stats r.user_id with
  | none =>
    have hn : r.user_id ∉ stats.map Prod.fst := (get_eq_none_iff _ _).1 hg
    simp only [hn, if_false, hg]
    split
    · rw [keys_modify]; simp
    · split
      · rw [keys_modify]; simp
      · simp
  | some v =>
    have hn : r.user_id ∈ stats.map Prod.fst := by
      by_contra hc
      rw [(get_eq_none_iff _ _).2 hc] at hg
      cases hg
    simp only [hn, if_true, hg]
    split
    · rw [keys_modify]
    · split
      · rw [keys_modify]
      · rfl

theorem weekly_append (ff : String → DateTime) (rows : List SleepRecord) (r : SleepRecord) :
    calculateWeeklySleepStats ff (rows ++ [r])
      = calculateWeeklySleepStats_forEach ff (calculateWeeklySleepStats ff rows) r := by
  simp [calculateWeeklySleepStats, List.foldl_append]

/-- The keys of the weekly object are the user ids of the rows, each once, in the
order of their first rows. -/
theorem keys_weekly (ff : String → DateTime) (rows : List SleepRecord) :
    ((calculateWeeklySleepStats ff rows).map Prod.fst).Nodup ∧
    (∀ u, u ∈ (calculateWeeklySleepStats ff rows).map Prod.fst
        ↔ u ∈ rows.map SleepRecord.user_id) ∧
    (∀ u v, u ∈ rows.map SleepRecord.user_id → v ∈ rows.map SleepRecord.user_id → u ≠ v →
      (List.Sublist [u, v] ((calculateWeeklySleepStats ff rows).map Prod.fst)
        ↔ List.indexOf u (rows.map SleepRecord.user_id)
            < List.indexOf v (rows.map SleepRecord.user_id))) := by
  induction rows using List.reverseRecOn with
  | nil =>
    refine ⟨by simp [calculateWeeklySleepStats], by simp [calculateWeeklySleepStats], ?_⟩
    intro u v hu
    simp at hu
  | append_singleton rows r ih =>
    obtain ⟨hnd, hmem, hord⟩ := ih
    have hk := keys_forEach ff (calculateWeeklySleepStats ff rows) r
    rw [← weekly_append] at hk
    rw [hk]
    simp only [List.map_append, List.map_cons, List.map_nil]
    by_cases hin : r.user_id ∈ (calculateWeeklySleepStats ff rows).map Prod.fst
    · have hin2 : r.user_id ∈ rows.map SleepRecord.user_id := (hmem _).1 hin
      simp only [hin, if_true]
      refine ⟨hnd, ?_, ?_⟩
      · intro u
        rw [hmem u]
        constructor
        · intro h; exact List.mem_append_left _ h
        · intro h
          rcases List.mem_append.1 h with h | h
          · exact h
          · rw [List.mem_singleton.1 h]; exact hin2
      · intro u v hu hv hne
        have hu2 : u ∈ rows.map SleepRecord.user_id := by
          rcases List.mem_append.1 hu with h | h
          · exact h
          · rw [List.mem_singleton.1 h]; exact hin2
        have hv2 : v ∈ rows.map SleepRecord.user_id := by
          rcases List.mem_append.1 hv with h | h
          · exact h
          · rw [List.mem_singleton.1 h]; exact hin2
        rw [List.indexOf_append_of_mem hu2, List.indexOf_append_of_mem hv2]
        exact hord u v hu2 hv2 hne
    · have hin2 : r.user_id ∉ rows.map SleepRecord.user_id := fun h => hin ((hmem _).2 h)
      simp only [hin, if_false]
      refine ⟨?_, ?_, ?_⟩
      · rw [List.nodup_append]
        refine ⟨hnd, List.nodup_singleton _, ?_⟩
        intro x hx hx2
        rw [List.mem_singleton.1 hx2] at hx
        exact hin hx
      · intro u
        simp only [List.mem_append, List.mem_singleton, hmem u]
      · intro u v hu hv hne
        rw [pair_sublist_append_singleton]
        rcases List.mem_append.1 hu with hu2 | hu2
        · rcases List.mem_append.1 hv with hv2 | hv2
          · rw [List.indexOf_append_of_mem hu2, List.indexOf_append_of_mem hv2]
            have hvr : v ≠ r.user_id := fun e => hin2 (e ▸ hv2)
            constructor
            · rintro (h | ⟨_, h⟩)
              · exact (hord u v hu2 hv2 hne).1 h
              · exact absurd h hvr
            · intro h
              exact Or.inl ((hord u v hu2 hv2 hne).2 h)
          · have hv3 : v = r.user_id := List.mem_singleton.1 hv2
            have hlt : List.indexOf u (rows.map SleepRecord.user_id)
                < (rows.map SleepRecord.user_id).length := List.indexOf_lt_length.2 hu2
            have hvn : v ∉ rows.map SleepRecord.user_id := hv3 ▸ hin2
            rw [List.indexOf_append_of_mem hu2, List.indexOf_append_of_not_mem hvn]
            constructor
            · intro _; omega
            · intro _; exact Or.inr ⟨(hmem u).2 hu2, hv3⟩
        · have hu3 : u = r.user_id := List.mem_singleton.1 hu2
          have hun : u ∉ rows.map SleepRecord.user_id := hu3 ▸ hin2
          have hv2 : v ∈ rows.map SleepRecord.user_id := by
            rcases List.mem_append.1 hv with h | h
            · exact h
            · exact absurd (hu3.trans (List.mem_singleton.1 h).symm) hne
          have hlt : List.indexOf v (rows.map SleepRecord.user_id)
              < (rows.map SleepRecord.user_id).length := List.indexOf_lt_length.2 hv2
          rw [List.indexOf_append_of_not_mem hun, List.indexOf_append_of_mem hv2]
          constructor
          · rintro (h | ⟨h, _⟩)
            · exact absurd ((hmem u).1 (h.subset (by simp))) hun
            · exact absurd ((hmem u).1 h) hun
          · intro h; omega

/-! ## The ranking -/

theorem sortEntries_perm (stats : UserSleepStats) : (sortEntries stats).Perm stats :=
  List.perm_insertionSort rankBefore stats

theorem sortEntries_sorted (stats : UserSleepStats) :
    List.Pairwise rankBefore (sortEntries stats) :=
  List.sorted_insertionSort rankBefore stats

theorem sortedUsers_sublist (stats : UserSleepStats) :
    List.Sublist (sortedUsers stats) (sortEntries stats) :=
  List.take_sublist 10 _

/-- Two entries of equal total keep in the sorted list the order they have in the
object (the sort is stable), provided no entry occurs twice. -/
theorem sortEntries_stable_pair (stats : UserSleepStats) (hnd : stats.Nodup)
    (a b : String × UserSleepStat) (ha : a ∈ stats) (hb : b ∈ stats) (hne : a ≠ b)
    (heq : a.2.totalSleepMinutes = b.2.totalSleepMinutes) :
    List.Sublist [a, b] (sortEntries stats) ↔ List.Sublist [a, b] stats := by
  have hEnd : (sortEntries stats).Nodup := (sortEntries_perm stats).nodup_iff.2 hnd
  constructor
  · intro h
    rcases pair_sublist_or hne ha hb with h1 | h1
    · exact h1
    · have hba : rankBefore b a := by
        unfold rankBefore; rw [heq]
      have h2 : List.Sublist [b, a] (sortEntries stats) :=
        List.pair_sublist_insertionSort hba h1
      exact (pair_sublist_asymm hEnd h h2).elim
  · intro h
    have hab : rankBefore a b := by
      unfold rankBefore; rw [heq]
    exact List.pair_sublist_insertionSort hab h

/-! ## Lemmas on the store -/

theorem textLE_refl (a : String) : textLE a a := by
  simp [textLE, textLT]

theorem textLE_antisymm (a b : String) (h1 : textLE a b) (h2 : textLE b a) : a = b := by
  simp only [textLE, textLT, not_lt] at h1 h2
  exact String.toList_inj.1 (le_antisymm h1 h2)

theorem textLT_iff (a b : String) : textLT a b ↔ a < b :=
  String.lt_iff_toList_lt.symm

theorem textLE_iff (a b : String) : textLE a b ↔ a ≤ b := by
  unfold textLE
  rw [textLT_iff]
  exact not_lt

/-- The first row of a list sorted by `ORDER BY timestamp DESC` is a row of the list
whose timestamp is the greatest. -/
theorem head_timestampDesc (rows : List SleepRecord) (x : SleepRecord)
    (h : (rows.insertionSort timestampDesc).head? = some x) :
    x ∈ rows ∧ ∀ y ∈ rows, textLE y.timestamp x.timestamp := by
  have hs := List.sorted_insertionSort timestampDesc rows
  have hp := List.perm_insertionSort timestampDesc rows
  cases hl : rows.insertionSort timestampDesc with
  | nil => rw [hl] at h; simp at h
  | cons z t =>
    rw [hl] at h hs hp
    simp only [List.head?_cons, Option.some.injEq] at h
    subst h
    refine ⟨hp.subset (List.mem_cons_self _ _), ?_⟩
    intro y hy
    have hy2 : y ∈ z :: t := hp.symm.subset hy
    rcases List.mem_cons.1 hy2 with e | ht
    · rw [e]; exact textLE_refl _
    · exact List.rel_of_sorted_cons hs y ht

theorem head_timestampDesc_none (rows : List SleepRecord) :
    (rows.insertionSort timestampDesc).head? = none ↔ rows = [] := by
  constructor
  · intro h
    have hlen := List.length_insertionSort timestampDesc rows
    cases hl : rows.insertionSort timestampDesc with
    | nil => rw [hl] at hlen; exact List.length_eq_zero.1 hlen.symm
    | cons z t => rw [hl] at h; simp at h
  · intro h; subst h; rfl

theorem head_timestampDesc_isSome (rows : List SleepRecord) (y : SleepRecord)
    (hy : y ∈ rows) : ∃ x, (rows.insertionSort timestampDesc).head? = some x := by
  cases h : (rows.insertionSort timestampDesc).head? with
  | none =>
    rw [head_timestampDesc_none] at h
    subst h
    simp at hy
  | some x => exact ⟨x, rfl⟩

theorem updateUserStatus_filter_key (db : Store) (u g s t rt : String) :
    (updateUserStatus db u g s t rt).filter
        (fun r => ¬ (r.user_id = u ∧ r.guild_id = g ∧ r.timestamp = t))
      = db.filter (fun r => ¬ (r.user_id = u ∧ r.guild_id = g ∧ r.timestamp = t)) := by
  unfold updateUserStatus
  rw [List.filter_append, List.filter_filter]
  simp

theorem updateUserStatus_twice (db : Store) (u g t s1 rt1 s2 rt2 : String) :
    updateUserStatus (updateUserStatus db u g s1 t rt1) u g s2 t rt2
      = updateUserStatus db u g s2 t rt2 := by
  have h := updateUserStatus_filter_key db u g s1 t rt1
  show (updateUserStatus db u g s1 t rt1).filter _ ++ _ = _
  rw [h]
  rfl

theorem updateUserStatus_length (db : Store) (u g s t rt : String) :
    (updateUserStatus db u g s t rt).length
      = (db.filter (fun r => ¬ (r.user_id = u ∧ r.guild_id = g ∧ r.timestamp = t))).length
        + 1 := by
  simp [updateUserStatus]

theorem keyUnique_updateUserStatus (db : Store) (u g s t rt : String)
    (h : (db.map primaryKey).Nodup) :
    ((updateUserStatus db u g s t rt).map primaryKey).Nodup := by
  unfold updateUserStatus
  rw [List.map_append, List.nodup_append]
  refine ⟨(List.filter_sublist db).map primaryKey |>.nodup h, by simp, ?_⟩
  intro k hk1 hk2
  simp only [List.map_cons, List.map_nil, List.mem_singleton] at hk2
  rw [List.mem_map] at hk1
  obtain ⟨r, hr, hrk⟩ := hk1
  rw [List.mem_filter] at hr
  have hne := hr.2
  simp only [decide_eq_true_eq] at hne
  apply hne
  rw [hk2] at hrk
  simp only [primaryKey, Prod.mk.injEq] at hrk
  exact hrk

theorem keyUnique_clearUserSleepRecords (db : Store) (u g : String)
    (h : (db.map primaryKey).Nodup) :
    ((clearUserSleepRecords db u g).map primaryKey).Nodup :=
  ((List.filter_sublist db).map primaryKey).nodup h

theorem keyUnique_of_reachable (db : Store) (h : Reachable db) :
    (db.map primaryKey).Nodup := by
  induction h with
  | empty => simp
  | write db u g s t rt _ ih => exact keyUnique_updateUserStatus db u g s t rt ih
  | delete db u g _ ih => exact keyUnique_clearUserSleepRecords db u g ih

/-! ## Lemmas on `getServerAverageSleepTime` -/

/-- An average that is present is at least one minute, so it is not 0. -/
theorem average_ge_one (ff : String → DateTime) (rows : List SleepRecord) (q : ℚ)
    (h : getAverageSleepDuration ff rows = some q) : 1 ≤ q := by
  unfold getAverageSleepDuration at h
  by_cases hz : (getAverageSleepDuration_fold ff rows).sleepSessions = 0
  · simp [hz] at h
  · simp only [hz, if_false, Option.some.injEq] at h
    rw [← h]
    have hb := (sleep_fold_total_bounds ff rows).1
    have hpos : (0 : ℚ) < ((getAverageSleepDuration_fold ff rows).sleepSessions : ℚ) := by
      exact_mod_cast Nat.pos_of_ne_zero hz
    rw [one_le_div hpos]
    exact_mod_cast hb

theorem server_body_some (ff : String → DateTime) (db : Store) (g : String)
    (acc : ServerAcc) (u : String) (q : ℚ)
    (h : getAverageSleepDuration_db ff db u g = some q) :
    getServerAverageSleepTime_body ff db g acc u
      = { totalSleepMinutes := acc.totalSleepMinutes + q, userCount := acc.userCount + 1 } := by
  have hq : q ≠ 0 := by
    have := average_ge_one ff _ q h
    intro e
    rw [e] at this
    norm_num at this
  unfold getServerAverageSleepTime_body
  simp [h, hq]

theorem server_body_none (ff : String → DateTime) (db : Store) (g : String)
    (acc : ServerAcc) (u : String) (h : getAverageSleepDuration_db ff db u g = none) :
    getServerAverageSleepTime_body ff db g acc u = acc := by
  unfold getServerAverageSleepTime_body
  simp [h]

theorem server_foldl (ff : String → DateTime) (db : Store) (g : String)
    (users : List String) :
    ∀ acc : ServerAcc,
      users.foldl (getServerAverageSleepTime_body ff db g) acc
        = { totalSleepMinutes := acc.totalSleepMinutes
              + (users.filterMap (fun u => getAverageSleepDuration_db ff db u g)).sum
            userCount := acc.userCount
              + (users.filterMap (fun u => getAverageSleepDuration_db ff db u g)).length } := by
  induction users with
  | nil => intro acc; simp
  | cons u users ih =>
    intro acc
    rw [List.foldl_cons, ih]
    cases h : getAverageSleepDuration_db ff db u g with
    | none =>
      rw [server_body_none ff db g acc u h]
      simp [List.filterMap_cons, h]
    | some q =>
      rw [server_body_some ff db g acc u q h]
      simp only [List.filterMap_cons, h, List.sum_cons, List.length_cons, ServerAcc.mk.injEq]
      constructor
      · ring
      · omega

theorem server_eq_mean (ff : String → DateTime) (db : Store) (g : String) :
    getServerAverageSleepTime ff db g = arithmeticMean (presentAverages ff db g) := by
  unfold getServerAverageSleepTime arithmeticMean presentAverages
  rw [server_foldl]
  simp

/-! ## Lemmas on `getWeeklySleepData` -/

theorem weeklyData_sorted (db : Store) (g : String) (now : CivilTime) :
    List.Pairwise userTimestampAsc (getWeeklySleepData db g now) :=
  List.sorted_insertionSort userTimestampAsc _

theorem weeklyData_perm (db : Store) (g : String) (now : CivilTime) :
    (getWeeklySleepData db g now).Perm
      (db.filter (fun r => r.guild_id = g
        ∧ textLE (toFormat now.minusSevenDays) r.timestamp)) :=
  List.perm_insertionSort userTimestampAsc _

/-! ## Lemmas on the latest rows -/

theorem getUserStatus_mem (db : Store) (u g : String) (x : SleepRecord)
    (h : getUserStatus db u g = some x) :
    x ∈ db ∧ x.user_id = u ∧ x.guild_id = g ∧
    ∀ y ∈ db, y.user_id = u → y.guild_id = g → textLE y.timestamp x.timestamp := by
  unfold getUserStatus at h
  obtain ⟨hm, hmax⟩ := head_timestampDesc _ x h
  rw [List.mem_filter] at hm
  have h2 := hm.2
  simp only [decide_eq_true_eq] at h2
  refine ⟨hm.1, h2.1, h2.2, ?_⟩
  intro y hy hu hg
  apply hmax
  rw [List.mem_filter]
  exact ⟨hy, by simp [hu, hg]⟩

theorem getUserStatus_eq_none (db : Store) (u g : String) :
    getUserStatus db u g = none ↔ ∀ r ∈ db, ¬ (r.user_id = u ∧ r.guild_id = g) := by
  unfold getUserStatus
  rw [head_timestampDesc_none, List.filter_eq_nil_iff]
  simp only [decide_eq_true_eq]

theorem getLastRecord_mem (db : Store) (u g t : String) (x : SleepRecord)
    (h : getLastRecord db u g t = some x) :
    x ∈ db ∧ x.user_id = u ∧ x.guild_id = g ∧ x.record_type = t ∧
    ∀ y ∈ db, y.user_id = u → y.guild_id = g → y.record_type = t →
      textLE y.timestamp x.timestamp := by
  unfold getLastRecord at h
  obtain ⟨hm, hmax⟩ := head_timestampDesc _ x h
  rw [List.mem_filter] at hm
  have h2 := hm.2
  simp only [decide_eq_true_eq] at h2
  refine ⟨hm.1, h2.1, h2.2.1, h2.2.2, ?_⟩
  intro y hy hu hg ht
  apply hmax
  rw [List.mem_filter]
  exact ⟨hy, by simp [hu, hg, ht]⟩

/-! ## Lemmas on the status projection -/

theorem statusProjection_none (lw ls : Option SleepRecord) :
    statusProjection none lw ls
      = { userCurrentStatus := "N/A", elapsedTime := ElapsedTime.NA,
          lastDurationText := LastDurationText.NA } := rfl

theorem statusProjection_label (st : SleepRecord) (lw ls : Option SleepRecord) :
    (statusProjection (some st) lw ls).userCurrentStatus
      = if st.status = "☀️" then "Awake" else "Asleep" := by
  unfold statusProjection
  simp only
  split
  · rfl
  · split <;> rfl

theorem statusProjection_awake (st w : SleepRecord) (ls : Option SleepRecord)
    (h : st.status = "☀️") :
    statusProjection (some st) (some w) ls
      = { userCurrentStatus := "Awake"
          elapsedTime := ElapsedTime.calculateElapsedTime w.timestamp
          lastDurationText :=
            match ls with
            | some s => LastDurationText.calculateDuration s.timestamp w.timestamp
            | none => LastDurationText.noPreviousSleepRecord } := by
  unfold statusProjection
  simp [h]

theorem sun_ne_moon : ("☀️" : String) ≠ "🌙" := by decide

theorem statusProjection_asleep (st s : SleepRecord) (lw : Option SleepRecord)
    (h : st.status = "🌙") :
    statusProjection (some st) lw (some s)
      = { userCurrentStatus := "Asleep"
          elapsedTime := ElapsedTime.calculateElapsedTime s.timestamp
          lastDurationText :=
            match lw with
            | some w => LastDurationText.calculateDuration w.timestamp s.timestamp
            | none => LastDurationText.noPreviousWakeRecord } := by
  have hne : ¬ st.status = "☀️" := by
    rw [h]; exact fun e => sun_ne_moon e.symm
  unfold statusProjection
  simp [h, hne]

theorem statusProjection_awake_no_marker (st : SleepRecord) (ls : Option SleepRecord)
    (h : st.status = "☀️") :
    statusProjection (some st) none ls
      = { userCurrentStatus := "Awake", elapsedTime := ElapsedTime.NA,
          lastDurationText := LastDurationText.NA } := by
  unfold statusProjection
  cases ls <;> simp [h, sun_ne_moon]

theorem statusProjection_asleep_no_marker (st : SleepRecord) (lw : Option SleepRecord)
    (h : st.status = "🌙") :
    statusProjection (some st) lw none
      = { userCurrentStatus := "Asleep", elapsedTime := ElapsedTime.NA,
          lastDurationText := LastDurationText.NA } := by
  have hne : ¬ st.status = "☀️" := by
    rw [h]; exact fun e => sun_ne_moon e.symm
  unfold statusProjection
  cases lw <;> simp [h, hne, sun_ne_moon.symm]

theorem statusProjection_other (st : SleepRecord) (lw ls : Option SleepRecord)
    (h1 : st.status ≠ "☀️") (h2 : st.status ≠ "🌙") :
    statusProjection (some st) lw ls
      = { userCurrentStatus := "Asleep", elapsedTime := ElapsedTime.NA,
          lastDurationText := LastDurationText.NA } := by
  unfold statusProjection
  cases lw <;> cases ls <;> simp [h1, h2]

/-- Every call of `calculateElapsedTime` and of `calculateDuration` in the projection
is on timestamps of rows that the queries returned. -/
theorem statusProjection_calls (status lw ls : Option SleepRecord) :
    (∀ ts, (statusProjection status lw ls).elapsedTime
        = ElapsedTime.calculateElapsedTime ts →
      status ≠ none ∧
      ((∃ w, lw = some w ∧ w.timestamp = ts) ∨ (∃ s, ls = some s ∧ s.timestamp = ts))) ∧
    (∀ t1 t2, (statusProjection status lw ls).lastDurationText
        = LastDurationText.calculateDuration t1 t2 →
      status ≠ none ∧
      ∃ w s, lw = some w ∧ ls = some s ∧
        ((t1 = s.timestamp ∧ t2 = w.timestamp) ∨ (t1 = w.timestamp ∧ t2 = s.timestamp))) := by
  cases status with
  | none =>
    rw [statusProjection_none]
    exact ⟨fun ts h => by simp at h, fun t1 t2 h => by simp at h⟩
  | some st =>
    by_cases h1 : st.status = "☀️"
    · cases lw with
      | none =>
        rw [statusProjection_awake_no_marker st ls h1]
        exact ⟨fun ts h => by simp at h, fun t1 t2 h => by simp at h⟩
      | some w =>
        rw [statusProjection_awake st w ls h1]
        constructor
        · intro ts h
          simp only [ElapsedTime.calculateElapsedTime.injEq] at h
          exact ⟨by simp, Or.inl ⟨w, rfl, h⟩⟩
        · intro t1 t2 h
          cases ls with
          | none => simp at h
          | some s =>
            simp only [LastDurationText.calculateDuration.injEq] at h
            exact ⟨by simp, w, s, rfl, rfl, Or.inl ⟨h.1.symm, h.2.symm⟩⟩
    · by_cases h2 : st.status = "🌙"
      · cases ls with
        | none =>
          rw [statusProjection_asleep_no_marker st lw h2]
          exact ⟨fun ts h => by simp at h, fun t1 t2 h => by simp at h⟩
        | some s =>
          rw [statusProjection_asleep st s lw h2]
          constructor
          · intro ts h
            simp only [ElapsedTime.calculateElapsedTime.injEq] at h
            exact ⟨by simp, Or.inr ⟨s, rfl, h⟩⟩
          · intro t1 t2 h
            cases lw with
            | none => simp at h
            | some w =>
              simp only [LastDurationText.calculateDuration.injEq] at h
              exact ⟨by simp, w, s, rfl, rfl, Or.inr ⟨h.1.symm, h.2.symm⟩⟩
      · rw [statusProjection_other st lw ls h1 h2]
        exact ⟨fun ts h => by simp at h, fun t1 t2 h => by simp at h⟩

/-! ## Lemmas on the privileged commands -/

theorem contains_eq_true_iff (l : List String) (a : String) :
    l.contains a = true ↔ a ∈ l := by
  unfold List.contains
  exact List.elem_iff

theorem permissionDenied_iff (member : GuildMember) :
    permissionDenied member = true ↔ ¬ privileged member := by
  unfold permissionDenied privileged
  rw [← contains_eq_true_iff member.roles ALLOWED_ROLE_ID,
    ← contains_eq_true_iff ALLOWED_USERS member.id]
  cases member.hasManageGuild <;>
    cases member.roles.contains ALLOWED_ROLE_ID <;>
    cases ALLOWED_USERS.contains member.id <;>
    decide

theorem permissionDenied_false_iff (member : GuildMember) :
    permissionDenied member = false ↔ privileged member := by
  have h := permissionDenied_iff member
  constructor
  · intro hf
    by_contra hc
    rw [h.2 hc] at hf
    cases hf
  · intro hp
    cases hd : permissionDenied member with
    | false => rfl
    | true => exact absurd hp (h.1 hd)

/-! ## Lemmas on the timestamp format -/

theorem digit_fin : ∀ i j : Fin 10,
    (digitChar i.val < digitChar j.val ↔ i.val < j.val) ∧
    (digitChar i.val = digitChar j.val ↔ i.val = j.val) ∧
    digitValue (digitChar i.val) = some i.val := by decide

theorem digitChar_mod (n : Nat) : digitChar n = digitChar (n % 10) := by
  unfold digitChar
  rw [Nat.mod_mod]

theorem digitChar_lt (i j : Nat) : digitChar i < digitChar j ↔ i % 10 < j % 10 := by
  rw [digitChar_mod i, digitChar_mod j]
  exact (digit_fin ⟨i % 10, Nat.mod_lt _ (by decide)⟩ ⟨j % 10, Nat.mod_lt _ (by decide)⟩).1

theorem digitChar_eq (i j : Nat) : digitChar i = digitChar j ↔ i % 10 = j % 10 := by
  rw [digitChar_mod i, digitChar_mod j]
  exact (digit_fin ⟨i % 10, Nat.mod_lt _ (by decide)⟩ ⟨j % 10, Nat.mod_lt _ (by decide)⟩).2.1

theorem digitValue_digitChar (i : Nat) : digitValue (digitChar i) = some (i % 10) := by
  rw [digitChar_mod i]
  exact (digit_fin ⟨i % 10, Nat.mod_lt _ (by decide)⟩ ⟨0, by decide⟩).2.2

theorem charList_cons_lt (a b : Char) (l k : List Char) :
    (a :: l) < (b :: k) ↔ a < b ∨ (a = b ∧ l < k) := by
  constructor
  · intro h
    cases h with
    | cons h => exact Or.inr ⟨rfl, h⟩
    | rel h => exact Or.inl h
  · rintro (h | ⟨e, h⟩)
    · exact List.Lex.rel h
    · subst e; exact List.Lex.cons h

theorem charList_nil_lt : ¬ (([] : List Char) < []) := by
  intro h; cases h

theorem one_le_daysInMonth (y m : Nat) : 1 ≤ daysInMonth y m := by
  unfold daysInMonth
  split_ifs <;> omega

theorem daysInMonth_le (y m : Nat) : daysInMonth y m ≤ 31 := by
  unfold daysInMonth
  split_ifs <;> omega

/-- The last day of a month comes before the first day of the next month. -/
theorem daysFromCivil_next_month (y m d : Nat) (hm : 1 ≤ m ∧ m ≤ 11)
    (hd : d ≤ daysInMonth y m) :
    daysFromCivil y m d < daysFromCivil y (m + 1) 1 := by
  obtain ⟨h1, h2⟩ := hm
  interval_cases m <;> simp [daysFromCivil, daysInMonth, isLeapYear] at hd ⊢ <;>
    first
    | omega
    | (split_ifs at hd <;> omega)

theorem daysFromCivil_day (y m d1 d2 : Nat) (h : d1 < d2) :
    daysFromCivil y m d1 < daysFromCivil y m d2 := by
  unfold daysFromCivil
  simp only []
  omega

theorem daysFromCivil_later_month_first (y m1 d1 : Nat) (hm1 : 1 ≤ m1)
    (hd1 : d1 ≤ daysInMonth y m1) :
    ∀ k : Nat, m1 + k + 1 ≤ 12 →
      daysFromCivil y m1 d1 < daysFromCivil y (m1 + k + 1) 1 := by
  intro k
  induction k with
  | zero => intro h; exact daysFromCivil_next_month y m1 d1 ⟨hm1, by omega⟩ hd1
  | succ k ih =>
    intro h
    have h1 := ih (by omega)
    have h2 := daysFromCivil_next_month y (m1 + k + 1) 1 ⟨by omega, by omega⟩
      (one_le_daysInMonth _ _)
    exact lt_trans h1 h2

theorem daysFromCivil_month (y m1 d1 m2 d2 : Nat) (hm1 : 1 ≤ m1)
    (hd1 : d1 ≤ daysInMonth y m1) (hm2 : m2 ≤ 12) (hd2 : 1 ≤ d2) (h : m1 < m2) :
    daysFromCivil y m1 d1 < daysFromCivil y m2 d2 := by
  have h1 := daysFromCivil_later_month_first y m1 d1 hm1 hd1 (m2 - m1 - 1) (by omega)
  have e : m1 + (m2 - m1 - 1) + 1 = m2 := by omega
  rw [e] at h1
  rcases Nat.eq_or_lt_of_le hd2 with h2 | h2
  · rw [← h2]; exact h1
  · exact lt_trans h1 (daysFromCivil_day y m2 1 d2 h2)

theorem daysFromCivil_year (y1 m1 d1 y2 m2 d2 : Nat) (hm1 : 1 ≤ m1 ∧ m1 ≤ 12)
    (hd1 : 1 ≤ d1 ∧ d1 ≤ 31) (hm2 : 1 ≤ m2 ∧ m2 ≤ 12) (hd2 : 1 ≤ d2 ∧ d2 ≤ 31)
    (h : y1 < y2) :
    daysFromCivil y1 m1 d1 < daysFromCivil y2 m2 d2 := by
  unfold daysFromCivil
  simp only []
  split_ifs <;> omega

theorem before_epochMinutes (a b : CivilTime) (ha : a.valid) (hb : b.valid)
    (h : a.before b) : a.epochMinutes < b.epochMinutes := by
  obtain ⟨_, a2, a3, a4, a5, a6, a7⟩ := ha
  obtain ⟨_, b2, b3, b4, b5, b6, b7⟩ := hb
  have a8 := daysInMonth_le a.year a.month
  have b8 := daysInMonth_le b.year b.month
  unfold CivilTime.epochMinutes
  rcases h with h | ⟨ey, h | ⟨em, h | ⟨ed, h | ⟨eh, h⟩⟩⟩⟩
  · have := daysFromCivil_year a.year a.month a.day b.year b.month b.day ⟨a2, a3⟩
      ⟨a4, by omega⟩ ⟨b2, b3⟩ ⟨b4, by omega⟩ h
    omega
  · have := daysFromCivil_month a.year a.month a.day b.month b.day a2 a5 b3 b4 h
    rw [← ey]
    omega
  · have := daysFromCivil_day a.year a.month a.day b.day h
    rw [← ey, ← em]
    omega
  · rw [← ey, ← em, ← ed]
    omega
  · rw [← ey, ← em, ← ed, ← eh]
    omega

theorem before_trichotomy (a b : CivilTime) : a.before b ∨ a = b ∨ b.before a := by
  unfold CivilTime.before
  by_cases e : a = b
  · exact Or.inr (Or.inl e)
  · have hne : ¬ (a.year = b.year ∧ a.month = b.month ∧ a.day = b.day ∧ a.hour = b.hour
        ∧ a.minute = b.minute) := by
      rintro ⟨h1, h2, h3, h4, h5⟩
      apply e
      cases a; cases b
      simp only [CivilTime.mk.injEq]
      exact ⟨h1, h2, h3, h4, h5⟩
    omega

theorem recon4 (y : Nat) (h : y ≤ 9999) :
    1000 * (y / 1000 % 10) + 100 * (y / 100 % 10) + 10 * (y / 10 % 10) + y % 10 = y := by
  omega

theorem recon2 (m : Nat) (h : m ≤ 99) : 10 * (m / 10 % 10) + m % 10 = m := by
  omega

theorem toFormat_toList (c : CivilTime) :
    (toFormat c).toList =
    [digitChar (c.year / 1000), digitChar (c.year / 100), digitChar (c.year / 10),
     digitChar c.year, '-', digitChar (c.month / 10), digitChar c.month, '-',
     digitChar (c.day / 10), digitChar c.day, ' ', digitChar (c.hour / 10),
     digitChar c.hour, ':', digitChar (c.minute / 10), digitChar c.minute] := rfl

/-- Reading a formatted civil date-time gives its instant back. -/
theorem fromFormatTokyo_toFormat (c : CivilTime) (h : c.valid) :
    fromFormatTokyo (toFormat c) = some c.epochMinutes := by
  obtain ⟨h1, h2, h3, h4, h5, h6, h7⟩ := h
  have h8 := daysInMonth_le c.year c.month
  unfold fromFormatTokyo
  rw [toFormat_toList]
  simp only [digitValue_digitChar, and_self, if_true]
  rw [recon4 c.year h1, recon2 c.month (by omega), recon2 c.day (by omega),
    recon2 c.hour (by omega), recon2 c.minute (by omega)]
  have hv : 1 ≤ c.month ∧ c.month ≤ 12 ∧ 1 ≤ c.day ∧ c.day ≤ daysInMonth c.year c.month
      ∧ (c.hour ≤ 23 ∨ (c.hour = 24 ∧ c.minute = 0)) ∧ c.minute ≤ 59 :=
    ⟨h2, h3, h4, h5, Or.inl h6, h7⟩
  simp only [hv, and_self, if_true]
  rfl

theorem digits4_lex (p q r s p' q' r' s' : Nat) (P : Prop)
    (hq : q ≤ 9) (hr : r ≤ 9) (hs : s ≤ 9) (hq' : q' ≤ 9) (hr' : r' ≤ 9) (hs' : s' ≤ 9) :
    (p < p' ∨ (p = p' ∧ (q < q' ∨ (q = q' ∧ (r < r' ∨ (r = r' ∧
      (s < s' ∨ (s = s' ∧ P)))))))) ↔
    (1000 * p + 100 * q + 10 * r + s < 1000 * p' + 100 * q' + 10 * r' + s' ∨
      (1000 * p + 100 * q + 10 * r + s = 1000 * p' + 100 * q' + 10 * r' + s' ∧ P)) := by
  by_cases hP : P
  · simp only [hP, and_true]; omega
  · simp only [hP, and_false, or_false]; omega

theorem four_digit_lex (y z : Nat) (P : Prop) (hy : y ≤ 9999) (hz : z ≤ 9999) :
    (y / 1000 % 10 < z / 1000 % 10 ∨ (y / 1000 % 10 = z / 1000 % 10 ∧
      (y / 100 % 10 < z / 100 % 10 ∨ (y / 100 % 10 = z / 100 % 10 ∧
        (y / 10 % 10 < z / 10 % 10 ∨ (y / 10 % 10 = z / 10 % 10 ∧
          (y % 10 < z % 10 ∨ (y % 10 = z % 10 ∧ P)))))))) ↔ (y < z ∨ (y = z ∧ P)) := by
  have h := digits4_lex (y / 1000 % 10) (y / 100 % 10) (y / 10 % 10) (y % 10)
    (z / 1000 % 10) (z / 100 % 10) (z / 10 % 10) (z % 10) P
    (by omega) (by omega) (by omega) (by omega) (by omega) (by omega)
  rw [recon4 y hy, recon4 z hz] at h
  exact h

theorem two_digit_lex (m n : Nat) (P : Prop) (hm : m ≤ 99) (hn : n ≤ 99) :
    (m / 10 % 10 < n / 10 % 10 ∨ (m / 10 % 10 = n / 10 % 10 ∧
      (m % 10 < n % 10 ∨ (m % 10 = n % 10 ∧ P)))) ↔ (m < n ∨ (m = n ∧ P)) := by
  by_cases hP : P
  · simp only [hP, and_true]; omega
  · simp only [hP, and_false, or_false]; omega

/-- The formatted texts compare as the civil date-times do. -/
theorem toFormat_lt_iff (a b : CivilTime) (ha : a.valid) (hb : b.valid) :
    textLT (toFormat a) (toFormat b) ↔ a.before b := by
  obtain ⟨a1, a2, a3, a4, a5, a6, a7⟩ := ha
  obtain ⟨b1, b2, b3, b4, b5, b6, b7⟩ := hb
  have a8 := daysInMonth_le a.year a.month
  have b8 := daysInMonth_le b.year b.month
  unfold textLT
  rw [toFormat_toList, toFormat_toList]
  simp only [charList_cons_lt, charList_nil_lt, digitChar_lt, digitChar_eq, lt_self_iff_false,
    true_and, false_or]
  rw [four_digit_lex a.year b.year _ a1 b1,
    two_digit_lex a.month b.month _ (by omega) (by omega),
    two_digit_lex a.day b.day _ (by omega) (by omega),
    two_digit_lex a.hour b.hour _ (by omega) (by omega),
    two_digit_lex a.minute b.minute _ (by omega) (by omega)]
  unfold CivilTime.before
  simp only [and_false, or_false]

theorem textLT_irrefl (a : String) : ¬ textLT a a := by
  unfold textLT
  exact lt_irrefl _

theorem toFormat_lt_iff_epochMinutes (a b : CivilTime) (ha : a.valid) (hb : b.valid) :
    textLT (toFormat a) (toFormat b) ↔ a.epochMinutes < b.epochMinutes := by
  constructor
  · intro h
    exact before_epochMinutes a b ha hb ((toFormat_lt_iff a b ha hb).1 h)
  · intro h
    rcases before_trichotomy a b with h1 | h1 | h1
    · exact (toFormat_lt_iff a b ha hb).2 h1
    · rw [h1] at h; exact absurd h (lt_irrefl _)
    · exact absurd (before_epochMinutes b a hb ha h1) (not_lt.2 (le_of_lt h))

theorem toFormat_le_iff_epochMinutes (a b : CivilTime) (ha : a.valid) (hb : b.valid) :
    textLE (toFormat a) (toFormat b) ↔ a.epochMinutes ≤ b.epochMinutes := by
  unfold textLE
  rw [toFormat_lt_iff_epochMinutes b a hb ha]
  exact not_lt

/-! ## The entry of one user in `calculateWeeklySleepStats` -/

theorem get_append_single (stats : UserSleepStats) (u v : String) (x : UserSleepStat) :
    UserSleepStats.get (stats ++ [(u, x)]) v
      = match UserSleepStats.get stats v with
        | some y => some y
        | none => if u = v then some x else none := by
  induction stats with
  | nil => simp [get_cons, get_nil]
  | cons e rest ih =>
    obtain ⟨k, w⟩ := e
    rw [List.cons_append, get_cons, get_cons]
    by_cases h : k = v
    · simp [h]
    · simp only [h, if_false]
      exact ih

theorem get_modify_ne (f : UserSleepStat → UserSleepStat) (u v : String) (h : u ≠ v) :
    ∀ stats : UserSleepStats,
      UserSleepStats.get (UserSleepStats.modify stats u f) v = UserSleepStats.get stats v := by
  intro stats
  induction stats with
  | nil => rfl
  | cons e rest ih =>
    obtain ⟨k, w⟩ := e
    by_cases hk : k = u
    · have hkv : ¬ k = v := fun e => h (hk ▸ e)
      simp [UserSleepStats.modify, hk, get_cons, h]
    · by_cases hkv : k = v
      · subst hkv
        simp [UserSleepStats.modify, hk, get_cons]
      · simp [UserSleepStats.modify, hk, get_cons, hkv, ih]

theorem modify_id (u : String) :
    ∀ stats : UserSleepStats, UserSleepStats.modify stats u (fun st => st) = stats := by
  intro stats
  induction stats with
  | nil => rfl
  | cons e rest ih =>
    obtain ⟨k, w⟩ := e
    by_cases hk : k = u
    · simp [UserSleepStats.modify, hk]
    · simp [UserSleepStats.modify, hk, ih]

theorem weekly_forEach_eq_modify (ff : String → DateTime) (stats : UserSleepStats)
    (r : SleepRecord) :
    calculateWeeklySleepStats_forEach ff stats r
      = UserSleepStats.modify
          (match UserSleepStats.get stats r.user_id with
           | none => stats ++ [(r.user_id, { totalSleepMinutes := 0, sleepStart := none })]
           | some _ => stats)
          r.user_id (entryUpdate ff r) := by
  unfold calculateWeeklySleepStats_forEach
  by_cases hs : r.record_type = "sleep"
  · simp only [hs, if_true]
    congr 1
    funext st
    simp [entryUpdate, hs]
  · by_cases hw : r.record_type = "wakeup"
    · have e : entryUpdate ff r = wakeupUpdate ff r := by
        funext st
        simp [entryUpdate, hs, hw]
      rw [e]
      simp only [hs, hw, if_false, if_true]
      rfl
    · simp only [hs, hw, if_false]
      have e : entryUpdate ff r = fun st => st := by
        funext st
        simp [entryUpdate, hs, hw]
      rw [e, modify_id]

/-- What a record does to the entry of a user: it updates the entry of its own user,
created with total 0 and no marker if absent, and leaves every other entry alone. -/
theorem get_weekly_forEach (ff : String → DateTime) (stats : UserSleepStats)
    (r : SleepRecord) (v : String) :
    UserSleepStats.get (calculateWeeklySleepStats_forEach ff stats r) v
      = if r.user_id = v then
          some (entryUpdate ff r
            ((UserSleepStats.get stats v).getD { totalSleepMinutes := 0, sleepStart := none }))
        else UserSleepStats.get stats v := by
  rw [weekly_forEach_eq_modify]
  by_cases h : r.user_id = v
  · subst h
    simp only [if_true]
    rw [get_modify]
    cases hg : UserSleepStats.get stats r.user_id with
    | none => simp [get_append_single, hg]
    | some y => simp [hg]
  · simp only [h, if_false]
    rw [get_modify_ne _ _ _ h]
    cases hg : UserSleepStats.get stats r.user_id with
    | none =>
      simp only []
      rw [get_append_single]
      simp [h]
      cases UserSleepStats.get stats v <;> rfl
    | some y => rfl

theorem entryUpdate_fold (ff : String → DateTime) (acc : SleepAcc) (r : SleepRecord) :
    entryUpdate ff r
        { totalSleepMinutes := acc.totalSleepDuration, sleepStart := acc.sleepStart }
      = { totalSleepMinutes := (getAverageSleepDuration_forEach ff acc r).totalSleepDuration
          sleepStart := (getAverageSleepDuration_forEach ff acc r).sleepStart } := by
  unfold entryUpdate getAverageSleepDuration_forEach wakeupUpdate
  by_cases hs : r.record_type = "sleep"
  · simp [hs]
  · by_cases hw : r.record_type = "wakeup"
    · simp only [hs, hw, if_false, if_true]
      cases hst : acc.sleepStart with
      | none => simp [hst]
      | some start =>
        cases hdm : DateTime.diffMinutes (ff r.timestamp) start with
        | none => simp [hdm]
        | some d =>
          by_cases hd : d > 0
          · simp [hdm, hd]
          · simp [hdm, hd]
    · simp [hs, hw]

/-- The entry of a user in the weekly object is the total and the marker of the sleep
fold on the records of that user alone, in their order in the input. -/
theorem weekly_get (ff : String → DateTime) (rows : List SleepRecord) (u : String) :
    UserSleepStats.get (calculateWeeklySleepStats ff rows) u
      = if rows.filter (fun r => r.user_id = u) = [] then none
        else some
          { totalSleepMinutes :=
              (getAverageSleepDuration_fold ff
                (rows.filter (fun r => r.user_id = u))).totalSleepDuration
            sleepStart :=
              (getAverageSleepDuration_fold ff
                (rows.filter (fun r => r.user_id = u))).sleepStart } := by
  induction rows using List.reverseRecOn with
  | nil => simp [calculateWeeklySleepStats, get_nil]
  | append_singleton rows r ih =>
    rw [weekly_append, get_weekly_forEach, List.filter_append]
    by_cases h : r.user_id = u
    · have hf : List.filter (fun r => decide (r.user_id = u)) [r] = [r] := by
        simp [h]
      rw [hf, sleep_fold_append]
      simp only [h, if_true, List.append_eq_nil, List.cons_ne_self, and_false, if_false,
        reduceCtorEq]
      rw [ih]
      by_cases hnil : rows.filter (fun r => r.user_id = u) = []
      · simp only [hnil, if_true, Option.getD_none]
        exact congrArg some (entryUpdate_fold ff ⟨0, 0, none⟩ r)
      · simp only [hnil, if_false, Option.getD_some]
        exact congrArg some (entryUpdate_fold ff _ r)
    · have hf : List.filter (fun r => decide (r.user_id = u)) [r] = [] := by
        simp [h]
      rw [hf, List.append_nil]
      simp only [h, if_false]
      exact ih

theorem filter_user_idem (rows : List SleepRecord) (u : String) :
    (rows.filter (fun r => r.user_id = u)).filter (fun r => r.user_id = u)
      = rows.filter (fun r => r.user_id = u) := by
  rw [List.filter_filter]
  simp

theorem weeklyTotal_eq (ff : String → DateTime) (rows : List SleepRecord) (u : String) :
    weeklyTotal (calculateWeeklySleepStats ff rows) u
      = (getAverageSleepDuration_fold ff
          (rows.filter (fun r => r.user_id = u))).totalSleepDuration := by
  unfold weeklyTotal
  rw [weekly_get]
  by_cases h : rows.filter (fun r => r.user_id = u) = []
  · simp [h, getAverageSleepDuration_fold]
  · simp [h]

/-- From a state without marker, records that are not `sleep` records change
nothing. -/
theorem sleep_foldl_no_sleep (ff : String → DateTime) (rows : List SleepRecord)
    (hno : ∀ r ∈ rows, r.record_type ≠ "sleep") :
    ∀ acc : SleepAcc, acc.sleepStart = none →
      rows.foldl (getAverageSleepDuration_forEach ff) acc = acc := by
  induction rows with
  | nil => intro acc _; rfl
  | cons r rows ih =>
    intro acc hacc
    have hr : r.record_type ≠ "sleep" := hno r (List.mem_cons_self _ _)
    have hstep : getAverageSleepDuration_forEach ff acc r = acc := by
      by_cases hw : r.record_type = "wakeup"
      · exact sleep_forEach_wakeup_null ff acc r hw hacc
      · exact sleep_forEach_other ff acc r hr hw
    rw [List.foldl_cons, hstep]
    exact ih (fun x hx => hno x (List.mem_cons_of_mem _ hx)) acc hacc

/-- A `wakeup` record that meets no marker can be removed from the input of the sleep
fold. -/
theorem sleep_fold_remove_wakeup (ff : String → DateTime) (pre post : List SleepRecord)
    (w : SleepRecord) (hw : w.record_type = "wakeup")
    (hm : (getAverageSleepDuration_fold ff pre).sleepStart = none) :
    getAverageSleepDuration_fold ff (pre ++ w :: post)
      = getAverageSleepDuration_fold ff (pre ++ post) := by
  unfold getAverageSleepDuration_fold at hm ⊢
  rw [List.foldl_append, List.foldl_append, List.foldl_cons,
    sleep_forEach_wakeup_null ff _ w hw hm]

theorem get_some_mem (u : String) (st : UserSleepStat) :
    ∀ stats : UserSleepStats, UserSleepStats.get stats u = some st → (u, st) ∈ stats := by
  intro stats
  induction stats with
  | nil => intro h; simp [get_nil] at h
  | cons e rest ih =>
    obtain ⟨k, w⟩ := e
    intro h
    rw [get_cons] at h
    by_cases hk : k = u
    · simp only [hk, if_true, Option.some.injEq] at h
      rw [hk, h]
      exact List.mem_cons_self _ _
    · simp only [hk, if_false] at h
      exact List.mem_cons_of_mem _ (ih h)

theorem sortedUsers_length (stats : UserSleepStats) :
    (sortedUsers stats).length = min 10 stats.length := by
  unfold sortedUsers sortEntries
  rw [List.length_take, List.length_insertionSort]

theorem statsDescription_noSleepData (stats : UserSleepStats) :
    statsDescription stats = StatsDescription.noSleepData ↔ stats = [] := by
  unfold statsDescription
  rw [sortedUsers_length]
  cases stats with
  | nil => simp
  | cons e rest =>
    have h : ¬ (min 10 (e :: rest).length = 0) := by
      simp only [List.length_cons]
      omega
    simp [h]

theorem rankingLines_jp_keys (l : List (String × UserSleepStat)) :
    ∀ i : Nat,
      (rankingLines_jp i l).map (fun x => (x.rank, x.userId, x.totalHours))
        = (rankingLines i l).map (fun x => (x.rank, x.userId, x.totalHours)) := by
  induction l with
  | nil => intro i; rfl
  | cons e rest ih =>
    intro i
    obtain ⟨k, v⟩ := e
    simp [rankingLines, rankingLines_jp, ih]

theorem rankingLines_jp_minutes (l : List (String × UserSleepStat)) :
    ∀ i : Nat, ∀ x ∈ rankingLines_jp i l, x.totalMinutes = none := by
  induction l with
  | nil => intro i x hx; simp [rankingLines_jp] at hx
  | cons e rest ih =>
    intro i x hx
    obtain ⟨k, v⟩ := e
    simp only [rankingLines_jp, List.mem_cons] at hx
    rcases hx with h | h
    · rw [h]
    · exact ih _ x h

theorem rankingLines_minutes (l : List (String × UserSleepStat)) :
    ∀ i : Nat, ∀ x ∈ rankingLines i l,
      ∃ e ∈ l, x.userId = e.1 ∧ x.totalHours = some (e.2.totalSleepMinutes / 60)
        ∧ x.totalMinutes = some (Int.tmod e.2.totalSleepMinutes 60) := by
  induction l with
  | nil => intro i x hx; simp [rankingLines] at hx
  | cons e rest ih =>
    intro i x hx
    obtain ⟨k, v⟩ := e
    simp only [rankingLines, List.mem_cons] at hx
    rcases hx with h | h
    · exact ⟨(k, v), List.mem_cons_self _ _, by rw [h], by rw [h], by rw [h]⟩
    · obtain ⟨e, he, h1, h2, h3⟩ := ih _ x h
      exact ⟨e, List.mem_cons_of_mem _ he, h1, h2, h3⟩

theorem sum_ge_length (l : List ℚ) (h : ∀ q ∈ l, 1 ≤ q) : (l.length : ℚ) ≤ l.sum := by
  induction l with
  | nil => simp
  | cons a rest ih =>
    have h1 : 1 ≤ a := h a (List.mem_cons_self _ _)
    have h2 := ih (fun q hq => h q (List.mem_cons_of_mem _ hq))
    simp only [List.length_cons, List.sum_cons, Nat.cast_add, Nat.cast_one]
    linarith

/-! ## Lemmas on the pending map, the reminder and the program state -/

theorem pending_get_delete_self (p : Pending) (u : String) : (p.delete u).get u = none := by
  unfold Pending.get Pending.delete
  induction p with
  | nil => rfl
  | cons e rest ih =>
    obtain ⟨k, v⟩ := e
    by_cases h : k = u
    · rw [List.filter_cons]
      simp only [h, ne_eq, not_true_eq_false, decide_False, Bool.false_eq_true, if_false]
      exact ih
    · rw [List.filter_cons]
      simp only [h, ne_eq, not_false_eq_true, decide_True, if_true]
      rw [List.lookup_cons]
      have hb : (u == k) = false := by
        rw [beq_eq_false_iff_ne]
        exact fun e => h e.symm
      rw [hb]
      exact ih

theorem pending_get_delete_other (p : Pending) (u v : String) (hv : v ≠ u) :
    (p.delete u).get v = p.get v := by
  unfold Pending.get Pending.delete
  induction p with
  | nil => rfl
  | cons e rest ih =>
    obtain ⟨k, x⟩ := e
    by_cases h : k = u
    · rw [List.filter_cons]
      simp only [h, ne_eq, not_true_eq_false, decide_False, Bool.false_eq_true, if_false]
      rw [List.lookup_cons]
      have hb : (v == u) = false := by
        rw [beq_eq_false_iff_ne]
        exact hv
      rw [hb]
      exact ih
    · rw [List.filter_cons]
      simp only [h, ne_eq, not_false_eq_true, decide_True, if_true]
      rw [List.lookup_cons, List.lookup_cons, ih]

theorem lookup_append_single (p : Pending) (u v : String) (n : Int) :
    List.lookup v (p ++ [(u, n)])
      = match List.lookup v p with
        | some x => some x
        | none => if v = u then some n else none := by
  induction p with
  | nil =>
    by_cases h : v = u
    · simp [List.lookup_cons, h]
    · have hb : (v == u) = false := by
        rw [beq_eq_false_iff_ne]
        exact h
      simp [List.lookup_cons, h, hb]
  | cons e rest ih =>
    obtain ⟨k, x⟩ := e
    rw [List.cons_append, List.lookup_cons, List.lookup_cons]
    cases hb : (v == k) with
    | true => rfl
    | false => exact ih

theorem pending_get_set_self (p : Pending) (u : String) (n : Int) :
    (p.set u n).get u = some n := by
  have h := pending_get_delete_self p u
  unfold Pending.get Pending.delete at h
  unfold Pending.get Pending.set
  rw [lookup_append_single, h]
  simp

theorem pending_get_set_other (p : Pending) (u v : String) (n : Int) (hv : v ≠ u) :
    (p.set u n).get v = p.get v := by
  have h := pending_get_delete_other p u v hv
  unfold Pending.get Pending.delete at h
  unfold Pending.get Pending.set
  rw [lookup_append_single, h]
  cases List.lookup v p with
  | none => simp [hv]
  | some x => rfl

theorem mem_clearUserSleepRecords (db : Store) (u g : String) (r : SleepRecord) :
    r ∈ clearUserSleepRecords db u g ↔ r ∈ db ∧ ¬ (r.user_id = u ∧ r.guild_id = g) := by
  unfold clearUserSleepRecords
  rw [List.mem_filter]
  simp only [decide_eq_true_eq]

theorem reset_button_confirm (s : AppState) (userId guildId time : String) (now t : Int)
    (hg : s.resetConfirmationPending.get userId = some t) (ht : t ≠ 0)
    (hlt : now - t < RESET_CONFIRMATION_TIMEOUT_MS) :
    interactionCreate_button s "reset_status" userId guildId time now
      = { s with
          db := clearUserSleepRecords s.db userId guildId
          resetConfirmationPending := s.resetConfirmationPending.delete userId } := by
  have h1 : ¬ (("reset_status" : String) = "wake_up") := by decide
  have h2 : ¬ (("reset_status" : String) = "sleep") := by decide
  unfold interactionCreate_button
  simp only [h1, h2, if_false, if_true, hg]
  rw [if_pos ⟨ht, hlt⟩]

theorem reset_button_first (s : AppState) (userId guildId time : String) (now : Int)
    (h : ∀ t, s.resetConfirmationPending.get userId = some t →
      ¬ (t ≠ 0 ∧ now - t < RESET_CONFIRMATION_TIMEOUT_MS)) :
    interactionCreate_button s "reset_status" userId guildId time now
      = { s with resetConfirmationPending := s.resetConfirmationPending.set userId now } := by
  have h1 : ¬ (("reset_status" : String) = "wake_up") := by decide
  have h2 : ¬ (("reset_status" : String) = "sleep") := by decide
  unfold interactionCreate_button
  simp only [h1, h2, if_false, if_true]
  cases hg : s.resetConfirmationPending.get userId with
  | none => rfl
  | some t =>
    simp only []
    rw [if_neg (h t hg)]

theorem updateStatusMessage_fst (ff : String → DateTime) (db : Store) (ru : List String)
    (m g : String) (status : Option SleepRecord) (now : Int) (ok : Bool) :
    (updateStatusMessage ff db ru m g status now ok).1
      = if (updateStatusMessage ff db ru m g status now ok).2 then ru ++ [m] else ru := by
  unfold updateStatusMessage
  cases status with
  | none => simp
  | some st =>
    cases he : elapsedMs ff (some st) (getLastRecord db m g "wakeup") now with
    | none => simp [he]
    | some e =>
      simp only [he]
      by_cases hc : st.status = "☀️" ∧ e ≥ reminderThresholdMs ∧ m ∉ ru
      · simp only [if_pos hc]
        cases ok <;> simp
      · simp only [if_neg hc]
        simp

theorem updateStatusMessage_delivered (ff : String → DateTime) (db : Store)
    (ru : List String) (m g : String) (status : Option SleepRecord) (now : Int) (ok : Bool)
    (h : (updateStatusMessage ff db ru m g status now ok).2 = true) :
    ∃ st lw w, status = some st ∧ st.status = "☀️" ∧
      getLastRecord db m g "wakeup" = some lw ∧ ff lw.timestamp = some w ∧
      reminderThresholdMs ≤ now - w * 60000 ∧ m ∉ ru ∧ ok = true := by
  unfold updateStatusMessage at h
  cases status with
  | none => simp at h
  | some st =>
    cases he : elapsedMs ff (some st) (getLastRecord db m g "wakeup") now with
    | none => simp [he] at h
    | some e =>
      simp only [he] at h
      by_cases hc : st.status = "☀️" ∧ e ≥ reminderThresholdMs ∧ m ∉ ru
      · rw [if_pos hc] at h
        cases ok with
        | false => simp at h
        | true =>
          obtain ⟨hs, hthr, hnot⟩ := hc
          cases hl : getLastRecord db m g "wakeup" with
          | none =>
            rw [hl] at he
            simp only [elapsedMs, Option.some.injEq] at he
            rw [← he] at hthr
            exact absurd hthr (by decide)
          | some lw =>
            rw [hl] at he
            simp only [elapsedMs, hs, if_true] at he
            cases hw : ff lw.timestamp with
            | none => simp [hw] at he
            | some w =>
              simp only [hw, Option.some.injEq] at he
              exact ⟨st, lw, w, rfl, hs, rfl, hw, by rw [he]; exact hthr, hnot, rfl⟩
      · rw [if_neg hc] at h
        simp at h

theorem runPolls_spec (ff : String → DateTime) (calls : List PollCall) :
    ∀ ru : List String,
      (∀ u ∈ ru, u ∈ (runPolls ff ru calls).1) ∧
      (∀ u ∈ (runPolls ff ru calls).2, u ∉ ru ∧ u ∈ (runPolls ff ru calls).1) ∧
      (runPolls ff ru calls).2.Nodup := by
  induction calls with
  | nil =>
    intro ru
    simp [runPolls]
  | cons c rest ih =>
    intro ru
    have hfst := updateStatusMessage_fst ff c.db ru c.memberId c.guildId c.status c.nowMs
      c.sendSucceeds
    obtain ⟨i1, i2, i3⟩ := ih (updateStatusMessage ff c.db ru c.memberId c.guildId c.status
      c.nowMs c.sendSucceeds).1
    simp only [runPolls]
    cases hd : (updateStatusMessage ff c.db ru c.memberId c.guildId c.status c.nowMs
      c.sendSucceeds).2 with
    | false =>
      rw [hd] at hfst
      simp only [Bool.false_eq_true, if_false] at hfst ⊢
      rw [hfst] at i1 i2 i3
      rw [hfst]
      exact ⟨i1, i2, i3⟩
    | true =>
      rw [hd] at hfst
      simp only [if_true] at hfst ⊢
      obtain ⟨_, _, _, _, _, _, _, _, hnot, _⟩ :=
        updateStatusMessage_delivered ff c.db ru c.memberId c.guildId c.status c.nowMs
          c.sendSucceeds hd
      rw [hfst] at i1 i2 i3
      rw [hfst]
      refine ⟨fun u hu => i1 u (List.mem_append_left _ hu), ?_, ?_⟩
      · intro u hu
        rw [List.mem_cons] at hu
        rcases hu with hu | hu
        · rw [hu]
          exact ⟨hnot, i1 _ (List.mem_append_right _ (List.mem_singleton_self _))⟩
        · exact ⟨fun hin => (i2 u hu).1 (List.mem_append_left _ hin), (i2 u hu).2⟩
      · rw [List.nodup_cons]
        exact ⟨fun hin => (i2 _ hin).1 (List.mem_append_right _ (List.mem_singleton_self _)),
          i3⟩

theorem reminderPoll_fst_superset (ff : String → DateTime) (db : Store) (ru : List String)
    (m g : String) (p : Bool) (now : Int) (ok : Bool) :
    ∀ u ∈ ru, u ∈ (reminderPoll ff db ru m g p now ok).1 := by
  intro u hu
  unfold reminderPoll
  cases getUserStatus db m g with
  | none => exact hu
  | some st =>
    cases p with
    | false => exact hu
    | true =>
      simp only [if_true]
      rw [updateStatusMessage_fst]
      split_ifs
      · exact List.mem_append_left _ hu
      · exact hu

theorem step_remindedUsers (ff : String → DateTime) (s : AppState) (a : Action) :
    ∀ u ∈ s.remindedUsers, u ∈ (AppState.step ff s a).remindedUsers := by
  intro u hu
  cases a with
  | button c x g t n =>
    simp only [AppState.step, interactionCreate_button]
    split_ifs
    · exact hu
    · exact hu
    · cases s.resetConfirmationPending.get x with
      | none => exact hu
      | some l =>
        simp only []
        split_ifs
        · exact hu
        · exact hu
    · exact hu
  | timeout x n =>
    simp only [AppState.step, resetTimeout]
    split_ifs
    · exact hu
    · exact hu
  | reaction b c x g e t =>
    simp only [AppState.step, messageReactionAdd]
    split_ifs <;> exact hu
  | setStatus m g tu ns t => exact hu
  | clear m g tu => exact hu
  | reminder m g p n ok => exact reminderPoll_fst_superset ff s.db s.remindedUsers m g p n ok u hu

theorem foldl_remindedUsers (ff : String → DateTime) (more : List Action) :
    ∀ s : AppState, ∀ u ∈ s.remindedUsers,
      u ∈ (more.foldl (AppState.step ff) s).remindedUsers := by
  induction more with
  | nil => intro s u hu; exact hu
  | cons a rest ih =>
    intro s u hu
    rw [List.foldl_cons]
    exact ih _ u (step_remindedUsers ff s a u hu)

theorem typed_updateUserStatus (db : Store) (u g st t rt : String)
    (hdb : ∀ r ∈ db, (r.status = "☀️" ∧ r.record_type = "wakeup")
      ∨ (r.status = "🌙" ∧ r.record_type = "sleep"))
    (hrow : (st = "☀️" ∧ rt = "wakeup") ∨ (st = "🌙" ∧ rt = "sleep")) :
    ∀ r ∈ updateUserStatus db u g st t rt, (r.status = "☀️" ∧ r.record_type = "wakeup")
      ∨ (r.status = "🌙" ∧ r.record_type = "sleep") := by
  intro r hr
  unfold updateUserStatus at hr
  rw [List.mem_append] at hr
  rcases hr with hr | hr
  · exact hdb r (List.mem_of_mem_filter hr)
  · rw [List.mem_singleton] at hr
    rw [hr]
    exact hrow

theorem typed_clearUserSleepRecords (db : Store) (u g : String)
    (hdb : ∀ r ∈ db, (r.status = "☀️" ∧ r.record_type = "wakeup")
      ∨ (r.status = "🌙" ∧ r.record_type = "sleep")) :
    ∀ r ∈ clearUserSleepRecords db u g, (r.status = "☀️" ∧ r.record_type = "wakeup")
      ∨ (r.status = "🌙" ∧ r.record_type = "sleep") := by
  intro r hr
  exact hdb r ((mem_clearUserSleepRecords db u g r).1 hr).1

theorem step_db_cases (ff : String → DateTime) (s : AppState) (a : Action) :
    (AppState.step ff s a).db = s.db ∨
    (∃ u g, (AppState.step ff s a).db = clearUserSleepRecords s.db u g) ∨
    (∃ u g t, (AppState.step ff s a).db = updateUserStatus s.db u g "☀️" t "wakeup") ∨
    (∃ u g t, (AppState.step ff s a).db = updateUserStatus s.db u g "🌙" t "sleep") := by
  cases a with
  | button c x g t n =>
    simp only [AppState.step, interactionCreate_button]
    split_ifs
    · exact Or.inr (Or.inr (Or.inl ⟨x, g, t, rfl⟩))
    · exact Or.inr (Or.inr (Or.inr ⟨x, g, t, rfl⟩))
    · cases s.resetConfirmationPending.get x with
      | none => exact Or.inl rfl
      | some l =>
        simp only []
        split_ifs
        · exact Or.inr (Or.inl ⟨x, g, rfl⟩)
        · exact Or.inl rfl
    · exact Or.inl rfl
  | timeout x n =>
    simp only [AppState.step, resetTimeout]
    split_ifs
    · exact Or.inl rfl
    · exact Or.inl rfl
  | reaction b c x g e t =>
    simp only [AppState.step, messageReactionAdd]
    split_ifs
    · exact Or.inl rfl
    · exact Or.inl rfl
    · exact Or.inr (Or.inr (Or.inl ⟨x, g, t, rfl⟩))
    · exact Or.inr (Or.inr (Or.inr ⟨x, g, t, rfl⟩))
    · exact Or.inr (Or.inl ⟨x, g, rfl⟩)
    · exact Or.inl rfl
  | setStatus m g tu ns t =>
    simp only [AppState.step, handleSetStatusCommand]
    by_cases hp : permissionDenied m = true
    · rw [if_pos hp]
      exact Or.inl rfl
    · rw [if_neg hp]
      cases tu with
      | none => exact Or.inl rfl
      | some x =>
        cases ns with
        | none => exact Or.inl rfl
        | some st =>
          simp only [Option.isNone_some, Bool.false_eq_true, if_false]
          by_cases h1 : st = "☀️"
          · subst h1
            simp only [true_or, if_true]
            exact Or.inr (Or.inr (Or.inl ⟨x, g, t, rfl⟩))
          · by_cases h2 : st = "🌙"
            · subst h2
              simp only [or_true, if_true, h1, if_false]
              exact Or.inr (Or.inr (Or.inr ⟨x, g, t, rfl⟩))
            · simp only [h1, h2, or_self, if_false]
              exact Or.inl trivial
  | clear m g tu =>
    simp only [AppState.step, handleClearCommand]
    by_cases hp : permissionDenied m = true
    · rw [if_pos hp]
      exact Or.inl rfl
    · rw [if_neg hp]
      cases tu with
      | none => exact Or.inl rfl
      | some x => exact Or.inr (Or.inl ⟨x, g, rfl⟩)
  | reminder m g p n ok => exact Or.inl rfl

theorem typed_step (ff : String → DateTime) (s : AppState) (a : Action)
    (hdb : ∀ r ∈ s.db, (r.status = "☀️" ∧ r.record_type = "wakeup")
      ∨ (r.status = "🌙" ∧ r.record_type = "sleep")) :
    ∀ r ∈ (AppState.step ff s a).db, (r.status = "☀️" ∧ r.record_type = "wakeup")
      ∨ (r.status = "🌙" ∧ r.record_type = "sleep") := by
  rcases step_db_cases ff s a with h | ⟨u, g, h⟩ | ⟨u, g, t, h⟩ | ⟨u, g, t, h⟩
  · rw [h]; exact hdb
  · rw [h]; exact typed_clearUserSleepRecords s.db u g hdb
  · rw [h]; exact typed_updateUserStatus s.db u g _ t _ hdb (Or.inl ⟨rfl, rfl⟩)
  · rw [h]; exact typed_updateUserStatus s.db u g _ t _ hdb (Or.inr ⟨rfl, rfl⟩)

theorem typed_foldl (ff : String → DateTime) (actions : List Action) :
    ∀ s : AppState,
      (∀ r ∈ s.db, (r.status = "☀️" ∧ r.record_type = "wakeup")
        ∨ (r.status = "🌙" ∧ r.record_type = "sleep")) →
      ∀ r ∈ (actions.foldl (AppState.step ff) s).db,
        (r.status = "☀️" ∧ r.record_type = "wakeup")
          ∨ (r.status = "🌙" ∧ r.record_type = "sleep") := by
  induction actions with
  | nil => intro s h; exact h
  | cons a rest ih =>
    intro s h
    rw [List.foldl_cons]
    exact ih _ (typed_step ff s a h)

/-! ## Lemmas on the weekly window -/

theorem daysInMonth_ge (y m : Nat) : 28 ≤ daysInMonth y m := by
  unfold daysInMonth
  split_ifs <;> omega

theorem daysFromCivil_day_eq (y m d : Nat) :
    daysFromCivil y m d = daysFromCivil y m 1 + (d : Int) - 1 := by
  unfold daysFromCivil
  simp only []
  omega

theorem daysFromCivil_month_start (y m : Nat) (hm : 1 ≤ m ∧ m ≤ 11) :
    daysFromCivil y (m + 1) 1 = daysFromCivil y m 1 + (daysInMonth y m : Int) := by
  obtain ⟨h1, h2⟩ := hm
  interval_cases m <;> simp [daysFromCivil, daysInMonth, isLeapYear] <;> omega

theorem daysFromCivil_year_start (y : Nat) (hy : 1 ≤ y) :
    daysFromCivil y 1 1 = daysFromCivil (y - 1) 12 1 + 31 := by
  unfold daysFromCivil
  simp only []
  have e : ((y - 1 : Nat) : Int) = (y : Int) - 1 := by omega
  rw [e]
  norm_num
  omega

theorem minusSevenDays_days (c : CivilTime) (hc : c.valid) (hy : 1 ≤ c.year) :
    daysFromCivil c.minusSevenDays.year c.minusSevenDays.month c.minusSevenDays.day
      = daysFromCivil c.year c.month c.day - 7 := by
  obtain ⟨_, h2, h3, h4, h5, _, _⟩ := hc
  unfold CivilTime.minusSevenDays
  by_cases hd : 7 < c.day
  · rw [if_pos hd]
    simp only []
    rw [daysFromCivil_day_eq c.year c.month (c.day - 7),
      daysFromCivil_day_eq c.year c.month c.day]
    omega
  · rw [if_neg hd]
    by_cases hm : 1 < c.month
    · rw [if_pos hm]
      simp only []
      have hs := daysFromCivil_month_start c.year (c.month - 1) ⟨by omega, by omega⟩
      have e : c.month - 1 + 1 = c.month := by omega
      rw [e] at hs
      have hge := daysInMonth_ge c.year (c.month - 1)
      rw [daysFromCivil_day_eq c.year (c.month - 1) _,
        daysFromCivil_day_eq c.year c.month c.day, hs]
      omega
    · rw [if_neg hm]
      simp only []
      have hm1 : c.month = 1 := by omega
      rw [hm1, daysFromCivil_day_eq (c.year - 1) 12 _, daysFromCivil_day_eq c.year 1 c.day,
        daysFromCivil_year_start c.year hy]
      omega

theorem minusSevenDays_valid (c : CivilTime) (hc : c.valid) :
    c.minusSevenDays.valid := by
  obtain ⟨h1, h2, h3, h4, h5, h6, h7⟩ := hc
  unfold CivilTime.minusSevenDays
  by_cases hd : 7 < c.day
  · rw [if_pos hd]
    exact ⟨h1, h2, h3, by simp only []; omega, by simp only []; omega, h6, h7⟩
  · rw [if_neg hd]
    by_cases hm : 1 < c.month
    · rw [if_pos hm]
      have hge := daysInMonth_ge c.year (c.month - 1)
      exact ⟨h1, by simp only []; omega, by simp only []; omega, by simp only []; omega,
        by simp only []; omega, h6, h7⟩
    · rw [if_neg hm]
      have hdec : daysInMonth (c.year - 1) 12 = 31 := by simp [daysInMonth]
      exact ⟨by simp only []; omega, by simp only []; omega, by simp only []; omega,
        by simp only []; omega, by simp only []; rw [hdec]; omega, h6, h7⟩

theorem minusSevenDays_hour (c : CivilTime) :
    c.minusSevenDays.hour = c.hour ∧ c.minusSevenDays.minute = c.minute := by
  unfold CivilTime.minusSevenDays
  split_ifs <;> exact ⟨rfl, rfl⟩

theorem minusSevenDays_epochMinutes (c : CivilTime) (hc : c.valid) (hy : 1 ≤ c.year) :
    c.minusSevenDays.epochMinutes = c.epochMinutes - 7 * 24 * 60 := by
  unfold CivilTime.epochMinutes
  rw [minusSevenDays_days c hc hy, (minusSevenDays_hour c).1, (minusSevenDays_hour c).2]
  omega

/-! ## Lemmas on the loop of `handleStatusCommand` -/

theorem mem_distinctUsers (db : Store) (g u : String) :
    u ∈ distinctUsers db g ↔ ∃ r ∈ db, r.user_id = u ∧ r.guild_id = g := by
  unfold distinctUsers
  rw [List.mem_dedup, List.mem_map]
  constructor
  · rintro ⟨r, hr, hu⟩
    rw [List.mem_filter] at hr
    exact ⟨r, hr.1, hu, by simpa using hr.2⟩
  · rintro ⟨r, hr, hu, hg⟩
    exact ⟨r, List.mem_filter.2 ⟨hr, by simpa using hg⟩, hu⟩

theorem distinctUsers_eq_nil (db : Store) (g : String) :
    (distinctUsers db g).length = 0 ↔ ∀ r ∈ db, r.guild_id ≠ g := by
  rw [List.length_eq_zero]
  constructor
  · intro h r hr hg
    have hm : r.user_id ∈ distinctUsers db g := (mem_distinctUsers db g _).2 ⟨r, hr, rfl, hg⟩
    rw [h] at hm
    exact absurd hm (List.not_mem_nil _)
  · intro h
    rw [List.eq_nil_iff_forall_not_mem]
    intro u hu
    obtain ⟨r, hr, _, hg⟩ := (mem_distinctUsers db g u).1 hu
    exact h r hr hg

theorem mem_entries_handleStatusCommand (db : Store) (g : String) (isMember : String → Bool)
    (u : String) (p : StatusProjection) :
    (u, p) ∈ (handleStatusCommand db g isMember).entries ↔
      u ∈ distinctUsers db g ∧ isMember u = true ∧ p = handleStatusCommand_user db u g := by
  unfold handleStatusCommand
  simp only []
  by_cases h : (distinctUsers db g).length = 0
  · rw [if_pos h]
    rw [List.length_eq_zero] at h
    simp [StatusDescription.entries, h]
  · rw [if_neg h]
    simp only [StatusDescription.entries, List.mem_map, List.mem_filter, Prod.mk.injEq]
    constructor
    · rintro ⟨v, ⟨hv, hm⟩, e1, e2⟩
      subst e1
      exact ⟨hv, hm, e2.symm⟩
    · rintro ⟨hv, hm, e⟩
      exact ⟨u, ⟨hv, hm⟩, rfl, e.symm⟩

/-! ## Lemmas on the rows that a step keeps -/

theorem updateUserStatus_keeps_key (db : Store) (u g st t rt : String) :
    ∀ r ∈ db, ∃ x ∈ updateUserStatus db u g st t rt, primaryKey x = primaryKey r := by
  intro r hr
  unfold updateUserStatus
  by_cases hk : r.user_id = u ∧ r.guild_id = g ∧ r.timestamp = t
  · refine ⟨_, List.mem_append_right _ (List.mem_singleton_self _), ?_⟩
    simp [primaryKey, hk.1, hk.2.1, hk.2.2]
  · exact ⟨r, List.mem_append_left _ (List.mem_filter.2 ⟨hr, decide_eq_true hk⟩), rfl⟩

theorem step_not_reset (ff : String → DateTime) (s : AppState) (a : Action)
    (ha : a.isReset = false) :
    (AppState.step ff s a).db = s.db ∨
    ∃ u g st t rt, (AppState.step ff s a).db = updateUserStatus s.db u g st t rt := by
  cases a with
  | button c x g t n =>
    have hc : ¬ (c = "reset_status") := by simpa [Action.isReset] using ha
    simp only [AppState.step, interactionCreate_button, hc, if_false]
    split_ifs
    · exact Or.inr ⟨x, g, _, t, _, rfl⟩
    · exact Or.inr ⟨x, g, _, t, _, rfl⟩
    · exact Or.inl rfl
  | timeout x n =>
    simp only [AppState.step, resetTimeout]
    split_ifs
    · exact Or.inl rfl
    · exact Or.inl rfl
  | reaction b c x g e t =>
    have he : ¬ (e = "🌀") := by simpa [Action.isReset] using ha
    simp only [AppState.step, messageReactionAdd, he, if_false]
    split_ifs
    · exact Or.inl rfl
    · exact Or.inl rfl
    · exact Or.inr ⟨x, g, _, t, _, rfl⟩
    · exact Or.inr ⟨x, g, _, t, _, rfl⟩
    · exact Or.inl rfl
  | setStatus m g tu ns t =>
    simp only [AppState.step, handleSetStatusCommand]
    by_cases hp : permissionDenied m = true
    · rw [if_pos hp]
      exact Or.inl rfl
    · rw [if_neg hp]
      cases tu with
      | none => exact Or.inl rfl
      | some x =>
        cases ns with
        | none => exact Or.inl rfl
        | some st =>
          simp only [Option.isNone_some, Bool.false_eq_true, if_false]
          by_cases hv : st = "☀️" ∨ st = "🌙"
          · rw [if_pos hv]
            exact Or.inr ⟨x, g, st, t, _, rfl⟩
          · rw [if_neg hv]
            exact Or.inl rfl
  | clear m g tu => simp [Action.isReset] at ha
  | reminder m g p n ok => exact Or.inl rfl

/-! ## Claims -/

/-- C1: for every event sequence (ascending in time or not) the fold of
`getAverageSleepDuration` ends with a total of minutes that is at least 0 and with a
session count that is at most the number of `sleep` records of the sequence, and the
fold of `getAverageAwakeTime` ends with a total that is at least 0 and a session
count that is at most the number of `wakeup` records. -/
theorem C1_total_nonneg_sessions_le_openings (fromFormat : String → DateTime)
    (rows : List SleepRecord) :
    0 ≤ (getAverageSleepDuration_fold fromFormat rows).totalSleepDuration ∧
    (getAverageSleepDuration_fold fromFormat rows).sleepSessions
      ≤ countType "sleep" rows ∧
    0 ≤ (getAverageAwakeTime_fold fromFormat rows).totalAwakeMinutes ∧
    (getAverageAwakeTime_fold fromFormat rows).awakeSessions
      ≤ countType "wakeup" rows := by
  obtain ⟨h1, h2⟩ := sleep_fold_inv fromFormat rows
  obtain ⟨h3, h4⟩ := sleep_fold_inv fromFormat (rows.map swapRecordType)
  rw [← awake_fold_toSleepAcc, countType_swap] at h4
  rw [← awake_fold_toSleepAcc] at h3
  exact ⟨h1, h2, h3, h4⟩

/-- C2: a `sleep` record at time `s` followed by a `wakeup` record at time `w` with
`w - s > 0` minutes makes `getAverageSleepDuration` count exactly one session, of
`w - s` minutes, and return `w - s`. -/
theorem C2_one_session_returns_duration (fromFormat : String → DateTime)
    (r1 r2 : SleepRecord) (s w : Int)
    (h1 : r1.record_type = "sleep") (h2 : r2.record_type = "wakeup")
    (hs : fromFormat r1.timestamp = some s) (hw : fromFormat r2.timestamp = some w)
    (hd : 0 < w - s) :
    (getAverageSleepDuration_fold fromFormat [r1, r2]).sleepSessions = 1 ∧
    (getAverageSleepDuration_fold fromFormat [r1, r2]).totalSleepDuration = w - s ∧
    getAverageSleepDuration fromFormat [r1, r2] = some (((w - s : Int) : ℚ)) := by
  have hf : getAverageSleepDuration_fold fromFormat [r1, r2] = ⟨w - s, 1, none⟩ := by
    unfold getAverageSleepDuration_fold
    simp only [List.foldl_cons, List.foldl_nil]
    rw [sleep_fold_pair fromFormat _ r1 r2 s w h1 h2 hs hw hd]
    simp
  refine ⟨by rw [hf], by rw [hf], ?_⟩
  unfold getAverageSleepDuration
  simp [hf]

/-- C2, the scenario of the specification: sleep at 2024-01-01 23:00 and wake-up at
2024-01-02 07:00 give one session and an average of 480 minutes. -/
theorem C2_scenario_480 :
    (getAverageSleepDuration_fold fromFormatTokyo
      [sleepAt "2024-01-01 23:00", wakeupAt "2024-01-02 07:00"]).sleepSessions = 1 ∧
    getAverageSleepDuration fromFormatTokyo
      [sleepAt "2024-01-01 23:00", wakeupAt "2024-01-02 07:00"] = some 480 := by
  have h := C2_one_session_returns_duration fromFormatTokyo
    (sleepAt "2024-01-01 23:00") (wakeupAt "2024-01-02 07:00") 28401960 28402440
    (by decide) (by decide) (by decide) (by decide) (by decide)
  refine ⟨h.1, ?_⟩
  rw [h.2.2]
  norm_num

/-- C3: for `sleep`, `sleep`, `wakeup` with the second `sleep` at `t2` and the
`wakeup` at `t3 > t2` (whatever the time of the first `sleep`), the fold counts one
session of `t3 - t2` minutes and the average is `t3 - t2`: the first marker is
overwritten. Consecutive records of one type are handled by the total step function:
a second opening record in a row replaces the marker, and a closing record that
follows a closing record changes nothing. -/
theorem C3_second_opening_measured (fromFormat : String → DateTime)
    (r1 r2 r3 : SleepRecord) (t2 t3 : Int)
    (h1 : r1.record_type = "sleep") (h2 : r2.record_type = "sleep")
    (h3 : r3.record_type = "wakeup")
    (ht2 : fromFormat r2.timestamp = some t2) (ht3 : fromFormat r3.timestamp = some t3)
    (hlt : t2 < t3) :
    (getAverageSleepDuration_fold fromFormat [r1, r2, r3]).sleepSessions = 1 ∧
    (getAverageSleepDuration_fold fromFormat [r1, r2, r3]).totalSleepDuration = t3 - t2 ∧
    getAverageSleepDuration fromFormat [r1, r2, r3] = some (((t3 - t2 : Int) : ℚ)) ∧
    (∀ acc : SleepAcc,
      getAverageSleepDuration_forEach fromFormat
          (getAverageSleepDuration_forEach fromFormat acc r1) r2
        = getAverageSleepDuration_forEach fromFormat acc r2) ∧
    (∀ (acc : SleepAcc) (r4 : SleepRecord), r4.record_type = "wakeup" →
      getAverageSleepDuration_forEach fromFormat
          (getAverageSleepDuration_forEach fromFormat acc r3) r4
        = getAverageSleepDuration_forEach fromFormat acc r3) := by
  have hover : ∀ acc : SleepAcc,
      getAverageSleepDuration_forEach fromFormat
          (getAverageSleepDuration_forEach fromFormat acc r1) r2
        = getAverageSleepDuration_forEach fromFormat acc r2 := by
    intro acc
    rw [sleep_forEach_sleep fromFormat acc r1 h1, sleep_forEach_sleep fromFormat _ r2 h2,
      sleep_forEach_sleep fromFormat acc r2 h2]
  have hf : getAverageSleepDuration_fold fromFormat [r1, r2, r3] = ⟨t3 - t2, 1, none⟩ := by
    unfold getAverageSleepDuration_fold
    simp only [List.foldl_cons, List.foldl_nil]
    rw [hover, sleep_fold_pair fromFormat _ r2 r3 t2 t3 h2 h3 ht2 ht3 (by omega)]
    simp
  refine ⟨by rw [hf], by rw [hf], ?_, hover, ?_⟩
  · unfold getAverageSleepDuration
    simp [hf]
  · intro acc r4 h4
    exact sleep_forEach_wakeup_twice fromFormat acc r3 r4 h3 h4

/-- C3, the scenario of the specification: sleep at 23:00, sleep at 23:30 and wake-up
at 07:00 of the next day give one session, of 450 minutes. -/
theorem C3_scenario_450 :
    (getAverageSleepDuration_fold fromFormatTokyo
      [sleepAt "2024-01-01 23:00", sleepAt "2024-01-01 23:30",
       wakeupAt "2024-01-02 07:00"]).sleepSessions = 1 ∧
    getAverageSleepDuration fromFormatTokyo
      [sleepAt "2024-01-01 23:00", sleepAt "2024-01-01 23:30",
       wakeupAt "2024-01-02 07:00"] = some 450 := by
  have h := C3_second_opening_measured fromFormatTokyo
    (sleepAt "2024-01-01 23:00") (sleepAt "2024-01-01 23:30")
    (wakeupAt "2024-01-02 07:00") 28401990 28402440
    (by decide) (by decide) (by decide) (by decide) (by decide) (by decide)
  refine ⟨h.1, ?_⟩
  rw [h.2.2.1]
  norm_num

/-- C4: appending a trailing opening record to any event sequence (ascending or not)
leaves the total, the session count and the returned average unchanged, for a `sleep`
record in `getAverageSleepDuration` and for a `wakeup` record in
`getAverageAwakeTime`; a sequence that holds only one opening record returns the
no-data value `null`, with zero sessions and zero minutes. -/
theorem C4_trailing_opening_contributes_nothing (fromFormat : String → DateTime)
    (rows : List SleepRecord) (r : SleepRecord) :
    (r.record_type = "sleep" →
      (getAverageSleepDuration_fold fromFormat (rows ++ [r])).totalSleepDuration
        = (getAverageSleepDuration_fold fromFormat rows).totalSleepDuration ∧
      (getAverageSleepDuration_fold fromFormat (rows ++ [r])).sleepSessions
        = (getAverageSleepDuration_fold fromFormat rows).sleepSessions ∧
      getAverageSleepDuration fromFormat (rows ++ [r])
        = getAverageSleepDuration fromFormat rows ∧
      (getAverageSleepDuration_fold fromFormat [r]).totalSleepDuration = 0 ∧
      (getAverageSleepDuration_fold fromFormat [r]).sleepSessions = 0 ∧
      getAverageSleepDuration fromFormat [r] = none) ∧
    (r.record_type = "wakeup" →
      (getAverageAwakeTime_fold fromFormat (rows ++ [r])).totalAwakeMinutes
        = (getAverageAwakeTime_fold fromFormat rows).totalAwakeMinutes ∧
      (getAverageAwakeTime_fold fromFormat (rows ++ [r])).awakeSessions
        = (getAverageAwakeTime_fold fromFormat rows).awakeSessions ∧
      getAverageAwakeTime fromFormat (rows ++ [r])
        = getAverageAwakeTime fromFormat rows ∧
      (getAverageAwakeTime_fold fromFormat [r]).totalAwakeMinutes = 0 ∧
      (getAverageAwakeTime_fold fromFormat [r]).awakeSessions = 0 ∧
      getAverageAwakeTime fromFormat [r] = none) := by
  constructor
  · intro h
    have ha : ∀ l : List SleepRecord,
        (getAverageSleepDuration_fold fromFormat (l ++ [r])).totalSleepDuration
          = (getAverageSleepDuration_fold fromFormat l).totalSleepDuration ∧
        (getAverageSleepDuration_fold fromFormat (l ++ [r])).sleepSessions
          = (getAverageSleepDuration_fold fromFormat l).sleepSessions := by
      intro l
      rw [sleep_fold_append, sleep_forEach_sleep fromFormat _ r h]
      exact ⟨rfl, rfl⟩
    have hb : ∀ l : List SleepRecord, getAverageSleepDuration fromFormat (l ++ [r])
        = getAverageSleepDuration fromFormat l := by
      intro l
      unfold getAverageSleepDuration
      simp only [(ha l).1, (ha l).2]
    have h0 := ha []
    have h1 := hb []
    simp only [List.nil_append] at h0 h1
    exact ⟨(ha rows).1, (ha rows).2, hb rows, h0.1, h0.2, h1⟩
  · intro h
    have ha : ∀ l : List SleepRecord,
        (getAverageAwakeTime_fold fromFormat (l ++ [r])).totalAwakeMinutes
          = (getAverageAwakeTime_fold fromFormat l).totalAwakeMinutes ∧
        (getAverageAwakeTime_fold fromFormat (l ++ [r])).awakeSessions
          = (getAverageAwakeTime_fold fromFormat l).awakeSessions := by
      intro l
      rw [awake_fold_append, awake_forEach_wakeup fromFormat _ r h]
      exact ⟨rfl, rfl⟩
    have hb : ∀ l : List SleepRecord, getAverageAwakeTime fromFormat (l ++ [r])
        = getAverageAwakeTime fromFormat l := by
      intro l
      unfold getAverageAwakeTime
      simp only [(ha l).1, (ha l).2]
    have h0 := ha []
    have h1 := hb []
    simp only [List.nil_append] at h0 h1
    exact ⟨(ha rows).1, (ha rows).2, hb rows, h0.1, h0.2, h1⟩

/-- C4 at a concrete input: a trailing `sleep` after one closed session of 480
minutes keeps the average of the sleep fold, and a trailing `wakeup` keeps the
average of the awake fold. -/
theorem C4_trailing_witness :
    getAverageSleepDuration fromFormatTokyo
        ([sleepAt "2024-01-01 23:00", wakeupAt "2024-01-02 07:00"]
          ++ [sleepAt "2024-01-02 23:00"])
      = getAverageSleepDuration fromFormatTokyo
        [sleepAt "2024-01-01 23:00", wakeupAt "2024-01-02 07:00"] ∧
    getAverageSleepDuration fromFormatTokyo [sleepAt "2024-01-02 23:00"] = none ∧
    getAverageAwakeTime fromFormatTokyo
        ([wakeupAt "2024-01-02 07:00", sleepAt "2024-01-02 23:00"]
          ++ [wakeupAt "2024-01-03 07:00"])
      = getAverageAwakeTime fromFormatTokyo
        [wakeupAt "2024-01-02 07:00", sleepAt "2024-01-02 23:00"] ∧
    getAverageAwakeTime fromFormatTokyo [wakeupAt "2024-01-03 07:00"] = none :=
  ⟨((C4_trailing_opening_contributes_nothing fromFormatTokyo
      [sleepAt "2024-01-01 23:00", wakeupAt "2024-01-02 07:00"]
      (sleepAt "2024-01-02 23:00")).1 (by decide)).2.2.1,
   ((C4_trailing_opening_contributes_nothing fromFormatTokyo
      [sleepAt "2024-01-01 23:00", wakeupAt "2024-01-02 07:00"]
      (sleepAt "2024-01-02 23:00")).1 (by decide)).2.2.2.2.2,
   ((C4_trailing_opening_contributes_nothing fromFormatTokyo
      [wakeupAt "2024-01-02 07:00", sleepAt "2024-01-02 23:00"]
      (wakeupAt "2024-01-03 07:00")).2 (by decide)).2.2.1,
   ((C4_trailing_opening_contributes_nothing fromFormatTokyo
      [wakeupAt "2024-01-02 07:00", sleepAt "2024-01-02 23:00"]
      (wakeupAt "2024-01-03 07:00")).2 (by decide)).2.2.2.2.2⟩

/-- C5: `getAverageSleepDuration` and `getAverageAwakeTime` return the no-data value
`null` on the empty event sequence, not the number 0; on every sequence they return
`null` exactly when the session count is 0, and `total_minutes / session_count`
otherwise. -/
theorem C5_null_iff_no_sessions (fromFormat : String → DateTime)
    (rows : List SleepRecord) :
    getAverageSleepDuration fromFormat [] = none ∧
    getAverageSleepDuration fromFormat [] ≠ some 0 ∧
    getAverageAwakeTime fromFormat [] = none ∧
    getAverageAwakeTime fromFormat [] ≠ some 0 ∧
    (getAverageSleepDuration fromFormat rows = none
      ↔ (getAverageSleepDuration_fold fromFormat rows).sleepSessions = 0) ∧
    (getAverageAwakeTime fromFormat rows = none
      ↔ (getAverageAwakeTime_fold fromFormat rows).awakeSessions = 0) ∧
    getAverageSleepDuration fromFormat rows
      = (if (getAverageSleepDuration_fold fromFormat rows).sleepSessions = 0 then none
         else some
          (((getAverageSleepDuration_fold fromFormat rows).totalSleepDuration : ℚ)
            / ((getAverageSleepDuration_fold fromFormat rows).sleepSessions : ℚ))) ∧
    getAverageAwakeTime fromFormat rows
      = (if (getAverageAwakeTime_fold fromFormat rows).awakeSessions = 0 then none
         else some
          (((getAverageAwakeTime_fold fromFormat rows).totalAwakeMinutes : ℚ)
            / ((getAverageAwakeTime_fold fromFormat rows).awakeSessions : ℚ))) := by
  have hs : getAverageSleepDuration fromFormat [] = none := by
    simp [getAverageSleepDuration, getAverageSleepDuration_fold]
  have ha : getAverageAwakeTime fromFormat [] = none := by
    simp [getAverageAwakeTime, getAverageAwakeTime_fold]
  refine ⟨hs, by simp [hs], ha, by simp [ha], ?_, ?_, rfl, rfl⟩
  · unfold getAverageSleepDuration
    by_cases h : (getAverageSleepDuration_fold fromFormat rows).sleepSessions = 0
    · simp [h]
    · simp [h]
  · unfold getAverageAwakeTime
    by_cases h : (getAverageAwakeTime_fold fromFormat rows).awakeSessions = 0
    · simp [h]
    · simp [h]

/-- C6: a closing record at time `w` that meets an open marker `s` with `w - s` zero
or negative adds nothing to the total, does not count a session and clears the
marker, so that a closing record that follows pairs with nothing (it leaves the state
as it is). This holds for the fold of `getAverageSleepDuration`, for the fold of
`getAverageAwakeTime` with the roles exchanged, and for the entry of the record's
user in `calculateWeeklySleepStats`. -/
theorem C6_nonpositive_interval_discarded (fromFormat : String → DateTime)
    (r : SleepRecord) (s w : Int) (hw : fromFormat r.timestamp = some w)
    (hle : w - s ≤ 0) :
    (r.record_type = "wakeup" → ∀ acc : SleepAcc, acc.sleepStart = some (some s) →
      getAverageSleepDuration_forEach fromFormat acc r
        = { totalSleepDuration := acc.totalSleepDuration
            sleepSessions := acc.sleepSessions
            sleepStart := none } ∧
      ∀ r2 : SleepRecord, r2.record_type = "wakeup" →
        getAverageSleepDuration_forEach fromFormat
            (getAverageSleepDuration_forEach fromFormat acc r) r2
          = getAverageSleepDuration_forEach fromFormat acc r) ∧
    (r.record_type = "sleep" → ∀ acc : AwakeAcc, acc.lastWakeTime = some (some s) →
      getAverageAwakeTime_forEach fromFormat acc r
        = { totalAwakeMinutes := acc.totalAwakeMinutes
            awakeSessions := acc.awakeSessions
            lastWakeTime := none } ∧
      ∀ r2 : SleepRecord, r2.record_type = "sleep" →
        getAverageAwakeTime_forEach fromFormat
            (getAverageAwakeTime_forEach fromFormat acc r) r2
          = getAverageAwakeTime_forEach fromFormat acc r) ∧
    (r.record_type = "wakeup" → ∀ (userSleepStats : UserSleepStats) (stat : UserSleepStat),
      userSleepStats.get r.user_id = some stat → stat.sleepStart = some (some s) →
      calculateWeeklySleepStats_forEach fromFormat userSleepStats r
        = userSleepStats.modify r.user_id
            (fun st => { totalSleepMinutes := st.totalSleepMinutes, sleepStart := none }) ∧
      (calculateWeeklySleepStats_forEach fromFormat userSleepStats r).get r.user_id
        = some { totalSleepMinutes := stat.totalSleepMinutes, sleepStart := none } ∧
      ∀ r2 : SleepRecord, r2.user_id = r.user_id → r2.record_type = "wakeup" →
        calculateWeeklySleepStats_forEach fromFormat
            (calculateWeeklySleepStats_forEach fromFormat userSleepStats r) r2
          = calculateWeeklySleepStats_forEach fromFormat userSleepStats r) := by
  have hdiff : ∀ d, DateTime.diffMinutes (fromFormat r.timestamp) (some s) = some d →
      d ≤ 0 := by
    intro d h
    rw [hw, diffMinutes_some] at h
    cases h
    exact hle
  refine ⟨?_, ?_, ?_⟩
  · intro hr acc hacc
    exact ⟨sleep_forEach_wakeup_discard fromFormat acc r (some s) hr hacc hdiff,
      fun r2 h2 => sleep_forEach_wakeup_twice fromFormat acc r r2 hr h2⟩
  · intro hr acc hacc
    exact ⟨awake_forEach_sleep_discard fromFormat acc r (some s) hr hacc hdiff,
      fun r2 h2 => awake_forEach_sleep_twice fromFormat acc r r2 hr h2⟩
  · intro hr stats stat hget hst
    have h1 : calculateWeeklySleepStats_forEach fromFormat stats r
        = stats.modify r.user_id
            (fun st => { totalSleepMinutes := st.totalSleepMinutes, sleepStart := none }) := by
      rw [weekly_forEach_wakeup_of_get fromFormat stats r stat hr hget]
      exact modify_congr _ _ _ stats stat hget
        (wakeupUpdate_discard fromFormat r stat s w hst hw hle)
    have h2 : (calculateWeeklySleepStats_forEach fromFormat stats r).get r.user_id
        = some { totalSleepMinutes := stat.totalSleepMinutes, sleepStart := none } := by
      rw [h1, get_modify, hget]
      rfl
    refine ⟨h1, h2, ?_⟩
    intro r2 hu h2w
    have h3 : UserSleepStats.get (calculateWeeklySleepStats_forEach fromFormat stats r)
        r2.user_id
        = some { totalSleepMinutes := stat.totalSleepMinutes, sleepStart := none } := by
      rw [hu]; exact h2
    rw [weekly_forEach_wakeup_of_get fromFormat _ r2 _ h2w h3]
    exact modify_eq_self _ _ _ _ h3 (wakeupUpdate_null fromFormat r2 _ rfl)

/-- C6 at a concrete input: with the marker at 23:30 and a `wakeup` record at 23:00
of the same day (30 minutes earlier), the total 100 and the count 2 stay and the
marker is cleared, in the sleep fold and in the weekly entry of the user. -/
theorem C6_discard_witness :
    getAverageSleepDuration_forEach fromFormatTokyo
        { totalSleepDuration := 100, sleepSessions := 2, sleepStart := some (some 28401990) }
        (wakeupAt "2024-01-01 23:00")
      = { totalSleepDuration := 100, sleepSessions := 2, sleepStart := none } ∧
    (calculateWeeklySleepStats_forEach fromFormatTokyo
        [("U", { totalSleepMinutes := 100, sleepStart := some (some 28401990) })]
        (wakeupAt "2024-01-01 23:00")).get "U"
      = some { totalSleepMinutes := 100, sleepStart := none } :=
  ⟨((C6_nonpositive_interval_discarded fromFormatTokyo (wakeupAt "2024-01-01 23:00")
      28401990 28401960 (by decide) (by decide)).1 (by decide)
      { totalSleepDuration := 100, sleepSessions := 2, sleepStart := some (some 28401990) }
      rfl).1,
   ((C6_nonpositive_interval_discarded fromFormatTokyo (wakeupAt "2024-01-01 23:00")
      28401990 28401960 (by decide) (by decide)).2.2 (by decide)
      [("U", { totalSleepMinutes := 100, sleepStart := some (some 28401990) })]
      { totalSleepMinutes := 100, sleepStart := some (some 28401990) }
      (by decide) rfl).2.1⟩

/-- C7: on every event sequence `getAverageAwakeTime` returns what
`getAverageSleepDuration` returns on the sequence with every record type `'sleep'`
replaced by `'wakeup'` and every `'wakeup'` replaced by `'sleep'`; the folds end in
the same total, session count and marker. -/
theorem C7_awake_is_sleep_on_exchanged_rows (fromFormat : String → DateTime)
    (rows : List SleepRecord) :
    getAverageAwakeTime fromFormat rows
      = getAverageSleepDuration fromFormat (rows.map swapRecordType) ∧
    (getAverageAwakeTime_fold fromFormat rows).totalAwakeMinutes
      = (getAverageSleepDuration_fold fromFormat
          (rows.map swapRecordType)).totalSleepDuration ∧
    (getAverageAwakeTime_fold fromFormat rows).awakeSessions
      = (getAverageSleepDuration_fold fromFormat (rows.map swapRecordType)).sleepSessions ∧
    (getAverageAwakeTime_fold fromFormat rows).lastWakeTime
      = (getAverageSleepDuration_fold fromFormat (rows.map swapRecordType)).sleepStart := by
  refine ⟨awake_eq_sleep_swap fromFormat rows, ?_, ?_, ?_⟩
  · rw [← awake_fold_toSleepAcc]; rfl
  · rw [← awake_fold_toSleepAcc]; rfl
  · rw [← awake_fold_toSleepAcc]; rfl

/-- C8: on the records of a single user `u`, `calculateWeeklySleepStats` returns
exactly one entry, for `u`, whose `totalSleepMinutes` is the total of minutes that the
fold of `getAverageSleepDuration` accumulates on the same sequence (and whose marker
is the marker of that fold): it is the average times the session count when the
average is present, and 0 when the average is `null`. On no records the object is
empty and the fold total is 0. -/
theorem C8_weekly_total_is_fold_total (fromFormat : String → DateTime) (u : String)
    (rows : List SleepRecord) (hu : ∀ r ∈ rows, r.user_id = u) :
    calculateWeeklySleepStats fromFormat rows
      = (match rows with
         | [] => []
         | _ :: _ =>
           [(u, { totalSleepMinutes :=
                    (getAverageSleepDuration_fold fromFormat rows).totalSleepDuration
                  sleepStart := (getAverageSleepDuration_fold fromFormat rows).sleepStart })]) ∧
    (∀ avg : ℚ, getAverageSleepDuration fromFormat rows = some avg →
      (((getAverageSleepDuration_fold fromFormat rows).totalSleepDuration : Int) : ℚ)
        = avg * ((getAverageSleepDuration_fold fromFormat rows).sleepSessions : ℚ)) ∧
    (getAverageSleepDuration fromFormat rows = none →
      (getAverageSleepDuration_fold fromFormat rows).totalSleepDuration = 0) := by
  refine ⟨?_, ?_, ?_⟩
  · cases rows with
    | nil => rfl
    | cons r rows => exact weekly_single_user fromFormat u r rows hu
  · intro avg h
    unfold getAverageSleepDuration at h
    by_cases hz : (getAverageSleepDuration_fold fromFormat rows).sleepSessions = 0
    · simp [hz] at h
    · simp only [hz, if_false, Option.some.injEq] at h
      rw [← h]
      have hq : ((getAverageSleepDuration_fold fromFormat rows).sleepSessions : ℚ) ≠ 0 := by
        exact_mod_cast hz
      field_simp
  · intro h
    unfold getAverageSleepDuration at h
    by_cases hz : (getAverageSleepDuration_fold fromFormat rows).sleepSessions = 0
    · exact (sleep_fold_total_bounds fromFormat rows).2 hz
    · simp [hz] at h

/-- C8 at a concrete input: two closed sessions of user `U`, of 480 and 450 minutes,
give the weekly entry `U` with 930 minutes. -/
theorem C8_weekly_witness :
    (calculateWeeklySleepStats fromFormatTokyo
        [sleepAt "2024-01-01 23:00", wakeupAt "2024-01-02 07:00",
         sleepAt "2024-01-02 23:30", wakeupAt "2024-01-03 07:00"]).map
        (fun e => (e.1, e.2.totalSleepMinutes)) = [("U", 930)] ∧
    (getAverageSleepDuration_fold fromFormatTokyo
        [sleepAt "2024-01-01 23:00", wakeupAt "2024-01-02 07:00",
         sleepAt "2024-01-02 23:30", wakeupAt "2024-01-03 07:00"]).totalSleepDuration
      = 930 := by
  have h := (C8_weekly_total_is_fold_total fromFormatTokyo "U"
    [sleepAt "2024-01-01 23:00", wakeupAt "2024-01-02 07:00",
     sleepAt "2024-01-02 23:30", wakeupAt "2024-01-03 07:00"] (by decide)).1
  have ht : (getAverageSleepDuration_fold fromFormatTokyo
      [sleepAt "2024-01-01 23:00", wakeupAt "2024-01-02 07:00",
       sleepAt "2024-01-02 23:30", wakeupAt "2024-01-03 07:00"]).totalSleepDuration
      = 930 := by decide
  refine ⟨?_, ht⟩
  rw [h]
  simp only [List.map_cons, List.map_nil, ht]

/-- C9: for every per-user stats object of `n` users, the ranking `sortedUsers` of
`generateStatsEmbed` has `min(10, n)` entries, so at most 10, it is non-increasing in
`totalSleepMinutes`, and it is the list of the first `min(10, n)` entries of the
sorted list of all users, which is a rearrangement of the `n` entries of the object
that is non-increasing in `totalSleepMinutes`. For the totals 600, 900 and 300 of
`user1`, `user2` and `user3` the order is `user2`, `user1`, `user3`. -/
theorem C9_ranking_top_ten_descending (sleepStats : UserSleepStats) :
    (sortedUsers sleepStats).length ≤ 10 ∧
    (sortedUsers sleepStats).length = min 10 sleepStats.length ∧
    List.Pairwise (fun a b => b.2.totalSleepMinutes ≤ a.2.totalSleepMinutes)
      (sortedUsers sleepStats) ∧
    sortedUsers sleepStats = (sortEntries sleepStats).take (min 10 sleepStats.length) ∧
    (sortEntries sleepStats).Perm sleepStats ∧
    List.Pairwise (fun a b => b.2.totalSleepMinutes ≤ a.2.totalSleepMinutes)
      (sortEntries sleepStats) ∧
    (sortedUsers
        [("user1", { totalSleepMinutes := 600, sleepStart := none }),
         ("user2", { totalSleepMinutes := 900, sleepStart := none }),
         ("user3", { totalSleepMinutes := 300, sleepStart := none })]).map
      (fun e => (e.1, e.2.totalSleepMinutes))
      = [("user2", 900), ("user1", 600), ("user3", 300)] := by
  have hlen : (sortEntries sleepStats).length = sleepStats.length :=
    List.length_insertionSort rankBefore sleepStats
  have hl : (sortedUsers sleepStats).length = min 10 sleepStats.length := by
    unfold sortedUsers
    rw [List.length_take, hlen]
  refine ⟨by omega, hl, ?_, ?_, sortEntries_perm sleepStats, sortEntries_sorted sleepStats,
    by decide⟩
  · exact (sortEntries_sorted sleepStats).sublist (sortedUsers_sublist sleepStats)
  · unfold sortedUsers
    apply List.ext_getElem
    · simp [List.length_take, hlen]
    · intro i h1 h2
      simp [List.getElem_take]

/-- C10: two users of the weekly ranking with equal `totalSleepMinutes` stand in the
ranking in the order in which `calculateWeeklySleepStats` inserted them into the stats
object, which is the order of their first records in the input: the one whose first
record comes earlier is listed first. -/
theorem C10_ranking_ties_in_insertion_order (fromFormat : String → DateTime)
    (sleepData : List SleepRecord) (a b : String × UserSleepStat)
    (ha : a ∈ generateStatsEmbed_sortedUsers fromFormat sleepData)
    (hb : b ∈ generateStatsEmbed_sortedUsers fromFormat sleepData)
    (hne : a.1 ≠ b.1) (heq : a.2.totalSleepMinutes = b.2.totalSleepMinutes) :
    (List.Sublist [a, b] (generateStatsEmbed_sortedUsers fromFormat sleepData)
      ↔ List.Sublist [a.1, b.1]
          ((calculateWeeklySleepStats fromFormat sleepData).map Prod.fst)) ∧
    (List.Sublist [a, b] (generateStatsEmbed_sortedUsers fromFormat sleepData)
      ↔ List.indexOf a.1 (sleepData.map SleepRecord.user_id)
          < List.indexOf b.1 (sleepData.map SleepRecord.user_id)) := by
  obtain ⟨hknd, hkmem, hkord⟩ := keys_weekly fromFormat sleepData
  have hSnd : (calculateWeeklySleepStats fromFormat sleepData).Nodup :=
    List.Nodup.of_map _ hknd
  have hEnd : (sortEntries (calculateWeeklySleepStats fromFormat sleepData)).Nodup :=
    (sortEntries_perm _).nodup_iff.2 hSnd
  have hsub := sortedUsers_sublist (calculateWeeklySleepStats fromFormat sleepData)
  have haS : a ∈ calculateWeeklySleepStats fromFormat sleepData :=
    (sortEntries_perm _).subset (hsub.subset ha)
  have hbS : b ∈ calculateWeeklySleepStats fromFormat sleepData :=
    (sortEntries_perm _).subset (hsub.subset hb)
  have hab : a ≠ b := fun e => hne (by rw [e])
  have hak : a.1 ∈ sleepData.map SleepRecord.user_id :=
    (hkmem _).1 (List.mem_map_of_mem Prod.fst haS)
  have hbk : b.1 ∈ sleepData.map SleepRecord.user_id :=
    (hkmem _).1 (List.mem_map_of_mem Prod.fst hbS)
  have hstab := sortEntries_stable_pair _ hSnd a b haS hbS hab heq
  have h1 : List.Sublist [a, b] (generateStatsEmbed_sortedUsers fromFormat sleepData)
      ↔ List.Sublist [a, b] (calculateWeeklySleepStats fromFormat sleepData) := by
    constructor
    · intro h
      exact hstab.1 (h.trans hsub)
    · intro h
      rcases pair_sublist_or hab ha hb with h2 | h2
      · exact h2
      · exact (pair_sublist_asymm hEnd (hstab.2 h) (h2.trans hsub)).elim
  have h2 : List.Sublist [a, b] (calculateWeeklySleepStats fromFormat sleepData)
      ↔ List.Sublist [a.1, b.1]
          ((calculateWeeklySleepStats fromFormat sleepData).map Prod.fst) := by
    constructor
    · intro h
      exact h.map Prod.fst
    · intro h
      rcases pair_sublist_or hab haS hbS with h3 | h3
      · exact h3
      · exact (pair_sublist_asymm hknd h (h3.map Prod.fst)).elim
  exact ⟨h1.trans h2, (h1.trans h2).trans (hkord a.1 b.1 hak hbk hne)⟩

/-- C10 at a concrete input: `V` and `U` both total 480 minutes and the first row of
`V` precedes the first row of `U`, so `V` is ranked before `U` (after `W`, who totals
900 minutes). -/
theorem C10_ties_witness :
    generateStatsEmbed_sortedUsers fromFormatTokyo tieRows
      = [("W", { totalSleepMinutes := 900, sleepStart := none }),
         ("V", { totalSleepMinutes := 480, sleepStart := none }),
         ("U", { totalSleepMinutes := 480, sleepStart := none })] ∧
    List.Sublist
      [("V", { totalSleepMinutes := 480, sleepStart := none }),
       ("U", { totalSleepMinutes := 480, sleepStart := none })]
      (generateStatsEmbed_sortedUsers fromFormatTokyo tieRows) :=
  ⟨by decide,
   (C10_ranking_ties_in_insertion_order fromFormatTokyo tieRows
      ("V", { totalSleepMinutes := 480, sleepStart := none })
      ("U", { totalSleepMinutes := 480, sleepStart := none })
      (by decide) (by decide) (by decide) (by decide)).2.2 (by decide)⟩

/-- C12 as stated fails: the store holds a `wakeup` event of user `U` at 2024-01-02
07:00, and `updateUserStatus` writes a `sleep` event of `U` with the earlier timestamp
2024-01-01 23:00; `getUserStatus` then returns the stored event of 07:00, not the
written one. -/
theorem C12_counterexample_earlier_write :
    getUserStatus
        (updateUserStatus [mkRecord "U" "☀️" "2024-01-02 07:00" "wakeup"]
          "U" "G" "🌙" "2024-01-01 23:00" "sleep") "U" "G"
      = some (mkRecord "U" "☀️" "2024-01-02 07:00" "wakeup") ∧
    getUserStatus
        (updateUserStatus [mkRecord "U" "☀️" "2024-01-02 07:00" "wakeup"]
          "U" "G" "🌙" "2024-01-01 23:00" "sleep") "U" "G"
      ≠ some (mkRecord "U" "🌙" "2024-01-01 23:00" "sleep") := by
  decide

/-- C12, amended: for every store state in which no event of the written user and
group has a timestamp after the written one (as when the event is written at the
current time), `getUserStatus` for that user and group returns, after
`updateUserStatus`, exactly the written event, with its status, timestamp and
record type. -/
theorem C12_round_trip_latest (db : Store) (userId guildId status timestamp recordType : String)
    (h : ∀ r ∈ db, r.user_id = userId → r.guild_id = guildId →
      textLE r.timestamp timestamp) :
    getUserStatus (updateUserStatus db userId guildId status timestamp recordType)
        userId guildId
      = some { user_id := userId, guild_id := guildId, status := status,
               timestamp := timestamp, record_type := recordType } := by
  unfold getUserStatus
  have he : (⟨userId, guildId, status, timestamp, recordType⟩ : SleepRecord)
      ∈ (updateUserStatus db userId guildId status timestamp recordType).filter
          (fun r => r.user_id = userId ∧ r.guild_id = guildId) := by
    simp [updateUserStatus]
  obtain ⟨x, hx⟩ := head_timestampDesc_isSome _ _ he
  rw [hx]
  obtain ⟨hxm, hmax⟩ := head_timestampDesc _ x hx
  have h1 : textLE timestamp x.timestamp := hmax _ he
  rw [List.mem_filter] at hxm
  obtain ⟨hxdb, hxug⟩ := hxm
  simp only [decide_eq_true_eq] at hxug
  unfold updateUserStatus at hxdb
  rcases List.mem_append.1 hxdb with hold | hnew
  · rw [List.mem_filter] at hold
    obtain ⟨hxin, hkey⟩ := hold
    simp only [decide_eq_true_eq] at hkey
    have h2 : textLE x.timestamp timestamp := h x hxin hxug.1 hxug.2
    exact absurd ⟨hxug.1, hxug.2, textLE_antisymm _ _ h2 h1⟩ hkey
  · rw [List.mem_singleton.1 hnew]

/-- C12 at a concrete input: user `V` of the scenario store, whose last event is of
2024-01-02 15:00, is written at 2024-01-03 07:00, and the latest event of `V` is the
written one. -/
theorem C12_round_trip_witness :
    getUserStatus (updateUserStatus scenarioStore "V" "G" "🌙" "2024-01-03 07:00" "sleep")
        "V" "G"
      = some (mkRecord "V" "🌙" "2024-01-03 07:00" "sleep") :=
  C12_round_trip_latest scenarioStore "V" "G" "🌙" "2024-01-03 07:00" "sleep" (by decide)

/-- C13: in every store that the program can reach from the empty table, no two
events share the key `(user_id, guild_id, timestamp)`; and a second `updateUserStatus`
with the user, group and timestamp of a first one leaves the number of events as it
was after the first, puts the second status and record type in the place of the first
(the only event under that key is the second one) and keeps no trace of the first:
the store is the one that the second write alone would have produced. -/
theorem C13_one_event_per_key (db : Store) (h : Reachable db) :
    (db.map primaryKey).Nodup ∧
    (∀ r1 ∈ db, ∀ r2 ∈ db, primaryKey r1 = primaryKey r2 → r1 = r2) ∧
    (∀ u g t s1 rt1 s2 rt2 : String,
      (updateUserStatus (updateUserStatus db u g s1 t rt1) u g s2 t rt2).length
        = (updateUserStatus db u g s1 t rt1).length ∧
      updateUserStatus (updateUserStatus db u g s1 t rt1) u g s2 t rt2
        = updateUserStatus db u g s2 t rt2 ∧
      (∀ r ∈ updateUserStatus (updateUserStatus db u g s1 t rt1) u g s2 t rt2,
        primaryKey r = (u, g, t) →
        r = { user_id := u, guild_id := g, status := s2, timestamp := t,
              record_type := rt2 })) := by
  have hnd := keyUnique_of_reachable db h
  refine ⟨hnd, ?_, ?_⟩
  · intro r1 h1 r2 h2 hk
    exact List.inj_on_of_nodup_map hnd h1 h2 hk
  · intro u g t s1 rt1 s2 rt2
    refine ⟨?_, updateUserStatus_twice db u g t s1 rt1 s2 rt2, ?_⟩
    · rw [updateUserStatus_twice, updateUserStatus_length, updateUserStatus_length]
    · intro r hr hk
      rw [updateUserStatus_twice] at hr
      have hnd2 := keyUnique_updateUserStatus db u g s2 t rt2 hnd
      have hin : (⟨u, g, s2, t, rt2⟩ : SleepRecord) ∈ updateUserStatus db u g s2 t rt2 := by
        simp [updateUserStatus]
      exact List.inj_on_of_nodup_map hnd2 hr hin hk

/-- C13 at a concrete input: in the store reached by writing `wakeup` for user `U` at
2024-01-02 07:00 and then `sleep` for the same user, group and minute, the one event
is the second one. -/
theorem C13_overwrite_witness :
    updateUserStatus (updateUserStatus [] "U" "G" "☀️" "2024-01-02 07:00" "wakeup")
        "U" "G" "🌙" "2024-01-02 07:00" "sleep"
      = [mkRecord "U" "🌙" "2024-01-02 07:00" "sleep"] := by
  have h := (C13_one_event_per_key [] Reachable.empty).2.2
    "U" "G" "2024-01-02 07:00" "☀️" "wakeup" "🌙" "sleep"
  rw [h.2.1]
  decide

/-- C14: after `clearUserSleepRecords(user, group)` the distinct-user query of that
group does not contain the user and the store holds no event of that user and group;
the delete is total (it cannot fail), on a user and group without events it leaves the
store unchanged, and a second delete changes nothing. -/
theorem C14_purge_excludes_user (db : Store) (userId guildId : String) :
    userId ∉ distinctUsers (clearUserSleepRecords db userId guildId) guildId ∧
    (∀ r ∈ clearUserSleepRecords db userId guildId,
      ¬ (r.user_id = userId ∧ r.guild_id = guildId)) ∧
    ((∀ r ∈ db, ¬ (r.user_id = userId ∧ r.guild_id = guildId)) →
      clearUserSleepRecords db userId guildId = db) ∧
    clearUserSleepRecords (clearUserSleepRecords db userId guildId) userId guildId
      = clearUserSleepRecords db userId guildId := by
  have h2 : ∀ r ∈ clearUserSleepRecords db userId guildId,
      ¬ (r.user_id = userId ∧ r.guild_id = guildId) := by
    intro r hr
    unfold clearUserSleepRecords at hr
    rw [List.mem_filter] at hr
    have h := hr.2
    simp only [decide_eq_true_eq] at h
    exact h
  have h3 : ∀ d : Store, (∀ r ∈ d, ¬ (r.user_id = userId ∧ r.guild_id = guildId)) →
      clearUserSleepRecords d userId guildId = d := by
    intro d hd
    unfold clearUserSleepRecords
    rw [List.filter_eq_self]
    intro r hr
    simp only [decide_eq_true_eq]
    exact hd r hr
  refine ⟨?_, h2, h3 db, h3 _ h2⟩
  intro hmem
  unfold distinctUsers at hmem
  rw [List.mem_dedup, List.mem_map] at hmem
  obtain ⟨r, hr, hu⟩ := hmem
  rw [List.mem_filter] at hr
  have hg : r.guild_id = guildId := by simpa using hr.2
  exact h2 r hr.1 ⟨hu, hg⟩

/-- C14 at a concrete input: user `Y` has no event in the scenario store, so the
delete leaves the store unchanged; after the delete of user `V` the users of guild
`G` are `U` and `X`. -/
theorem C14_purge_witness :
    clearUserSleepRecords scenarioStore "Y" "G" = scenarioStore ∧
    distinctUsers (clearUserSleepRecords scenarioStore "V" "G") "G" = ["U", "X"] :=
  ⟨(C14_purge_excludes_user scenarioStore "Y" "G").2.2.1 (by decide), by decide⟩

/-- C11: `getServerAverageSleepTime` returns the arithmetic mean of the per-user
average sleep durations that are present, one number for each user of the group with
at least one closed session and nothing for the other users, whatever the number of
sessions behind each average; it returns `null` exactly when no user of the group has
a closed session. In the scenario store user `U` averages 480 minutes over one session
and user `V` averages 90 minutes over two: the result is 285, the mean of the two
averages, not the mean 220 of the three sessions. -/
theorem C11_server_average_is_mean_of_averages (fromFormat : String → DateTime)
    (db : Store) (guildId : String) :
    getServerAverageSleepTime fromFormat db guildId
      = arithmeticMean (presentAverages fromFormat db guildId) ∧
    (∀ q : ℚ, q ∈ presentAverages fromFormat db guildId ↔
      ∃ userId ∈ distinctUsers db guildId,
        getAverageSleepDuration_db fromFormat db userId guildId = some q) ∧
    (∀ userId : String,
      getAverageSleepDuration_db fromFormat db userId guildId = none ↔
      (getAverageSleepDuration_fold fromFormat
        (selectUserRows db userId guildId)).sleepSessions = 0) ∧
    (getServerAverageSleepTime fromFormat db guildId = none ↔
      ∀ userId ∈ distinctUsers db guildId,
        (getAverageSleepDuration_fold fromFormat
          (selectUserRows db userId guildId)).sleepSessions = 0) ∧
    presentAverages fromFormatTokyo scenarioStore "G" = [480, 90] ∧
    getServerAverageSleepTime fromFormatTokyo scenarioStore "G" = some 285 := by
  have hnone : ∀ userId : String,
      getAverageSleepDuration_db fromFormat db userId guildId = none ↔
      (getAverageSleepDuration_fold fromFormat
        (selectUserRows db userId guildId)).sleepSessions = 0 := by
    intro userId
    unfold getAverageSleepDuration_db getAverageSleepDuration
    by_cases hz : (getAverageSleepDuration_fold fromFormat
        (selectUserRows db userId guildId)).sleepSessions = 0
    · simp [hz]
    · simp [hz]
  have hpres : presentAverages fromFormatTokyo scenarioStore "G" = [480, 90] := by
    have hu : distinctUsers scenarioStore "G" = ["U", "V", "X"] := by decide
    have fU : getAverageSleepDuration_fold fromFormatTokyo
        (selectUserRows scenarioStore "U" "G") = ⟨480, 1, none⟩ := by decide
    have fV : getAverageSleepDuration_fold fromFormatTokyo
        (selectUserRows scenarioStore "V" "G") = ⟨180, 2, none⟩ := by decide
    have fX : (getAverageSleepDuration_fold fromFormatTokyo
        (selectUserRows scenarioStore "X" "G")).sleepSessions = 0 := by decide
    have aU : getAverageSleepDuration_db fromFormatTokyo scenarioStore "U" "G"
        = some 480 := by
      unfold getAverageSleepDuration_db getAverageSleepDuration
      rw [fU]
      norm_num
    have aV : getAverageSleepDuration_db fromFormatTokyo scenarioStore "V" "G"
        = some 90 := by
      unfold getAverageSleepDuration_db getAverageSleepDuration
      rw [fV]
      norm_num
    have aX : getAverageSleepDuration_db fromFormatTokyo scenarioStore "X" "G"
        = none := by
      unfold getAverageSleepDuration_db getAverageSleepDuration
      simp [fX]
    unfold presentAverages
    rw [hu]
    simp [List.filterMap_cons, aU, aV, aX]
  refine ⟨server_eq_mean fromFormat db guildId, ?_, hnone, ?_, hpres, ?_⟩
  · intro q
    unfold presentAverages
    rw [List.mem_filterMap]
  · rw [server_eq_mean]
    unfold arithmeticMean
    constructor
    · intro h
      have hl : (presentAverages fromFormat db guildId).length = 0 := by
        by_contra hc
        simp [hc] at h
      have hnil : presentAverages fromFormat db guildId = [] := List.length_eq_zero.1 hl
      intro userId hu
      rw [← hnone]
      cases hq : getAverageSleepDuration_db fromFormat db userId guildId with
      | none => rfl
      | some q =>
        have : q ∈ presentAverages fromFormat db guildId := by
          unfold presentAverages
          rw [List.mem_filterMap]
          exact ⟨userId, hu, hq⟩
        rw [hnil] at this
        simp at this
    · intro h
      have hnil : presentAverages fromFormat db guildId = [] := by
        unfold presentAverages
        rw [List.filterMap_eq_nil_iff]
        intro u hu
        exact (hnone u).2 (h u hu)
      simp [hnil]
  · rw [server_eq_mean, hpres]
    unfold arithmeticMean
    norm_num

/-- C16: `getWeeklySleepData(group)`, run at the civil time `now` of Asia/Tokyo,
returns exactly the events of the store that belong to the group and whose timestamp
is at least the text `oneWeekAgo` (each once), where `oneWeekAgo` is the formatted
instant seven days, 10080 minutes, before `now`; for an event whose timestamp is a
text of `getJapanTime`, that is the case exactly when its instant is not more than
seven days before `now`. The rows are sorted by `(user_id, timestamp)`: the records of
one user are contiguous (a record that stands between two records of one user is of
that user) and within a user the timestamps never decrease. -/
theorem C16_weekly_rows_filtered_and_sorted (db : Store) (guildId : String)
    (now : CivilTime) (hnow : now.valid) (hyear : 1 ≤ now.year) :
    (∀ r : SleepRecord, r ∈ getWeeklySleepData db guildId now ↔
      r ∈ db ∧ r.guild_id = guildId ∧ textLE (toFormat now.minusSevenDays) r.timestamp) ∧
    now.minusSevenDays.valid ∧
    now.minusSevenDays.epochMinutes = now.epochMinutes - 7 * 24 * 60 ∧
    fromFormatTokyo (toFormat now.minusSevenDays) = some (now.epochMinutes - 7 * 24 * 60) ∧
    (∀ (r : SleepRecord) (c : CivilTime), c.valid → r.timestamp = getJapanTime c →
      (r ∈ getWeeklySleepData db guildId now ↔
        r ∈ db ∧ r.guild_id = guildId ∧ now.epochMinutes - 7 * 24 * 60 ≤ c.epochMinutes)) ∧
    (getWeeklySleepData db guildId now).Perm
      (db.filter (fun r => r.guild_id = guildId
        ∧ textLE (toFormat now.minusSevenDays) r.timestamp)) ∧
    List.Pairwise userTimestampAsc (getWeeklySleepData db guildId now) ∧
    (∀ a m b : SleepRecord,
      List.Sublist [a, m, b] (getWeeklySleepData db guildId now) →
      a.user_id = b.user_id → m.user_id = a.user_id) ∧
    (∀ a b : SleepRecord,
      List.Sublist [a, b] (getWeeklySleepData db guildId now) →
      a.user_id = b.user_id → textLE a.timestamp b.timestamp) := by
  have hp := weeklyData_perm db guildId now
  have hs := weeklyData_sorted db guildId now
  have hv := minusSevenDays_valid now hnow
  have he := minusSevenDays_epochMinutes now hnow hyear
  have hmem : ∀ r : SleepRecord, r ∈ getWeeklySleepData db guildId now ↔
      r ∈ db ∧ r.guild_id = guildId ∧ textLE (toFormat now.minusSevenDays) r.timestamp := by
    intro r
    rw [hp.mem_iff, List.mem_filter]
    simp only [decide_eq_true_eq]
  refine ⟨hmem, hv, he, ?_, ?_, hp, hs, ?_, ?_⟩
  · rw [fromFormatTokyo_toFormat _ hv, he]
  · intro r c hc hr
    rw [hmem r, hr]
    unfold getJapanTime
    rw [toFormat_le_iff_epochMinutes _ c hv hc, he]
  · intro a m b hsub hab
    have h3 := hs.sublist hsub
    simp only [List.pairwise_cons, List.mem_cons, List.mem_singleton, forall_eq_or_imp,
      forall_eq, List.not_mem_nil, false_imp_iff, implies_true, List.Pairwise.nil,
      and_true] at h3
    obtain ⟨⟨ham, _⟩, hmb⟩ := h3
    simp only [userTimestampAsc, textLT] at ham hmb
    rcases ham with h1 | ⟨e1, _⟩
    · rcases hmb with h2 | ⟨e2, _⟩
      · rw [hab] at h1
        exact absurd (lt_trans h1 h2) (lt_irrefl _)
      · rw [e2, hab] at h1
        exact absurd h1 (lt_irrefl _)
    · exact e1.symm
  · intro a b hsub hab
    have h2 := hs.sublist hsub
    simp only [List.pairwise_cons, List.mem_singleton, forall_eq, List.not_mem_nil,
      false_imp_iff, implies_true, List.Pairwise.nil, and_true] at h2
    simp only [userTimestampAsc, textLT] at h2
    rcases h2 with h1 | ⟨_, h1⟩
    · rw [hab] at h1
      exact absurd h1 (lt_irrefl _)
    · exact h1

/-- C16 at a concrete input: at 2024-01-09 00:00 the text `oneWeekAgo` is
`2024-01-02 00:00`, and the query returns the rows of guild `G` of the scenario store
since then, by user and time; the row of `U` of 2024-01-01 23:00 is older than seven
days and is left out, and the two rows of `V` are in the order of their timestamps. -/
theorem C16_weekly_rows_witness :
    toFormat (CivilTime.minusSevenDays ⟨2024, 1, 9, 0, 0⟩) = "2024-01-02 00:00" ∧
    (getWeeklySleepData scenarioStore "G" ⟨2024, 1, 9, 0, 0⟩).map
        (fun r => (r.user_id, r.timestamp))
      = [("U", "2024-01-02 07:00"), ("V", "2024-01-02 13:00"),
         ("V", "2024-01-02 15:00"), ("X", "2024-01-02 22:00")] ∧
    textLE "2024-01-02 13:00" "2024-01-02 15:00" :=
  ⟨by decide, by decide,
   (C16_weekly_rows_filtered_and_sorted scenarioStore "G" ⟨2024, 1, 9, 0, 0⟩
      (by decide) (by decide)).2.2.2.2.2.2.2.2
     (mkRecord "V" "🌙" "2024-01-02 13:00" "sleep")
     (mkRecord "V" "☀️" "2024-01-02 15:00" "wakeup") (by decide) rfl⟩

/-- C17: the status projection of `handleStatusCommand` computes no duration from a
missing event. Without a latest event, or without the marker that matches the current
status (the last `wakeup` when the status is the Awake symbol, the last `sleep` when
it is any other text, which is labelled `'Asleep'`), the elapsed time and the
previous-interval text are both the initial `'N/A'`. When only the opposite marker is missing, the previous-interval text
is `'No previous sleep record'` (Awake) or `'No previous wake record'` (Asleep). And
`calculateElapsedTime` and `calculateDuration` are called only on timestamps of rows
that the queries returned, which are events of that user and group in the store. -/
theorem C17_no_duration_from_missing_event (db : Store) (userId guildId : String)
    (status lastWake lastSleep : Option SleepRecord) :
    ((statusProjection none lastWake lastSleep).elapsedTime = ElapsedTime.NA ∧
      (statusProjection none lastWake lastSleep).lastDurationText = LastDurationText.NA) ∧
    (∀ st : SleepRecord, st.status = "☀️" →
      (statusProjection (some st) none lastSleep).elapsedTime = ElapsedTime.NA ∧
      (statusProjection (some st) none lastSleep).lastDurationText
        = LastDurationText.NA) ∧
    (∀ st : SleepRecord, st.status ≠ "☀️" →
      (statusProjection (some st) lastWake none).userCurrentStatus = "Asleep" ∧
      (statusProjection (some st) lastWake none).elapsedTime = ElapsedTime.NA ∧
      (statusProjection (some st) lastWake none).lastDurationText
        = LastDurationText.NA) ∧
    (∀ st w : SleepRecord, st.status = "☀️" →
      (statusProjection (some st) (some w) none).elapsedTime
        = ElapsedTime.calculateElapsedTime w.timestamp ∧
      (statusProjection (some st) (some w) none).lastDurationText
        = LastDurationText.noPreviousSleepRecord) ∧
    (∀ st s : SleepRecord, st.status = "🌙" →
      (statusProjection (some st) none (some s)).elapsedTime
        = ElapsedTime.calculateElapsedTime s.timestamp ∧
      (statusProjection (some st) none (some s)).lastDurationText
        = LastDurationText.noPreviousWakeRecord) ∧
    (∀ ts, (statusProjection status lastWake lastSleep).elapsedTime
        = ElapsedTime.calculateElapsedTime ts →
      status ≠ none ∧
      ((∃ w, lastWake = some w ∧ w.timestamp = ts) ∨
        (∃ s, lastSleep = some s ∧ s.timestamp = ts))) ∧
    (∀ t1 t2, (statusProjection status lastWake lastSleep).lastDurationText
        = LastDurationText.calculateDuration t1 t2 →
      status ≠ none ∧
      ∃ w s, lastWake = some w ∧ lastSleep = some s ∧
        ((t1 = s.timestamp ∧ t2 = w.timestamp) ∨ (t1 = w.timestamp ∧ t2 = s.timestamp))) ∧
    (∀ ts, (handleStatusCommand_user db userId guildId).elapsedTime
        = ElapsedTime.calculateElapsedTime ts →
      ∃ r ∈ db, r.user_id = userId ∧ r.guild_id = guildId ∧ r.timestamp = ts) ∧
    (∀ t1 t2, (handleStatusCommand_user db userId guildId).lastDurationText
        = LastDurationText.calculateDuration t1 t2 →
      (∃ r ∈ db, r.user_id = userId ∧ r.guild_id = guildId ∧ r.timestamp = t1) ∧
      (∃ r ∈ db, r.user_id = userId ∧ r.guild_id = guildId ∧ r.timestamp = t2)) := by
  refine ⟨⟨rfl, rfl⟩, ?_, ?_, ?_, ?_, (statusProjection_calls status lastWake lastSleep).1,
    (statusProjection_calls status lastWake lastSleep).2, ?_, ?_⟩
  · intro st h
    rw [statusProjection_awake_no_marker st lastSleep h]
    exact ⟨rfl, rfl⟩
  · intro st h
    by_cases h2 : st.status = "🌙"
    · rw [statusProjection_asleep_no_marker st lastWake h2]
      exact ⟨rfl, rfl, rfl⟩
    · rw [statusProjection_other st lastWake none h h2]
      exact ⟨rfl, rfl, rfl⟩
  · intro st w h
    rw [statusProjection_awake st w none h]
    exact ⟨rfl, rfl⟩
  · intro st s h
    rw [statusProjection_asleep st s none h]
    exact ⟨rfl, rfl⟩
  · intro ts h
    unfold handleStatusCommand_user at h
    obtain ⟨_, hc⟩ := (statusProjection_calls _ _ _).1 ts h
    rcases hc with ⟨w, hw, e⟩ | ⟨s, hs, e⟩
    · obtain ⟨h1, h2, h3, _⟩ := getLastRecord_mem db userId guildId "wakeup" w hw
      exact ⟨w, h1, h2, h3, e⟩
    · obtain ⟨h1, h2, h3, _⟩ := getLastRecord_mem db userId guildId "sleep" s hs
      exact ⟨s, h1, h2, h3, e⟩
  · intro t1 t2 h
    unfold handleStatusCommand_user at h
    obtain ⟨_, w, s, hw, hs, hc⟩ := (statusProjection_calls _ _ _).2 t1 t2 h
    obtain ⟨w1, w2, w3, _⟩ := getLastRecord_mem db userId guildId "wakeup" w hw
    obtain ⟨s1, s2, s3, _⟩ := getLastRecord_mem db userId guildId "sleep" s hs
    rcases hc with ⟨e1, e2⟩ | ⟨e1, e2⟩
    · exact ⟨⟨s, s1, s2, s3, e1.symm⟩, ⟨w, w1, w2, w3, e2.symm⟩⟩
    · exact ⟨⟨w, w1, w2, w3, e1.symm⟩, ⟨s, s1, s2, s3, e2.symm⟩⟩

/-- C17 at concrete inputs: user `X` of the scenario store is asleep without any
`wakeup` record, so the elapsed time is computed from the `sleep` record of 22:00 and
the previous-interval text is `'No previous wake record'`; and user `Y` has no event,
so both texts are `'N/A'`. -/
theorem C17_projection_witness :
    handleStatusCommand_user scenarioStore "X" "G"
      = { userCurrentStatus := "Asleep"
          elapsedTime := ElapsedTime.calculateElapsedTime "2024-01-02 22:00"
          lastDurationText := LastDurationText.noPreviousWakeRecord } ∧
    (∃ r ∈ scenarioStore, r.user_id = "X" ∧ r.guild_id = "G"
      ∧ r.timestamp = "2024-01-02 22:00") ∧
    handleStatusCommand_user scenarioStore "Y" "G"
      = { userCurrentStatus := "N/A", elapsedTime := ElapsedTime.NA,
          lastDurationText := LastDurationText.NA } :=
  ⟨by decide,
   (C17_no_duration_from_missing_event scenarioStore "X" "G" none none none).2.2.2.2.2.2.2.1
     "2024-01-02 22:00" (by decide),
   by decide⟩

/-- C18, the claim as stated fails: user `Y` has no event in guild `G` of the scenario
store, and the description of `handleStatusCommand` shows no label for `Y` (the loop
runs over the user ids that have a row), so the label of `Y` is not the placeholder
`'N/A'`. -/
theorem C18_counterexample_no_label :
    (∀ r ∈ scenarioStore, ¬ (r.user_id = "Y" ∧ r.guild_id = "G")) ∧
    (handleStatusCommand scenarioStore "G" (fun _ => true)).label "Y" = none ∧
    (handleStatusCommand scenarioStore "G" (fun _ => true)).label "Y" ≠ some "N/A" := by
  decide

/-- C18, amended: the description of `handleStatusCommand` has a block, and so a
label, exactly for the user ids that have an event in the group (and that
`guild.members.fetch` finds), each once. The label of such a user is `'Awake'` when
the latest event of the user has the Awake symbol and `'Asleep'` when it has the Asleep
symbol, and it is never the placeholder `'N/A'`. A user without an event in the group
has no block and no label; the placeholder is the initial value of the variable, kept
only when `getUserStatus` returns no row. The description is the text `'No one has
recorded yet.'` exactly when the group has no event. -/
theorem C18_current_state_label (db : Store) (guildId : String)
    (isMember : String → Bool) :
    (∀ (u : String) (p : StatusProjection),
      (u, p) ∈ (handleStatusCommand db guildId isMember).entries →
      isMember u = true ∧
      ∃ st : SleepRecord, getUserStatus db u guildId = some st ∧
        (st ∈ db ∧ st.user_id = u ∧ st.guild_id = guildId) ∧
        (st.status = "☀️" → p.userCurrentStatus = "Awake") ∧
        (st.status = "🌙" → p.userCurrentStatus = "Asleep") ∧
        (p.userCurrentStatus = "Awake" ∨ p.userCurrentStatus = "Asleep") ∧
        p.userCurrentStatus ≠ "N/A") ∧
    (∀ u : String, (∃ r ∈ db, r.user_id = u ∧ r.guild_id = guildId) → isMember u = true →
      (u, handleStatusCommand_user db u guildId)
        ∈ (handleStatusCommand db guildId isMember).entries) ∧
    (((handleStatusCommand db guildId isMember).entries).map Prod.fst).Nodup ∧
    (∀ u : String, (∀ r ∈ db, ¬ (r.user_id = u ∧ r.guild_id = guildId)) →
      u ∉ ((handleStatusCommand db guildId isMember).entries).map Prod.fst ∧
      (handleStatusCommand db guildId isMember).label u = none) ∧
    (∀ lastWake lastSleep : Option SleepRecord,
      (statusProjection none lastWake lastSleep).userCurrentStatus = "N/A") ∧
    (handleStatusCommand db guildId isMember = StatusDescription.noOneRecorded
      ↔ ∀ r ∈ db, r.guild_id ≠ guildId) := by
  have hA : ∀ st : SleepRecord, ∀ lw ls : Option SleepRecord, st.status = "☀️" →
      (statusProjection (some st) lw ls).userCurrentStatus = "Awake" := by
    intro st lw ls h
    rw [statusProjection_label]
    simp [h]
  have hS : ∀ st : SleepRecord, ∀ lw ls : Option SleepRecord, ¬ st.status = "☀️" →
      (statusProjection (some st) lw ls).userCurrentStatus = "Asleep" := by
    intro st lw ls h
    rw [statusProjection_label]
    simp [h]
  have hnot : ∀ u : String, (∀ r ∈ db, ¬ (r.user_id = u ∧ r.guild_id = guildId)) →
      u ∉ ((handleStatusCommand db guildId isMember).entries).map Prod.fst := by
    intro u hno hin
    rw [List.mem_map] at hin
    obtain ⟨⟨v, p⟩, hvp, e⟩ := hin
    simp only at e
    subst e
    obtain ⟨r, hr, h1, h2⟩ := (mem_distinctUsers db guildId v).1
      ((mem_entries_handleStatusCommand db guildId isMember v p).1 hvp).1
    exact hno r hr ⟨h1, h2⟩
  refine ⟨?_, ?_, ?_, ?_, fun _ _ => rfl, ?_⟩
  · intro u p hup
    obtain ⟨hu, hm, hp⟩ := (mem_entries_handleStatusCommand db guildId isMember u p).1 hup
    refine ⟨hm, ?_⟩
    cases hst : getUserStatus db u guildId with
    | none =>
      obtain ⟨r, hr, h1, h2⟩ := (mem_distinctUsers db guildId u).1 hu
      exact absurd ⟨h1, h2⟩ ((getUserStatus_eq_none db u guildId).1 hst r hr)
    | some st =>
      obtain ⟨h1, h2, h3, _⟩ := getUserStatus_mem db u guildId st hst
      have hp2 : p = statusProjection (some st) (getLastRecord db u guildId "wakeup")
          (getLastRecord db u guildId "sleep") := by
        rw [hp]
        unfold handleStatusCommand_user
        rw [hst]
      refine ⟨st, rfl, ⟨h1, h2, h3⟩, ?_, ?_, ?_, ?_⟩
      · intro h
        rw [hp2]
        exact hA st _ _ h
      · intro h
        rw [hp2]
        exact hS st _ _ (by rw [h]; exact fun e => sun_ne_moon e.symm)
      · by_cases h : st.status = "☀️"
        · exact Or.inl (by rw [hp2]; exact hA st _ _ h)
        · exact Or.inr (by rw [hp2]; exact hS st _ _ h)
      · by_cases h : st.status = "☀️"
        · rw [hp2, hA st _ _ h]
          decide
        · rw [hp2, hS st _ _ h]
          decide
  · intro u hu hm
    exact (mem_entries_handleStatusCommand db guildId isMember u _).2
      ⟨(mem_distinctUsers db guildId u).2 hu, hm, rfl⟩
  · unfold handleStatusCommand
    simp only []
    by_cases h : (distinctUsers db guildId).length = 0
    · rw [if_pos h]
      exact List.nodup_nil
    · rw [if_neg h]
      simp only [StatusDescription.entries, List.map_map]
      have e : (Prod.fst ∘ fun userId => (userId, handleStatusCommand_user db userId guildId))
          = id := rfl
      rw [e, List.map_id]
      unfold distinctUsers
      exact (List.nodup_dedup _).filter _
  · intro u hno
    refine ⟨hnot u hno, ?_⟩
    unfold StatusDescription.label
    have hl : List.lookup u (handleStatusCommand db guildId isMember).entries = none := by
      rw [List.lookup_eq_none_iff]
      intro e he
      rw [bne_iff_ne]
      intro hu
      exact hnot u hno (List.mem_map.2 ⟨e, he, hu.symm⟩)
    rw [hl]
    rfl
  · unfold handleStatusCommand
    simp only []
    rw [← distinctUsers_eq_nil]
    by_cases h : (distinctUsers db guildId).length = 0
    · simp [h]
    · simp [h]

/-- C18 at a concrete input: in the scenario store the latest event of `U` has the
Awake symbol, and the block of `U` in the description has the label `'Awake'`. -/
theorem C18_label_witness :
    (handleStatusCommand_user scenarioStore "U" "G").userCurrentStatus = "Awake" ∧
    (handleStatusCommand scenarioStore "G" (fun _ => true)).label "X" = some "Asleep" :=
  ⟨by
    obtain ⟨_, st, hst, _, hawake, _⟩ :=
      (C18_current_state_label scenarioStore "G" (fun _ => true)).1 "U"
        (handleStatusCommand_user scenarioStore "U" "G") (by decide)
    have e : st = mkRecord "U" "☀️" "2024-01-02 07:00" "wakeup" := by
      have h2 : getUserStatus scenarioStore "U" "G"
          = some (mkRecord "U" "☀️" "2024-01-02 07:00" "wakeup") := by decide
      rw [h2] at hst
      exact (Option.some.inj hst).symm
    exact hawake (by rw [e]; rfl),
   by decide⟩

/-- C19: `handleSetStatusCommand` and `handleClearCommand` end at the permission
check, with the no-permission reply, exactly when the actor neither has the
`ManageGuild` permission, nor holds the role `ALLOWED_ROLE_ID`, nor has an id listed in
`ALLOWED_USERS`; for such an actor the store is unchanged. A privileged actor passes
the check and reaches the store: `handleClearCommand` deletes the events of the target
user, and `handleSetStatusCommand` writes the event when the status is one of the two
symbols. -/
theorem C19_permission_check (db : Store) (member : GuildMember) (guildId : String)
    (targetUser : Option String) (newStatus : Option String) (time : String) :
    ((handleSetStatusCommand db member guildId targetUser newStatus time).outcome
        ≠ Outcome.noPermission ↔ privileged member) ∧
    ((handleClearCommand db member guildId targetUser).outcome
        ≠ Outcome.noPermission ↔ privileged member) ∧
    (¬ privileged member →
      (handleSetStatusCommand db member guildId targetUser newStatus time).db = db ∧
      (handleClearCommand db member guildId targetUser).db = db) ∧
    (privileged member → ∀ userId : String, targetUser = some userId →
      (handleClearCommand db member guildId targetUser).db
        = clearUserSleepRecords db userId guildId ∧
      (newStatus = some "☀️" →
        (handleSetStatusCommand db member guildId targetUser newStatus time).db
          = updateUserStatus db userId guildId "☀️" time "wakeup") ∧
      (newStatus = some "🌙" →
        (handleSetStatusCommand db member guildId targetUser newStatus time).db
          = updateUserStatus db userId guildId "🌙" time "sleep")) := by
  have hms : "🌙" ≠ "☀️" := fun e => sun_ne_moon e.symm
  cases hd : permissionDenied member with
  | true =>
    have hnp : ¬ privileged member := (permissionDenied_iff member).1 hd
    refine ⟨?_, ?_, ?_, fun hp => absurd hp hnp⟩
    · simp [handleSetStatusCommand, hd, hnp]
    · simp [handleClearCommand, hd, hnp]
    · intro _
      simp [handleSetStatusCommand, handleClearCommand, hd]
  | false =>
    have hp : privileged member := (permissionDenied_false_iff member).1 hd
    refine ⟨?_, ?_, fun hnp => absurd hp hnp, ?_⟩
    · simp only [hp, iff_true]
      unfold handleSetStatusCommand
      simp only [hd, Bool.false_eq_true, if_false]
      cases targetUser with
      | none => simp
      | some u =>
        cases newStatus with
        | none => simp
        | some st =>
          by_cases hv : st = "☀️" ∨ st = "🌙"
          · simp [hv]
          · simp [hv]
    · simp only [hp, iff_true]
      unfold handleClearCommand
      simp only [hd, Bool.false_eq_true, if_false]
      cases targetUser <;> simp
    · intro _ userId ht
      subst ht
      refine ⟨?_, ?_, ?_⟩
      · simp [handleClearCommand, hd]
      · intro hs
        subst hs
        simp [handleSetStatusCommand, hd]
      · intro hs
        subst hs
        simp [handleSetStatusCommand, hd, hms]

/-- C19 at concrete inputs: a member without permission, role or allow-list entry
gets the no-permission reply and the store stays as it is; a member with `ManageGuild`
deletes the events of user `V`. -/
theorem C19_permission_witness :
    handleClearCommand scenarioStore plainMember "G" (some "V")
      = { db := scenarioStore, outcome := Outcome.noPermission } ∧
    (handleSetStatusCommand scenarioStore plainMember "G" (some "V") (some "☀️")
        "2024-01-03 07:00").db = scenarioStore ∧
    (handleClearCommand scenarioStore adminMember "G" (some "V")).db
      = clearUserSleepRecords scenarioStore "V" "G" :=
  ⟨by decide,
   ((C19_permission_check scenarioStore plainMember "G" (some "V") (some "☀️")
      "2024-01-03 07:00").2.2.1 (by decide)).1,
   ((C19_permission_check scenarioStore adminMember "G" (some "V") none
      "2024-01-03 07:00").2.2.2 (by decide) "V" rfl).1⟩

/-- C20, the claim as stated fails: a privileged actor runs `handleSetStatusCommand`
on an interaction without a target user. The handler does not end with the validation
reply `'Please specify a target user.'`, because `const userId = targetUser.id` stands
before the test `if (!targetUser)`. -/
theorem C20_counterexample_missing_target_user :
    (handleSetStatusCommand scenarioStore adminMember "G" none (some "☀️")
        "2024-01-03 07:00").outcome ≠ Outcome.specifyTargetUser ∧
    (handleSetStatusCommand scenarioStore adminMember "G" none (some "☀️")
        "2024-01-03 07:00").outcome = Outcome.typeError := by
  decide

/-- C20, amended: in `handleSetStatusCommand` with a target user (the command declares
the option `user` as required), a status value other than the Awake and the Asleep
symbol is rejected before any store write: the store is unchanged, a privileged actor
gets the invalid-status validation reply and any other actor the no-permission reply.
With one of the two symbols a privileged actor does reach the write. -/
theorem C20_invalid_status_rejected (db : Store) (member : GuildMember)
    (guildId userId : String) (newStatus : Option String) (time : String)
    (h1 : newStatus ≠ some "☀️") (h2 : newStatus ≠ some "🌙") :
    (handleSetStatusCommand db member guildId (some userId) newStatus time).db = db ∧
    (privileged member →
      (handleSetStatusCommand db member guildId (some userId) newStatus time).outcome
        = Outcome.invalidStatus) ∧
    (¬ privileged member →
      (handleSetStatusCommand db member guildId (some userId) newStatus time).outcome
        = Outcome.noPermission) ∧
    (privileged member → ∀ status : String, status = "☀️" ∨ status = "🌙" →
      handleSetStatusCommand db member guildId (some userId) (some status) time
        = { db := updateUserStatus db userId guildId status time
              (if status = "☀️" then "wakeup" else "sleep")
            outcome := Outcome.statusChanged userId status }) := by
  cases hd : permissionDenied member with
  | true =>
    have hnp : ¬ privileged member := (permissionDenied_iff member).1 hd
    simp [handleSetStatusCommand, hd, hnp]
  | false =>
    have hp : privileged member := (permissionDenied_false_iff member).1 hd
    refine ⟨?_, ?_, fun h => absurd hp h, ?_⟩
    · cases newStatus with
      | none => simp [handleSetStatusCommand, hd]
      | some st =>
        have hv : ¬ (st = "☀️" ∨ st = "🌙") := by
          rintro (e | e)
          · exact h1 (by rw [e])
          · exact h2 (by rw [e])
        simp [handleSetStatusCommand, hd, hv]
    · intro _
      cases newStatus with
      | none => simp [handleSetStatusCommand, hd]
      | some st =>
        have hv : ¬ (st = "☀️" ∨ st = "🌙") := by
          rintro (e | e)
          · exact h1 (by rw [e])
          · exact h2 (by rw [e])
        simp [handleSetStatusCommand, hd, hv]
    · intro _ status hv
      simp [handleSetStatusCommand, hd, hv]

/-- C20 at a concrete input: the status text `awake` is not one of the two symbols,
so a privileged actor with a target user gets the invalid-status reply and the store
stays as it is. -/
theorem C20_invalid_status_witness :
    (handleSetStatusCommand scenarioStore adminMember "G" (some "V") (some "awake")
        "2024-01-03 07:00").db = scenarioStore ∧
    (handleSetStatusCommand scenarioStore adminMember "G" (some "V") (some "awake")
        "2024-01-03 07:00").outcome = Outcome.invalidStatus :=
  ⟨(C20_invalid_status_rejected scenarioStore adminMember "G" "V"
      (some "awake") "2024-01-03 07:00" (by decide) (by decide)).1,
   (C20_invalid_status_rejected scenarioStore adminMember "G" "V"
      (some "awake") "2024-01-03 07:00" (by decide) (by decide)).2.1 (by decide)⟩

/-- C15: for two civil date-times `a` and `b` with a four-digit year, the texts of the
format `'yyyy-MM-dd HH:mm'` of `getJapanTime` compare lexicographically as the
date-times compare chronologically at minute resolution: the text of `a` is less than
the text of `b` exactly when the instant of `a` is before the instant of `b`, which is
the order by year, month, day, hour and minute; equal texts are equal instants; and
reading a text back gives the instant. So in a store whose timestamps are such texts,
the row that `ORDER BY timestamp DESC LIMIT 1` selects in `getUserStatus` and in
`getLastRecord` is an event whose instant is not before the instant of any other event
of the query. -/
theorem C15_format_order_is_chronological (a b : CivilTime) (ha : a.valid) (hb : b.valid) :
    (textLT (getJapanTime a) (getJapanTime b) ↔ a.epochMinutes < b.epochMinutes) ∧
    (textLT (getJapanTime a) (getJapanTime b) ↔ a.before b) ∧
    (textLE (getJapanTime a) (getJapanTime b) ↔ a.epochMinutes ≤ b.epochMinutes) ∧
    (getJapanTime a = getJapanTime b ↔ a.epochMinutes = b.epochMinutes) ∧
    fromFormatTokyo (getJapanTime a) = some a.epochMinutes ∧
    (∀ (db : Store) (userId guildId : String) (x : SleepRecord),
      (∀ r ∈ db, ∃ c : CivilTime, c.valid ∧ r.timestamp = getJapanTime c) →
      getUserStatus db userId guildId = some x →
      ∀ y ∈ db, y.user_id = userId → y.guild_id = guildId →
        ∃ ty tx : Int, fromFormatTokyo y.timestamp = some ty ∧
          fromFormatTokyo x.timestamp = some tx ∧ ty ≤ tx) ∧
    (∀ (db : Store) (userId guildId recordType : String) (x : SleepRecord),
      (∀ r ∈ db, ∃ c : CivilTime, c.valid ∧ r.timestamp = getJapanTime c) →
      getLastRecord db userId guildId recordType = some x →
      ∀ y ∈ db, y.user_id = userId → y.guild_id = guildId → y.record_type = recordType →
        ∃ ty tx : Int, fromFormatTokyo y.timestamp = some ty ∧
          fromFormatTokyo x.timestamp = some tx ∧ ty ≤ tx) := by
  unfold getJapanTime
  have hlt := toFormat_lt_iff_epochMinutes a b ha hb
  have hkey : ∀ (db : Store) (x y : SleepRecord),
      (∀ r ∈ db, ∃ c : CivilTime, c.valid ∧ r.timestamp = toFormat c) →
      x ∈ db → y ∈ db → textLE y.timestamp x.timestamp →
      ∃ ty tx : Int, fromFormatTokyo y.timestamp = some ty ∧
        fromFormatTokyo x.timestamp = some tx ∧ ty ≤ tx := by
    intro db x y hf hx hy hle
    obtain ⟨cx, vx, ex⟩ := hf x hx
    obtain ⟨cy, vy, ey⟩ := hf y hy
    rw [ex, ey] at hle
    refine ⟨cy.epochMinutes, cx.epochMinutes, ?_, ?_, ?_⟩
    · rw [ey]; exact fromFormatTokyo_toFormat cy vy
    · rw [ex]; exact fromFormatTokyo_toFormat cx vx
    · exact (toFormat_le_iff_epochMinutes cy cx vy vx).1 hle
  refine ⟨hlt, toFormat_lt_iff a b ha hb, toFormat_le_iff_epochMinutes a b ha hb, ?_,
    fromFormatTokyo_toFormat a ha, ?_, ?_⟩
  · constructor
    · intro h
      have h1 := fromFormatTokyo_toFormat a ha
      have h2 := fromFormatTokyo_toFormat b hb
      rw [h, h2] at h1
      exact (Option.some.inj h1).symm
    · intro h
      rcases before_trichotomy a b with h1 | h1 | h1
      · exact absurd h (ne_of_lt (before_epochMinutes a b ha hb h1))
      · rw [h1]
      · exact absurd h.symm (ne_of_lt (before_epochMinutes b a hb ha h1))
  · intro db userId guildId x hf hx y hy hu hg
    obtain ⟨hxm, _, _, hmax⟩ := getUserStatus_mem db userId guildId x hx
    exact hkey db x y hf hxm hy (hmax y hy hu hg)
  · intro db userId guildId recordType x hf hx y hy hu hg ht
    obtain ⟨hxm, _, _, _, hmax⟩ := getLastRecord_mem db userId guildId recordType x hx
    exact hkey db x y hf hxm hy (hmax y hy hu hg ht)

/-- C15 at a concrete input: 2024-01-01 23:00 and 2024-01-02 07:00 are printed as
these texts, and the first text is less than the second. -/
theorem C15_format_order_witness :
    getJapanTime { year := 2024, month := 1, day := 1, hour := 23, minute := 0 }
      = "2024-01-01 23:00" ∧
    getJapanTime { year := 2024, month := 1, day := 2, hour := 7, minute := 0 }
      = "2024-01-02 07:00" ∧
    textLT (getJapanTime { year := 2024, month := 1, day := 1, hour := 23, minute := 0 })
      (getJapanTime { year := 2024, month := 1, day := 2, hour := 7, minute := 0 }) :=
  ⟨by decide, by decide,
   (C15_format_order_is_chronological
      { year := 2024, month := 1, day := 1, hour := 23, minute := 0 }
      { year := 2024, month := 1, day := 2, hour := 7, minute := 0 }
      (by decide) (by decide)).1.2 (by decide)⟩

/-- C25: whenever `getAverageSleepDuration` or `getAverageAwakeTime` returns a value
other than `null`, the value is at least 1 minute (timestamps are read as whole
minutes, so every counted session has at least one minute); hence the truthiness test
of the callers is true exactly when the result is not `null`. The same holds for the
result of `getServerAverageSleepTime`, which the callers test in the same way. -/
theorem C25_present_average_at_least_one (fromFormat : String → DateTime)
    (rows : List SleepRecord) (db : Store) (guildId : String) :
    (∀ q : ℚ, getAverageSleepDuration fromFormat rows = some q → 1 ≤ q) ∧
    (∀ q : ℚ, getAverageAwakeTime fromFormat rows = some q → 1 ≤ q) ∧
    (∀ q : ℚ, getServerAverageSleepTime fromFormat db guildId = some q → 1 ≤ q) ∧
    (truthy (getAverageSleepDuration fromFormat rows) = true
      ↔ getAverageSleepDuration fromFormat rows ≠ none) ∧
    (truthy (getAverageAwakeTime fromFormat rows) = true
      ↔ getAverageAwakeTime fromFormat rows ≠ none) ∧
    (truthy (getServerAverageSleepTime fromFormat db guildId) = true
      ↔ getServerAverageSleepTime fromFormat db guildId ≠ none) := by
  have h1 : ∀ q : ℚ, getAverageSleepDuration fromFormat rows = some q → 1 ≤ q :=
    fun q h => average_ge_one fromFormat rows q h
  have h2 : ∀ q : ℚ, getAverageAwakeTime fromFormat rows = some q → 1 ≤ q := by
    intro q h
    rw [awake_eq_sleep_swap] at h
    exact average_ge_one fromFormat _ q h
  have h3 : ∀ q : ℚ, getServerAverageSleepTime fromFormat db guildId = some q → 1 ≤ q := by
    intro q h
    rw [server_eq_mean] at h
    unfold arithmeticMean at h
    by_cases hl : (presentAverages fromFormat db guildId).length = 0
    · simp [hl] at h
    · simp only [hl, if_false, Option.some.injEq] at h
      rw [← h]
      have hpos : (0 : ℚ) < ((presentAverages fromFormat db guildId).length : ℚ) := by
        exact_mod_cast Nat.pos_of_ne_zero hl
      rw [one_le_div hpos]
      apply sum_ge_length
      intro x hx
      unfold presentAverages at hx
      rw [List.mem_filterMap] at hx
      obtain ⟨u, _, hu⟩ := hx
      exact average_ge_one fromFormat _ x hu
  have ht : ∀ v : Option ℚ, (∀ q : ℚ, v = some q → 1 ≤ q) →
      (truthy v = true ↔ v ≠ none) := by
    intro v hv
    cases v with
    | none => simp [truthy]
    | some q =>
      have hq : q ≠ 0 := by
        have := hv q rfl
        intro e
        rw [e] at this
        norm_num at this
      simp [truthy, hq]
  exact ⟨h1, h2, h3, ht _ h1, ht _ h2, ht _ h3⟩

/-- C25 at a concrete input: the average of the 480-minute scenario is not `null`,
so the truthiness test of the callers is true on it. -/
theorem C25_average_witness :
    truthy (getAverageSleepDuration fromFormatTokyo
      [sleepAt "2024-01-01 23:00", wakeupAt "2024-01-02 07:00"]) = true :=
  (C25_present_average_at_least_one fromFormatTokyo
      [sleepAt "2024-01-01 23:00", wakeupAt "2024-01-02 07:00"] [] "G").2.2.2.1.2
    (by
      have h : getAverageSleepDuration_fold fromFormatTokyo
          [sleepAt "2024-01-01 23:00", wakeupAt "2024-01-02 07:00"] = ⟨480, 1, none⟩ := by
        decide
      unfold getAverageSleepDuration
      rw [h]
      simp)

/-- C29: the entry of a user `u` in the result of `calculateWeeklySleepStats`, and so
the user's `totalSleepMinutes`, is the entry computed from the sublist of the records
of `u` alone: it does not depend on the records of other users nor on how they are
interleaved with the records of `u`. -/
theorem C29_user_total_independent_of_others (fromFormat : String → DateTime)
    (sleepData : List SleepRecord) (u : String) :
    (calculateWeeklySleepStats fromFormat sleepData).get u
      = (calculateWeeklySleepStats fromFormat
          (sleepData.filter (fun r => r.user_id = u))).get u ∧
    weeklyTotal (calculateWeeklySleepStats fromFormat sleepData) u
      = weeklyTotal (calculateWeeklySleepStats fromFormat
          (sleepData.filter (fun r => r.user_id = u))) u ∧
    (∀ other : List SleepRecord,
      other.filter (fun r => r.user_id = u) = sleepData.filter (fun r => r.user_id = u) →
      (calculateWeeklySleepStats fromFormat other).get u
        = (calculateWeeklySleepStats fromFormat sleepData).get u) := by
  refine ⟨?_, ?_, ?_⟩
  · rw [weekly_get, weekly_get, filter_user_idem]
  · rw [weeklyTotal_eq, weeklyTotal_eq, filter_user_idem]
  · intro other h
    rw [weekly_get, weekly_get, h]

/-- C29 at a concrete input: in the interleaved rows of `V`, `W` and `U`, the entry
of `V` is the one computed from the two rows of `V` alone, 480 minutes. -/
theorem C29_independence_witness :
    (calculateWeeklySleepStats fromFormatTokyo tieRows).get "V"
      = (calculateWeeklySleepStats fromFormatTokyo
          [mkRecord "V" "🌙" "2024-01-01 23:00" "sleep",
           mkRecord "V" "☀️" "2024-01-02 07:00" "wakeup"]).get "V" :=
  (C29_user_total_independent_of_others fromFormatTokyo
      [mkRecord "V" "🌙" "2024-01-01 23:00" "sleep",
       mkRecord "V" "☀️" "2024-01-02 07:00" "wakeup"] "V").2.2 tieRows (by decide)

/-- C27: in `calculateWeeklySleepStats` a `wakeup` record that meets no marker of its
user (the user has no entry yet, or the marker of the entry is `null`) adds 0 minutes:
every weekly total is as before. So a `wakeup` record of a user `u` that no `sleep`
record of `u` precedes in the input, as the end of a session that began before the
window, can be removed without changing the weekly total of `u`; when `u` has other
records the whole entry is the same. The same holds for a `wakeup` record of `u` that
follows another `wakeup` record of `u` with no `sleep` record of `u` in between. -/
theorem C27_leading_wakeup_adds_nothing (fromFormat : String → DateTime) (u : String)
    (pre post : List SleepRecord) (w : SleepRecord)
    (hw : w.record_type = "wakeup") (hu : w.user_id = u) :
    (∀ userSleepStats : UserSleepStats,
      (∀ st, userSleepStats.get u = some st → st.sleepStart = none) →
      ∀ v : String,
        weeklyTotal (calculateWeeklySleepStats_forEach fromFormat userSleepStats w) v
          = weeklyTotal userSleepStats v) ∧
    ((∀ r ∈ pre, r.user_id = u → r.record_type ≠ "sleep") →
      weeklyTotal (calculateWeeklySleepStats fromFormat (pre ++ w :: post)) u
        = weeklyTotal (calculateWeeklySleepStats fromFormat (pre ++ post)) u ∧
      ((∃ r ∈ pre ++ post, r.user_id = u) →
        (calculateWeeklySleepStats fromFormat (pre ++ w :: post)).get u
          = (calculateWeeklySleepStats fromFormat (pre ++ post)).get u)) ∧
    (∀ (before mid : List SleepRecord) (w1 : SleepRecord),
      pre = before ++ w1 :: mid → w1.record_type = "wakeup" → w1.user_id = u →
      (∀ r ∈ mid, r.user_id = u → r.record_type ≠ "sleep") →
      weeklyTotal (calculateWeeklySleepStats fromFormat (pre ++ w :: post)) u
        = weeklyTotal (calculateWeeklySleepStats fromFormat (pre ++ post)) u) := by
  have hfw : List.filter (fun r => decide (r.user_id = u)) (w :: post)
      = w :: List.filter (fun r => decide (r.user_id = u)) post := by
    simp [hu]
  have hkey : (getAverageSleepDuration_fold fromFormat
        (pre.filter (fun r => r.user_id = u))).sleepStart = none →
      getAverageSleepDuration_fold fromFormat
          ((pre ++ w :: post).filter (fun r => r.user_id = u))
        = getAverageSleepDuration_fold fromFormat
          ((pre ++ post).filter (fun r => r.user_id = u)) := by
    intro hm
    rw [List.filter_append, List.filter_append, hfw]
    exact sleep_fold_remove_wakeup fromFormat _ _ w hw hm
  refine ⟨?_, ?_, ?_⟩
  · intro stats hst v
    unfold weeklyTotal
    rw [get_weekly_forEach]
    by_cases hv : w.user_id = v
    · have huv : u = v := hu ▸ hv
      subst huv
      simp only [hv, if_true]
      cases hg : UserSleepStats.get stats u with
      | none =>
        simp only [Option.getD_none]
        rw [show entryUpdate fromFormat w { totalSleepMinutes := 0, sleepStart := none }
          = { totalSleepMinutes := 0, sleepStart := none } by
            simp [entryUpdate, hw, wakeupUpdate]]
      | some st =>
        have hnone := hst st hg
        simp only [Option.getD_some]
        rw [show entryUpdate fromFormat w st = st by
          simp [entryUpdate, hw, wakeupUpdate_null fromFormat w st hnone]]
    · simp only [hv, if_false]
  · intro hpre
    have hm : (getAverageSleepDuration_fold fromFormat
        (pre.filter (fun r => r.user_id = u))).sleepStart = none := by
      unfold getAverageSleepDuration_fold
      rw [sleep_foldl_no_sleep fromFormat _ _ _ rfl]
      intro r hr
      rw [List.mem_filter] at hr
      exact hpre r hr.1 (by simpa using hr.2)
    refine ⟨?_, ?_⟩
    · rw [weeklyTotal_eq, weeklyTotal_eq, hkey hm]
    · rintro ⟨r, hr, hru⟩
      rw [weekly_get, weekly_get, hkey hm]
      have h1 : (pre ++ w :: post).filter (fun r => r.user_id = u) ≠ [] := by
        rw [List.filter_append, hfw]
        simp
      have h2 : (pre ++ post).filter (fun r => r.user_id = u) ≠ [] := by
        intro e
        rw [List.filter_eq_nil_iff] at e
        exact e r hr (by simpa using hru)
      simp only [h1, h2, if_false]
  · intro before mid w1 hp hw1 hu1 hmid
    have hm : (getAverageSleepDuration_fold fromFormat
        (pre.filter (fun r => r.user_id = u))).sleepStart = none := by
      rw [hp, List.filter_append]
      have hf1 : List.filter (fun r => decide (r.user_id = u)) (w1 :: mid)
          = w1 :: List.filter (fun r => decide (r.user_id = u)) mid := by
        simp [hu1]
      rw [hf1]
      unfold getAverageSleepDuration_fold
      rw [List.foldl_append, List.foldl_cons]
      have hstart := sleep_forEach_wakeup_start fromFormat
        (List.foldl (getAverageSleepDuration_forEach fromFormat) ⟨0, 0, none⟩
          (List.filter (fun r => decide (r.user_id = u)) before)) w1 hw1
      rw [sleep_foldl_no_sleep fromFormat _ _ _ hstart]
      · exact hstart
      · intro r hr
        rw [List.mem_filter] at hr
        exact hmid r hr.1 (by simpa using hr.2)
    rw [weeklyTotal_eq, weeklyTotal_eq, hkey hm]

/-- C27 at a concrete input: user `U` wakes up at 07:00 (from a session that began
before the window), then sleeps 480 minutes; with or without the leading `wakeup`
record the weekly total of `U` is 480. -/
theorem C27_leading_wakeup_witness :
    weeklyTotal (calculateWeeklySleepStats fromFormatTokyo
        ([] ++ wakeupAt "2024-01-01 07:00"
          :: [sleepAt "2024-01-01 23:00", wakeupAt "2024-01-02 07:00"])) "U"
      = weeklyTotal (calculateWeeklySleepStats fromFormatTokyo
        ([] ++ [sleepAt "2024-01-01 23:00", wakeupAt "2024-01-02 07:00"])) "U" ∧
    weeklyTotal (calculateWeeklySleepStats fromFormatTokyo
        [sleepAt "2024-01-01 23:00", wakeupAt "2024-01-02 07:00"]) "U" = 480 :=
  ⟨((C27_leading_wakeup_adds_nothing fromFormatTokyo "U" []
      [sleepAt "2024-01-01 23:00", wakeupAt "2024-01-02 07:00"]
      (wakeupAt "2024-01-01 07:00") (by decide) (by decide)).2.1 (by decide)).1,
   by decide⟩

/-- C28: the keys of the object returned by `calculateWeeklySleepStats` are exactly
the user ids of the input records, each once. A user of the input without a closed
session has an entry with `totalSleepMinutes = 0`, which takes part in the ranking: it
is in the sorted list, and in the displayed list when there are at most 10 users.
Hence `generateStatsEmbed` produces the text `'No sleep data for this week.'` exactly
when the input has no records. -/
theorem C28_keys_are_input_users (fromFormat : String → DateTime)
    (sleepData : List SleepRecord) :
    (∀ u : String, u ∈ (calculateWeeklySleepStats fromFormat sleepData).map Prod.fst
      ↔ u ∈ sleepData.map SleepRecord.user_id) ∧
    ((calculateWeeklySleepStats fromFormat sleepData).map Prod.fst).Nodup ∧
    (∀ u ∈ sleepData.map SleepRecord.user_id,
      (getAverageSleepDuration_fold fromFormat
        (sleepData.filter (fun r => r.user_id = u))).sleepSessions = 0 →
      ∃ st : UserSleepStat,
        (calculateWeeklySleepStats fromFormat sleepData).get u = some st ∧
        st.totalSleepMinutes = 0 ∧
        (u, st) ∈ sortEntries (calculateWeeklySleepStats fromFormat sleepData) ∧
        ((calculateWeeklySleepStats fromFormat sleepData).length ≤ 10 →
          (u, st) ∈ generateStatsEmbed_sortedUsers fromFormat sleepData)) ∧
    (generateStatsEmbed fromFormat sleepData = StatsDescription.noSleepData
      ↔ sleepData = []) := by
  obtain ⟨hnd, hmem, _⟩ := keys_weekly fromFormat sleepData
  refine ⟨hmem, hnd, ?_, ?_⟩
  · intro u hu hz
    have hne : sleepData.filter (fun r => r.user_id = u) ≠ [] := by
      rw [List.mem_map] at hu
      obtain ⟨r, hr, hru⟩ := hu
      intro e
      rw [List.filter_eq_nil_iff] at e
      exact e r hr (by simpa using hru)
    have hg := weekly_get fromFormat sleepData u
    simp only [hne, if_false] at hg
    refine ⟨_, hg, (sleep_fold_total_bounds fromFormat _).2 hz, ?_, ?_⟩
    · exact (sortEntries_perm _).symm.subset (get_some_mem u _ _ hg)
    · intro hlen
      unfold generateStatsEmbed_sortedUsers sortedUsers
      have hl : (sortEntries (calculateWeeklySleepStats fromFormat sleepData)).length ≤ 10 := by
        unfold sortEntries
        rw [List.length_insertionSort]
        exact hlen
      rw [List.take_of_length_le hl]
      exact (sortEntries_perm _).symm.subset (get_some_mem u _ _ hg)
  · unfold generateStatsEmbed
    rw [statsDescription_noSleepData]
    constructor
    · intro h
      cases hs : sleepData with
      | nil => rfl
      | cons r rest =>
        have hin : r.user_id ∈ sleepData.map SleepRecord.user_id := by
          rw [hs]; simp
        have := (hmem r.user_id).2 hin
        rw [h] at this
        simp at this
    · intro h
      rw [h]
      rfl

/-- C28 at a concrete input: user `X`, who has only an open `sleep` record, has a
weekly entry with 0 minutes and is listed in the ranking of the three users of the
scenario store. -/
theorem C28_zero_total_user_witness :
    ∃ st : UserSleepStat,
      (calculateWeeklySleepStats fromFormatTokyo scenarioStore).get "X" = some st ∧
      st.totalSleepMinutes = 0 ∧
      ("X", st) ∈ sortEntries (calculateWeeklySleepStats fromFormatTokyo scenarioStore) ∧
      ((calculateWeeklySleepStats fromFormatTokyo scenarioStore).length ≤ 10 →
        ("X", st) ∈ generateStatsEmbed_sortedUsers fromFormatTokyo scenarioStore) :=
  (C28_keys_are_input_users fromFormatTokyo scenarioStore).2.2.1 "X" (by decide) (by decide)

/-- C21: a press of `reset_status` by a user, in a state where a stored press time
is not the number 0 (`Date.now()` is the count of milliseconds since 1970). If the map
`resetConfirmationPending` holds a press time `t` for the user with `now - t` less than
`RESET_CONFIRMATION_TIMEOUT_MS`, which is 30000, the press runs the delete of the rows
of the user in the guild, so that no such row is left, and removes the pending entry.
Otherwise the press leaves the table as it is and stores `now` as the pending press
time of the user. In both cases the pending entries of other users and the set
`remindedUsers` are as before. -/
theorem C21_reset_button_two_step (s : AppState) (userId guildId time : String) (now : Int)
    (hnz : ∀ t, s.resetConfirmationPending.get userId = some t → t ≠ 0) :
    ((∃ t, s.resetConfirmationPending.get userId = some t
        ∧ now - t < RESET_CONFIRMATION_TIMEOUT_MS) →
      (interactionCreate_button s "reset_status" userId guildId time now).db
        = clearUserSleepRecords s.db userId guildId ∧
      (∀ r ∈ (interactionCreate_button s "reset_status" userId guildId time now).db,
        ¬ (r.user_id = userId ∧ r.guild_id = guildId)) ∧
      (interactionCreate_button s "reset_status" userId guildId time
        now).resetConfirmationPending.get userId = none) ∧
    (¬ (∃ t, s.resetConfirmationPending.get userId = some t
        ∧ now - t < RESET_CONFIRMATION_TIMEOUT_MS) →
      (interactionCreate_button s "reset_status" userId guildId time now).db = s.db ∧
      (interactionCreate_button s "reset_status" userId guildId time
        now).resetConfirmationPending.get userId = some now) ∧
    (∀ v : String, v ≠ userId →
      (interactionCreate_button s "reset_status" userId guildId time
        now).resetConfirmationPending.get v = s.resetConfirmationPending.get v) ∧
    (interactionCreate_button s "reset_status" userId guildId time now).remindedUsers
      = s.remindedUsers ∧
    RESET_CONFIRMATION_TIMEOUT_MS = 30000 := by
  by_cases hc : ∃ t, s.resetConfirmationPending.get userId = some t
      ∧ now - t < RESET_CONFIRMATION_TIMEOUT_MS
  · obtain ⟨t, hg, hlt⟩ := hc
    rw [reset_button_confirm s userId guildId time now t hg (hnz t hg) hlt]
    refine ⟨fun _ => ⟨rfl, ?_, pending_get_delete_self _ _⟩,
      fun hn => absurd ⟨t, hg, hlt⟩ hn,
      fun v hv => pending_get_delete_other _ _ _ hv, rfl, rfl⟩
    intro r hr
    exact ((mem_clearUserSleepRecords s.db userId guildId r).1 hr).2
  · have hfirst : ∀ t, s.resetConfirmationPending.get userId = some t →
        ¬ (t ≠ 0 ∧ now - t < RESET_CONFIRMATION_TIMEOUT_MS) :=
      fun t hg h => hc ⟨t, hg, h.2⟩
    rw [reset_button_first s userId guildId time now hfirst]
    exact ⟨fun h => absurd h hc, fun _ => ⟨rfl, pending_get_set_self _ _ _⟩,
      fun v hv => pending_get_set_other _ _ _ _ hv, rfl, rfl⟩

/-- C21 at a concrete input: user `V` pressed at 1000 ms and presses again at 20000
ms; the second press deletes the rows of `V` in the guild and removes the pending
entry. -/
theorem C21_reset_button_witness :
    (interactionCreate_button
        { db := scenarioStore, resetConfirmationPending := [("V", 1000)], remindedUsers := [] }
        "reset_status" "V" "G" "2024-01-03 08:00" 20000).db
      = clearUserSleepRecords scenarioStore "V" "G" ∧
    (interactionCreate_button
        { db := scenarioStore, resetConfirmationPending := [("V", 1000)], remindedUsers := [] }
        "reset_status" "V" "G" "2024-01-03 08:00" 20000).resetConfirmationPending.get "V"
      = none :=
  ⟨((C21_reset_button_two_step
      { db := scenarioStore, resetConfirmationPending := [("V", 1000)], remindedUsers := [] }
      "V" "G" "2024-01-03 08:00" 20000
      (fun t ht => by
        have h : t = 1000 := (Option.some.inj ht).symm
        rw [h]
        decide)).1 ⟨1000, rfl, by decide⟩).1,
   ((C21_reset_button_two_step
      { db := scenarioStore, resetConfirmationPending := [("V", 1000)], remindedUsers := [] }
      "V" "G" "2024-01-03 08:00" 20000
      (fun t ht => by
        have h : t = 1000 := (Option.some.inj ht).symm
        rw [h]
        decide)).1 ⟨1000, rfl, by decide⟩).2.2⟩

/-- C22, the claim as stated fails: user `V` has four events in guild `G` of the
scenario store and no pending confirmation; one reaction `🌀` of `V` in the tracker
channel deletes them all. -/
theorem C22_counterexample_reset_reaction :
    Pending.get
      (AppState.mk scenarioStore [] []).resetConfirmationPending "V" = none ∧
    (selectUserRows scenarioStore "V" "G").length = 4 ∧
    mkRecord "V" "🌙" "2024-01-01 13:00" "sleep" ∈ scenarioStore ∧
    mkRecord "V" "🌙" "2024-01-01 13:00" "sleep" ∉
      (messageReactionAdd (AppState.mk scenarioStore [] []) false trackerChannel "V" "G" "🌀"
        "2024-01-03 08:00").db ∧
    selectUserRows
      (messageReactionAdd (AppState.mk scenarioStore [] []) false trackerChannel "V" "G" "🌀"
        "2024-01-03 08:00").db "V" "G" = [] := by
  decide

/-- C22, amended: rows are deleted only by the reset operations, the button
`reset_status`, the reaction `🌀` and the command `clear`: every other event of the
program keeps each row or replaces it by a row with the same primary key. Of the two
self-service paths, the button has the confirmation step: a single press without a
pending confirmation deletes nothing. The reaction `🌀` in the tracker channel has
none: it runs the delete at once, whatever the map `resetConfirmationPending` holds,
so that no row of the user in the guild is left. -/
theorem C22_reset_reaction_deletes_at_once :
    (∀ (fromFormat : String → DateTime) (s : AppState) (a : Action), a.isReset = false →
      ∀ r ∈ s.db, ∃ x ∈ (AppState.step fromFormat s a).db, primaryKey x = primaryKey r) ∧
    (∀ (s : AppState) (userId guildId time : String) (now : Int),
      s.resetConfirmationPending.get userId = none →
      (interactionCreate_button s "reset_status" userId guildId time now).db = s.db) ∧
    (∀ (s : AppState) (userId guildId time : String),
      (messageReactionAdd s false trackerChannel userId guildId "🌀" time).db
        = clearUserSleepRecords s.db userId guildId ∧
      ∀ r ∈ (messageReactionAdd s false trackerChannel userId guildId "🌀" time).db,
        ¬ (r.user_id = userId ∧ r.guild_id = guildId)) := by
  refine ⟨?_, ?_, ?_⟩
  · intro ff s a ha r hr
    rcases step_not_reset ff s a ha with h | ⟨u, g, st, t, rt, h⟩
    · rw [h]
      exact ⟨r, hr, rfl⟩
    · rw [h]
      exact updateUserStatus_keeps_key s.db u g st t rt r hr
  · intro s userId guildId time now h
    rw [reset_button_first s userId guildId time now (fun t ht => by rw [h] at ht; cases ht)]
  · intro s userId guildId time
    have h1 : ¬ (("🌀" : String) = "☀️") := by decide
    have h2 : ¬ (("🌀" : String) = "🌙") := by decide
    have e : (messageReactionAdd s false trackerChannel userId guildId "🌀" time).db
        = clearUserSleepRecords s.db userId guildId := by
      simp [messageReactionAdd, trackerChannel, h1, h2]
    refine ⟨e, ?_⟩
    intro r hr
    rw [e] at hr
    exact ((mem_clearUserSleepRecords s.db userId guildId r).1 hr).2

/-- C22 at a concrete input: with an empty pending map, one press of `reset_status`
by user `V` leaves the scenario store as it is. -/
theorem C22_reset_button_witness :
    (interactionCreate_button
        { db := scenarioStore, resetConfirmationPending := [], remindedUsers := [] }
        "reset_status" "V" "G" "2024-01-03 08:00" 20000).db = scenarioStore :=
  C22_reset_reaction_deletes_at_once.2.1
    { db := scenarioStore, resetConfirmationPending := [], remindedUsers := [] }
    "V" "G" "2024-01-03 08:00" 20000 rfl

/-- C23: the reminder of `updateStatusMessage`, each call taken as one step that is
complete before the next call starts. A call delivers a reminder only if the status
passed has the Awake symbol (for the poll: the latest status of the member), a last
`wakeup` record exists, its timestamp is a valid time, at least 720 minutes lie between
it and now, the member id is not in `remindedUsers` and `member.send` succeeds; the id
is then added to the set. Over a sequence of calls, on any tables, no id is delivered
twice, an id that is in the set is never delivered, and the set never loses an id,
neither by the calls nor by any other operation of the program. -/
theorem C23_reminder_at_most_once (fromFormat : String → DateTime) :
    (∀ (db : Store) (remindedUsers : List String) (memberId guildId : String)
        (status : Option SleepRecord) (nowMs : Int) (sendSucceeds : Bool),
      (updateStatusMessage fromFormat db remindedUsers memberId guildId status nowMs
        sendSucceeds).2 = true →
      (∃ st lw w, status = some st ∧ st.status = "☀️" ∧
        getLastRecord db memberId guildId "wakeup" = some lw ∧
        fromFormat lw.timestamp = some w ∧
        720 * 60000 ≤ nowMs - w * 60000 ∧ memberId ∉ remindedUsers ∧ sendSucceeds = true) ∧
      (updateStatusMessage fromFormat db remindedUsers memberId guildId status nowMs
        sendSucceeds).1 = remindedUsers ++ [memberId]) ∧
    (∀ (db : Store) (remindedUsers : List String) (memberId guildId : String)
        (hasPresence : Bool) (nowMs : Int) (sendSucceeds : Bool),
      (reminderPoll fromFormat db remindedUsers memberId guildId hasPresence nowMs
        sendSucceeds).2 = true →
      ∃ st, getUserStatus db memberId guildId = some st ∧ st.status = "☀️") ∧
    (∀ (remindedUsers : List String) (calls : List PollCall),
      (runPolls fromFormat remindedUsers calls).2.Nodup ∧
      (∀ u : String, (runPolls fromFormat remindedUsers calls).2.count u ≤ 1) ∧
      (∀ u ∈ remindedUsers, u ∉ (runPolls fromFormat remindedUsers calls).2
        ∧ u ∈ (runPolls fromFormat remindedUsers calls).1) ∧
      (∀ u ∈ (runPolls fromFormat remindedUsers calls).2,
        u ∈ (runPolls fromFormat remindedUsers calls).1)) ∧
    (∀ (actions more : List Action),
      ∀ u ∈ (AppState.run fromFormat actions).remindedUsers,
        u ∈ (AppState.run fromFormat (actions ++ more)).remindedUsers) := by
  refine ⟨?_, ?_, ?_, ?_⟩
  · intro db ru m g status now ok h
    refine ⟨updateStatusMessage_delivered fromFormat db ru m g status now ok h, ?_⟩
    rw [updateStatusMessage_fst, h]
    rfl
  · intro db ru m g p now ok h
    unfold reminderPoll at h
    cases hs : getUserStatus db m g with
    | none => simp [hs] at h
    | some st =>
      simp only [hs] at h
      cases p with
      | false => simp at h
      | true =>
        simp only [if_true] at h
        obtain ⟨st2, _, _, e, hsun, _⟩ :=
          updateStatusMessage_delivered fromFormat db ru m g (some st) now ok h
        rw [Option.some.injEq] at e
        exact ⟨st, rfl, by rw [e]; exact hsun⟩
  · intro ru calls
    obtain ⟨h1, h2, h3⟩ := runPolls_spec fromFormat calls ru
    refine ⟨h3, fun u => List.nodup_iff_count_le_one.1 h3 u, ?_, fun u hu => (h2 u hu).2⟩
    intro u hu
    exact ⟨fun hin => (h2 u hin).1 hu, h1 u hu⟩
  · intro actions more u hu
    unfold AppState.run at hu ⊢
    rw [List.foldl_append]
    exact foldl_remindedUsers fromFormat more _ u hu

/-- C23 at a concrete input: user `U` woke up at 07:00 and is polled 720 minutes
later, so the reminder is delivered; polled again 720 minutes after the next wakeup,
`U` gets no second reminder. -/
theorem C23_reminder_witness :
    ((∃ st lw w, some (wakeupAt "2024-01-01 07:00") = some st ∧ st.status = "☀️" ∧
        getLastRecord [wakeupAt "2024-01-01 07:00"] "U" "G" "wakeup" = some lw ∧
        fromFormatTokyo lw.timestamp = some w ∧
        720 * 60000 ≤ 1704103200000 - w * 60000 ∧ "U" ∉ ([] : List String) ∧ true = true) ∧
      (updateStatusMessage fromFormatTokyo [wakeupAt "2024-01-01 07:00"] [] "U" "G"
        (some (wakeupAt "2024-01-01 07:00")) 1704103200000 true).1 = [] ++ ["U"]) ∧
    runPolls fromFormatTokyo []
      [{ db := [wakeupAt "2024-01-01 07:00"], memberId := "U", guildId := "G",
         status := some (wakeupAt "2024-01-01 07:00"), nowMs := 1704103200000,
         sendSucceeds := true },
       { db := [wakeupAt "2024-01-01 07:00", sleepAt "2024-01-01 23:00",
                wakeupAt "2024-01-02 07:00"],
         memberId := "U", guildId := "G",
         status := some (wakeupAt "2024-01-02 07:00"), nowMs := 1704189600000,
         sendSucceeds := true }] = (["U"], ["U"]) :=
  ⟨(C23_reminder_at_most_once fromFormatTokyo).1 [wakeupAt "2024-01-01 07:00"] [] "U" "G"
      (some (wakeupAt "2024-01-01 07:00")) 1704103200000 true (by decide),
   by decide⟩

/-- C24: `generateStatsEmbed` of `src/jpindex.js` against that of `src/engindex.js`, on
every weekly stats map. Both show the no-data text on the same maps, and list the same
users in the same order with the same rank and the same hours number. The minutes
number differs: `src/engindex.js` shows the remainder of `totalSleepMinutes` by 60,
`src/jpindex.js` computes it from the property `totalMinutes`, which no entry has, so
every line of it shows `NaN`. The two descriptions differ on every map that is not
empty: on the totals 600, 900 and 300 the minutes are 0 in one variant and `NaN` in the
other. -/
theorem C24_jp_minutes_not_a_number (sleepStats : UserSleepStats) :
    (statsDescription_jp sleepStats = StatsDescription.noSleepData
      ↔ statsDescription sleepStats = StatsDescription.noSleepData) ∧
    (rankingLines_jp 0 (sortedUsers sleepStats)).map
        (fun x => (x.rank, x.userId, x.totalHours))
      = (rankingLines 0 (sortedUsers sleepStats)).map
        (fun x => (x.rank, x.userId, x.totalHours)) ∧
    (∀ x ∈ rankingLines 0 (sortedUsers sleepStats),
      ∃ e ∈ sortedUsers sleepStats, x.userId = e.1 ∧
        x.totalHours = some (e.2.totalSleepMinutes / 60) ∧
        x.totalMinutes = some (Int.tmod e.2.totalSleepMinutes 60)) ∧
    (∀ x ∈ rankingLines_jp 0 (sortedUsers sleepStats), x.totalMinutes = none) ∧
    (sleepStats ≠ [] → statsDescription_jp sleepStats ≠ statsDescription sleepStats) ∧
    statsDescription [("user1", ⟨600, none⟩), ("user2", ⟨900, none⟩), ("user3", ⟨300, none⟩)]
      = StatsDescription.lines
          [⟨1, "user2", some 15, some 0⟩, ⟨2, "user1", some 10, some 0⟩,
           ⟨3, "user3", some 5, some 0⟩] ∧
    statsDescription_jp
        [("user1", ⟨600, none⟩), ("user2", ⟨900, none⟩), ("user3", ⟨300, none⟩)]
      = StatsDescription.lines
          [⟨1, "user2", some 15, none⟩, ⟨2, "user1", some 10, none⟩,
           ⟨3, "user3", some 5, none⟩] := by
  refine ⟨?_, rankingLines_jp_keys _ 0, rankingLines_minutes _ 0, rankingLines_jp_minutes _ 0,
    ?_, by decide, by decide⟩
  · unfold statsDescription_jp statsDescription
    by_cases h : (sortedUsers sleepStats).length = 0
    · simp [h]
    · simp [h]
  · intro hne heq
    have hlen : ¬ ((sortedUsers sleepStats).length = 0) := by
      rw [sortedUsers_length]
      cases sleepStats with
      | nil => exact absurd rfl hne
      | cons e rest =>
        simp only [List.length_cons]
        omega
    unfold statsDescription_jp statsDescription at heq
    rw [if_neg hlen, if_neg hlen] at heq
    injection heq with heq
    cases hl : sortedUsers sleepStats with
    | nil => exact hlen (by rw [hl]; rfl)
    | cons e rest =>
      rw [hl] at heq
      obtain ⟨k, v⟩ := e
      simp [rankingLines, rankingLines_jp] at heq

/-- C24 at a concrete input: on the map with the single total 600 the description of
`src/jpindex.js` is not the one of `src/engindex.js`. -/
theorem C24_jp_minutes_witness :
    statsDescription_jp [("user1", ⟨600, none⟩)] ≠ statsDescription [("user1", ⟨600, none⟩)] :=
  (C24_jp_minutes_not_a_number [("user1", ⟨600, none⟩)]).2.2.2.2.1 (by decide)

/-- C26: every operation of the program leaves the table as it is, runs a delete, or
runs `updateUserStatus` with the Awake symbol and `'wakeup'` or with the Asleep symbol
and `'sleep'` (buttons, reactions, and `setstatus` after its validation). So in every
table that the operations build from the empty table, a row has the Awake symbol if
and only if its `record_type` is `'wakeup'`, and the Asleep symbol if and only if its
`record_type` is `'sleep'`. -/
theorem C26_status_matches_record_type (fromFormat : String → DateTime) :
    (∀ (s : AppState) (a : Action),
      (AppState.step fromFormat s a).db = s.db ∨
      (∃ u g, (AppState.step fromFormat s a).db = clearUserSleepRecords s.db u g) ∨
      (∃ u g t, (AppState.step fromFormat s a).db
        = updateUserStatus s.db u g "☀️" t "wakeup") ∨
      (∃ u g t, (AppState.step fromFormat s a).db
        = updateUserStatus s.db u g "🌙" t "sleep")) ∧
    (∀ (actions : List Action), ∀ r ∈ (AppState.run fromFormat actions).db,
      (r.status = "☀️" ↔ r.record_type = "wakeup") ∧
      (r.status = "🌙" ↔ r.record_type = "sleep") ∧
      (r.status = "☀️" ∨ r.status = "🌙")) := by
  refine ⟨step_db_cases fromFormat, ?_⟩
  intro actions r hr
  have hws : ¬ (("wakeup" : String) = "sleep") := by decide
  have hsw : ¬ (("sleep" : String) = "wakeup") := by decide
  have hms : ¬ (("🌙" : String) = "☀️") := fun e => sun_ne_moon e.symm
  have h := typed_foldl fromFormat actions AppState.init
    (fun r hr => by simp [AppState.init] at hr) r hr
  rcases h with ⟨h1, h2⟩ | ⟨h1, h2⟩
  · rw [h1, h2]
    exact ⟨⟨fun _ => rfl, fun _ => rfl⟩,
      ⟨fun e => absurd e sun_ne_moon, fun e => absurd e hws⟩, Or.inl rfl⟩
  · rw [h1, h2]
    exact ⟨⟨fun e => absurd e hms, fun e => absurd e hsw⟩,
      ⟨fun _ => rfl, fun _ => rfl⟩, Or.inr rfl⟩

/-- C26 at a concrete input: after a press of the wake-up button and a sleep reaction
of user `U`, the row of the reaction has the Asleep symbol and the type `'sleep'`. -/
theorem C26_status_matches_witness :
    ((mkRecord "U" "🌙" "2024-01-01 23:00" "sleep").status = "☀️"
        ↔ (mkRecord "U" "🌙" "2024-01-01 23:00" "sleep").record_type = "wakeup") ∧
    ((mkRecord "U" "🌙" "2024-01-01 23:00" "sleep").status = "🌙"
        ↔ (mkRecord "U" "🌙" "2024-01-01 23:00" "sleep").record_type = "sleep") ∧
    ((mkRecord "U" "🌙" "2024-01-01 23:00" "sleep").status = "☀️"
        ∨ (mkRecord "U" "🌙" "2024-01-01 23:00" "sleep").status = "🌙") :=
  (C26_status_matches_record_type fromFormatTokyo).2
    [Action.button "wake_up" "U" "G" "2024-01-01 07:00" 1000,
     Action.reaction false trackerChannel "U" "G" "🌙" "2024-01-01 23:00"]
    (mkRecord "U" "🌙" "2024-01-01 23:00" "sleep") (by decide)

/-- C30: the map `resetConfirmationPending` is read and written with the user id
alone. A first press of `reset_status` by a user in guild A (one that confirms
nothing), at a time `now1` that is not the number 0, deletes nothing; a press of the
same user in another guild B at `now2`, with `now2 - now1` less than
`RESET_CONFIRMATION_TIMEOUT_MS`, then runs the delete for guild B: no row of the user
in guild B is left, every row of guild A is still in the table, and the pending entry
of the user is removed. -/
theorem C30_pending_keyed_by_user_alone (s : AppState)
    (userId guildA guildB time1 time2 : String) (now1 now2 : Int)
    (hfirst : ∀ t, s.resetConfirmationPending.get userId = some t →
      ¬ (t ≠ 0 ∧ now1 - t < RESET_CONFIRMATION_TIMEOUT_MS))
    (hnz : now1 ≠ 0) (hwithin : now2 - now1 < RESET_CONFIRMATION_TIMEOUT_MS)
    (hAB : guildA ≠ guildB) :
    (interactionCreate_button s "reset_status" userId guildA time1 now1).db = s.db ∧
    (interactionCreate_button
        (interactionCreate_button s "reset_status" userId guildA time1 now1)
        "reset_status" userId guildB time2 now2).db
      = clearUserSleepRecords s.db userId guildB ∧
    (∀ r ∈ s.db, r.guild_id = guildA →
      r ∈ (interactionCreate_button
        (interactionCreate_button s "reset_status" userId guildA time1 now1)
        "reset_status" userId guildB time2 now2).db) ∧
    (∀ r ∈ (interactionCreate_button
        (interactionCreate_button s "reset_status" userId guildA time1 now1)
        "reset_status" userId guildB time2 now2).db,
      ¬ (r.user_id = userId ∧ r.guild_id = guildB)) ∧
    (interactionCreate_button
        (interactionCreate_button s "reset_status" userId guildA time1 now1)
        "reset_status" userId guildB time2 now2).resetConfirmationPending.get userId
      = none := by
  rw [reset_button_first s userId guildA time1 now1 hfirst]
  rw [reset_button_confirm _ userId guildB time2 now2 now1
    (pending_get_set_self _ _ _) hnz hwithin]
  refine ⟨rfl, rfl, ?_, ?_, pending_get_delete_self _ _⟩
  · intro r hr hg
    exact (mem_clearUserSleepRecords s.db userId guildB r).2
      ⟨hr, fun h => hAB (hg.symm.trans h.2)⟩
  · intro r hr
    exact ((mem_clearUserSleepRecords s.db userId guildB r).1 hr).2

/-- C30 at a concrete input: user `V` has a row in guild `G` and a row in guild `H`,
presses `reset_status` in `G` at 1000 ms and in `H` at 5000 ms; the row of guild `H` is
deleted and the row of guild `G` is kept. -/
theorem C30_pending_keyed_witness :
    (interactionCreate_button
        (interactionCreate_button
          { db := [⟨"V", "G", "🌙", "2024-01-01 13:00", "sleep"⟩,
                   ⟨"V", "H", "🌙", "2024-01-01 13:00", "sleep"⟩],
            resetConfirmationPending := [], remindedUsers := [] }
          "reset_status" "V" "G" "2024-01-03 08:00" 1000)
        "reset_status" "V" "H" "2024-01-03 08:00" 5000).db
      = clearUserSleepRecords
          [⟨"V", "G", "🌙", "2024-01-01 13:00", "sleep"⟩,
           ⟨"V", "H", "🌙", "2024-01-01 13:00", "sleep"⟩] "V" "H" ∧
    clearUserSleepRecords
        [⟨"V", "G", "🌙", "2024-01-01 13:00", "sleep"⟩,
         ⟨"V", "H", "🌙", "2024-01-01 13:00", "sleep"⟩] "V" "H"
      = [⟨"V", "G", "🌙", "2024-01-01 13:00", "sleep"⟩] :=
  ⟨(C30_pending_keyed_by_user_alone
      { db := [⟨"V", "G", "🌙", "2024-01-01 13:00", "sleep"⟩,
               ⟨"V", "H", "🌙", "2024-01-01 13:00", "sleep"⟩],
        resetConfirmationPending := [], remindedUsers := [] }
      "V" "G" "H" "2024-01-03 08:00" "2024-01-03 08:00" 1000 5000
      (fun t ht => by cases ht) (by decide) (by decide) (by decide)).2.1,
   by decide⟩

end SleepTracker
